import Mathlib

/-! # Participant configuration of preCICE: resolution and finalization

A shallow embedding of `src/precice/config/ParticipantConfiguration.cpp`
(`xmlTagCallback`, `xmlEndTagCallback`, `addParticipant`, `copy`, `getData`,
`finishParticipantConfiguration`, `setLocalData`) together with the properties
the specification states about it.

Conventions of the embedding

* A shared pointer (`PtrMesh`, `PtrData`, `PtrMapping`) that may be null is an
  `Option`; a pointer that the code dereferences unconditionally is the value.
* The member functions mutate the configuration object and the participant in
  place and may stop with an error in the middle.  An operation is therefore a
  function from a state to an `Outcome`: either `done s` (it ran to its end in
  state `s`) or `failed e s` (it stopped with error `e`; `s` is the state that
  the in-place updates had reached at that point).
* Coordinates are IEEE doubles that are only copied, never computed with; a
  double is represented by its 64 bit pattern.
-/

set_option autoImplicit false

namespace precice

/-! ## Errors and outcomes -/

/-- The fatal error classes of the specification: its three-class taxonomy and
the dimensional mismatch it lists beside them.  The source raises them as a
thrown message string, `preciceCheck`, `preciceError` or `assertion`; every
raising site of the embedding says which class its message belongs to. -/
inductive ConfigError where
  | ReferenceError
  | UsageError
  | ConsistencyError
  | DimensionError
  deriving DecidableEq, Repr

/-- Result of running an in-place operation on a state of type `σ`. -/
inductive Outcome (σ : Type) where
  | done (s : σ)
  | failed (e : ConfigError) (s : σ)
  deriving DecidableEq, Repr

namespace Outcome

variable {σ τ : Type}

/-- The state the operation ended in, whether it completed or stopped. -/
def state : Outcome σ → σ
  | done s => s
  | failed _ s => s

/-- The error the operation stopped with, if any. -/
def error? : Outcome σ → Option ConfigError
  | done _ => none
  | failed e _ => some e

/-- Sequencing of statements: the next statement runs only when the previous
one completed. -/
def andThen (o : Outcome σ) (f : σ → Outcome σ) : Outcome σ :=
  match o with
  | done s => f s
  | failed e s => failed e s

/-- Run an operation on a component of the state and store the component back,
also when the operation stopped half-way (updates are in place). -/
def mapState (g : σ → τ) : Outcome σ → Outcome τ
  | done s => done (g s)
  | failed e s => failed e (g s)

end Outcome

/-- A `foreach` loop whose body may stop with an error. -/
def forEach {α σ : Type} (body : α → σ → Outcome σ) : List α → σ → Outcome σ
  | [], s => Outcome.done s
  | a :: as, s =>
    match body a s with
    | Outcome.done s1 => forEach body as s1
    | Outcome.failed e s1 => Outcome.failed e s1

/-! ## Data model -/

/-- Order of `mapping::Mapping::MeshRequirement`. -/
inductive MeshRequirement where
  | UNDEFINED
  | TEMPORARY
  | VERTEX
  | FULL
  deriving DecidableEq, Repr

namespace MeshRequirement

/-- Modelled from the spec: the enumerator values of `Mapping::MeshRequirement`
are declared in `mapping/Mapping.hpp`, which is not part of the excerpt; the
specification gives the order `UNDEFINED < TEMPORARY < VERTEX < FULL`. -/
def rank : MeshRequirement → Nat
  | UNDEFINED => 0
  | TEMPORARY => 1
  | VERTEX => 2
  | FULL => 3

instance : LE MeshRequirement := ⟨fun a b => a.rank ≤ b.rank⟩
instance : LT MeshRequirement := ⟨fun a b => a.rank < b.rank⟩

instance (a b : MeshRequirement) : Decidable (a ≤ b) :=
  inferInstanceAs (Decidable (a.rank ≤ b.rank))

instance (a b : MeshRequirement) : Decidable (a < b) :=
  inferInstanceAs (Decidable (a.rank < b.rank))

/-- The greater of two requirement levels. -/
def maxReq (a b : MeshRequirement) : MeshRequirement :=
  if b > a then b else a

end MeshRequirement

/-- Enumeration `MappingConfiguration::Timing`.  The source names `INITIAL`
and `INCREMENTAL`; `OTHER` stands for any further enumerator of the enum,
which is declared outside the excerpt. -/
inductive Timing where
  | INITIAL
  | INCREMENTAL
  | OTHER (code : Nat)
  deriving DecidableEq, Repr

/-- Enumeration `MappingConfiguration::Direction`. -/
inductive Direction where
  | WRITE
  | READ
  deriving DecidableEq, Repr

/-- Bit pattern of an IEEE double. -/
abbrev Double := Nat

/-- A `utils::DynVector`. -/
abbrev DynVector := List Double

/-- A `mesh::Data`: a named data field with its identifier. -/
structure Data where
  name : String
  id : Int
  dimensions : Nat
  deriving DecidableEq, Repr

/-- A `mesh::Mesh`, reduced to the members the configuration reads:
name, identifier, dimensionality, normal orientation and data schema. -/
structure Mesh where
  name : String
  id : Int
  dimensions : Nat
  flipNormals : Bool
  data : List Data
  deriving DecidableEq, Repr

/-- A `mapping::Mapping`: only its requirement levels and the two meshes
bound by `setMeshes` matter to the configuration. -/
structure Mapping where
  inputRequirement : MeshRequirement
  outputRequirement : MeshRequirement
  input : Option Mesh
  output : Option Mesh
  deriving DecidableEq, Repr

/-- Modelled from the spec: `Mapping::setMeshes(input, output)` is outside the
excerpt; it binds the input and the output mesh of the mapping. -/
def Mapping.setMeshes (map : Mapping) (input output : Mesh) : Mapping :=
  { map with input := some input, output := some output }

/-- An `impl::MappingContext`. -/
structure MappingContext where
  mapping : Option Mapping
  localMesh : Option Mesh
  timing : Timing
  deriving DecidableEq, Repr

/-- Modelled from the spec: the default constructor of `impl::MappingContext`
is not part of the excerpt.  Mapping and local mesh are unresolved (null);
the timing of an unresolved context is never read by the configuration. -/
def MappingContext.empty : MappingContext :=
  { mapping := none, localMesh := none, timing := Timing.INITIAL }

/-- A geometry registered for a mesh name. -/
structure Geometry where
  meshName : String
  deriving DecidableEq, Repr

/-- A spacetree registered under its own name. -/
structure Spacetree where
  name : String
  deriving DecidableEq, Repr

/-- An `impl::MeshContext`. -/
structure MeshContext where
  mesh : Mesh
  geometry : Option Geometry
  spacetree : Option Spacetree
  localOffset : DynVector
  remote : Bool
  receiveMeshFrom : String
  provideMesh : Bool
  meshRequirement : MeshRequirement
  writeMappingContext : MappingContext
  readMappingContext : MappingContext
  deriving DecidableEq, Repr

/-- An `impl::DataContext`. -/
structure DataContext where
  data : Data
  mesh : Mesh
  mappingContext : MappingContext
  localData : Option Data
  deriving DecidableEq, Repr

/-- An `action::Action`, reduced to its target mesh and a label. -/
structure Action where
  mesh : Mesh
  label : String
  deriving DecidableEq, Repr

/-- An `io::ExportContext`; its contents are not inspected. -/
structure ExportContext where
  location : String
  deriving DecidableEq, Repr

/-- An `impl::WatchPoint` as constructed from coordinates, mesh and file name. -/
structure WatchPoint where
  coordinates : DynVector
  mesh : Option Mesh
  filename : String
  deriving DecidableEq, Repr

/-- The buffered `WatchPointConfig`. -/
structure WatchPointConfig where
  name : String
  nameMesh : String
  coordinates : DynVector
  deriving DecidableEq, Repr

/-- A `MappingConfiguration::ConfiguredMapping`. -/
structure ConfiguredMapping where
  mesh : Mesh
  direction : Direction
  timing : Timing
  mapping : Mapping
  deriving DecidableEq, Repr

/-- A communication handle made by `CommunicationConfiguration`. -/
structure Communication where
  kind : String
  deriving DecidableEq, Repr

/-- An `impl::Participant`. -/
structure Participant where
  name : String
  usedMeshContexts : List MeshContext
  writeDataContexts : List DataContext
  readDataContexts : List DataContext
  actions : List Action
  exportContexts : List ExportContext
  watchPoints : List WatchPoint
  clientServerCommunication : Option Communication
  deriving DecidableEq, Repr

/-- Modelled from the spec: `mesh::MeshConfiguration` is not part of the
excerpt.  It is the mesh-by-name lookup table of the specification, populated
before participants are configured, together with the table that tells which
mesh uses which spacetree. -/
structure MeshConfiguration where
  meshes : List Mesh
  spacetreeNames : List (String × String)
  deriving DecidableEq, Repr

/-- `MeshConfiguration::getMesh(name)`: the registered mesh of that name, or
a null pointer. -/
def MeshConfiguration.getMesh (m : MeshConfiguration) (name : String) : Option Mesh :=
  m.meshes.find? (fun mesh => mesh.name == name)

/-- `MeshConfiguration::doesMeshUseSpacetree(name)`. -/
def MeshConfiguration.doesMeshUseSpacetree (m : MeshConfiguration) (name : String) : Bool :=
  (m.spacetreeNames.lookup name).isSome

/-- `MeshConfiguration::getSpacetreeName(name)`. -/
def MeshConfiguration.getSpacetreeName (m : MeshConfiguration) (name : String) : String :=
  (m.spacetreeNames.lookup name).getD ""

/-- The state of a `ParticipantConfiguration` object.  `mappingConfig`,
`actionConfig` and `exportConfig` are the pending lists held by the three
sub-configurations (`mappings()`, `actions()`, `exportContexts()`).
`meshIDs` and `dataIDs` are the next identifiers that the constructors of
`Mesh` and `Data` hand out; those constructors are outside the excerpt and
their counters are kept beside the configuration. -/
structure ParticipantConfiguration where
  dimensions : Nat
  meshConfig : MeshConfiguration
  geometryConfig : List Geometry
  spacetreeConfig : List Spacetree
  mappingConfig : List ConfiguredMapping
  actionConfig : List Action
  exportConfig : List ExportContext
  participants : List Participant
  watchPointConfigs : List WatchPointConfig
  meshIDs : Nat
  dataIDs : Nat
  deriving DecidableEq, Repr

/-! ## Participant operations

Modelled from the spec: `impl::Participant` is declared outside the excerpt.
The specification describes it as the ordered list of mesh contexts keyed by
mesh identity, the two data context lists, and the lists of actions, export
contexts and watch points. -/

/-- `Participant::meshContext(meshID)`: the context bound to that mesh
identity, if the participant uses the mesh. -/
def Participant.meshContext (p : Participant) (meshID : Int) : Option MeshContext :=
  p.usedMeshContexts.find? (fun context => context.mesh.id == meshID)

/-- `Participant::isMeshUsed(meshID)`. -/
def Participant.isMeshUsed (p : Participant) (meshID : Int) : Bool :=
  (p.meshContext meshID).isSome

/-- Store a context back into the slot of its mesh identity: the effect of
writing through the reference returned by `Participant::meshContext`. -/
def replaceContext (meshID : Int) (updated : MeshContext) : List MeshContext → List MeshContext
  | [] => []
  | context :: rest =>
    if context.mesh.id == meshID then updated :: rest
    else context :: replaceContext meshID updated rest

/-- Write a mesh context back into the participant. -/
def Participant.setMeshContext (p : Participant) (meshID : Int) (updated : MeshContext) :
    Participant :=
  { p with usedMeshContexts := replaceContext meshID updated p.usedMeshContexts }

/-- Modelled from the spec: `Participant::useMesh` is outside the excerpt.
It builds a mesh context with requirement `UNDEFINED` and unresolved mapping
contexts and appends it, rejecting (fatal) a mesh identity that the
participant already uses. -/
def Participant.useMesh (p : Participant) (mesh : Mesh) (geometry : Option Geometry)
    (spacetree : Option Spacetree) (localOffset : DynVector) (remote : Bool)
    (fromParticipant : String) (provideMesh : Bool) : Outcome Participant :=
  if p.isMeshUsed mesh.id then Outcome.failed ConfigError.ConsistencyError p
  else Outcome.done { p with usedMeshContexts := p.usedMeshContexts ++
    [{ mesh := mesh, geometry := geometry, spacetree := spacetree,
       localOffset := localOffset, remote := remote,
       receiveMeshFrom := fromParticipant, provideMesh := provideMesh,
       meshRequirement := MeshRequirement.UNDEFINED,
       writeMappingContext := MappingContext.empty,
       readMappingContext := MappingContext.empty }] }

/-- `Participant::addWriteData(data, mesh)`: a data context whose mapping
context and local data are unresolved. -/
def Participant.addWriteData (p : Participant) (data : Data) (mesh : Mesh) : Participant :=
  { p with writeDataContexts := p.writeDataContexts ++
    [{ data := data, mesh := mesh, mappingContext := MappingContext.empty, localData := none }] }

/-- `Participant::addReadData(data, mesh)`. -/
def Participant.addReadData (p : Participant) (data : Data) (mesh : Mesh) : Participant :=
  { p with readDataContexts := p.readDataContexts ++
    [{ data := data, mesh := mesh, mappingContext := MappingContext.empty, localData := none }] }

/-- `Participant::addAction(action)`. -/
def Participant.addAction (p : Participant) (action : Action) : Participant :=
  { p with actions := p.actions ++ [action] }

/-- `Participant::addExportContext(context)`. -/
def Participant.addExportContext (p : Participant) (context : ExportContext) : Participant :=
  { p with exportContexts := p.exportContexts ++ [context] }

/-- `Participant::addWatchPoint(watchPoint)`. -/
def Participant.addWatchPoint (p : Participant) (watchPoint : WatchPoint) : Participant :=
  { p with watchPoints := p.watchPoints ++ [watchPoint] }

/-- The constructor `Participant(name, meshConfig)`. -/
def Participant.new (name : String) : Participant :=
  { name := name, usedMeshContexts := [], writeDataContexts := [], readDataContexts := [],
    actions := [], exportContexts := [], watchPoints := [],
    clientServerCommunication := none }

/-- Modelled from the spec: `Mesh::createData(name, dimensions)` is outside
the excerpt; it appends a data field of that name and dimension to the mesh
schema, with the next free data identifier. -/
def Mesh.createData (mesh : Mesh) (dataIDs : Nat) (name : String) (dimensions : Nat) :
    Mesh × Nat :=
  ({ mesh with data := mesh.data ++ [{ name := name, id := dataIDs, dimensions := dimensions }] },
   dataIDs + 1)

/-- Modelled from the spec: `Mesh::data(dataID)` is outside the excerpt; it
is the data field of the mesh with that identifier. -/
def Mesh.dataByID (mesh : Mesh) (dataID : Int) : Option Data :=
  mesh.data.find? (fun data => data.id == dataID)

/-! ## `ParticipantConfiguration::copy` and `getData` -/

/-- The `foreach` of `copy`: one `createData` per data field of the source. -/
def copyData : List Data → Mesh × Nat → Mesh × Nat
  | [], acc => acc
  | data :: rest, acc => copyData rest (acc.1.createData acc.2 data.name data.dimensions)

/-- `ParticipantConfiguration::copy(mesh)`: a new mesh named `Local_<name>`
with the same dimensionality, normal orientation and data schema.  The result
carries the advanced identifier counters `(meshIDs, dataIDs)`. -/
def copy (meshIDs dataIDs : Nat) (mesh : Mesh) : Mesh × Nat × Nat :=
  let dim := mesh.dimensions
  let name := mesh.name
  let flipNormals := mesh.flipNormals
  let meshCopy : Mesh :=
    { name := "Local_" ++ name, id := meshIDs, dimensions := dim,
      flipNormals := flipNormals, data := [] }
  let filled := copyData mesh.data (meshCopy, dataIDs)
  (filled.1, meshIDs + 1, filled.2)

/-- `ParticipantConfiguration::getData(mesh, nameData)`: the first data field
of the mesh with exactly that name; `preciceError` (data assigned wrongly to
the mesh: a `ReferenceError`) when there is none. -/
def getData (mesh : Mesh) (nameData : String) : Except ConfigError Data :=
  match mesh.data.find? (fun data => data.name == nameData) with
  | some data => Except.ok data
  | none => Except.error ConfigError.ReferenceError

/-! ## `finishParticipantConfiguration` -/

/-- Modelled from the spec: the `assertion` macro comes from
`utils/Globals.hpp`, outside the excerpt.  The specification makes a violated
assertion of the finalization a fatal internal consistency failure. -/
def assertion (condition : Bool) : Except ConfigError Unit :=
  if condition then Except.ok () else Except.error ConfigError.ConsistencyError

/-- The state `finishParticipantConfiguration(participant)` works on: the
configuration object and the participant behind the pointer.  Both callers
pass `_participants.back()`, so `participant` and `_participants.back()` name
the same object inside the function. -/
structure FinishState where
  config : ParticipantConfiguration
  participant : Participant
  deriving DecidableEq, Repr

/-- The write branch of the mapping loop after its assertion (lines 498-510):
assign the mapping, raise the requirement to the input requirement if that is
greater, create the local mesh if it is null, bind input = local mesh and
output = context mesh, store the timing. -/
def bindWriteMapping (meshIDs dataIDs : Nat) (meshContext : MeshContext)
    (confMapping : ConfiguredMapping) : MeshContext × Nat × Nat :=
  let map := confMapping.mapping
  let requirement :=
    if map.inputRequirement > meshContext.meshRequirement then map.inputRequirement
    else meshContext.meshRequirement
  let created :=
    match meshContext.writeMappingContext.localMesh with
    | none => copy meshIDs dataIDs meshContext.mesh
    | some localMesh => (localMesh, meshIDs, dataIDs)
  let input := created.1
  let output := meshContext.mesh
  ({ meshContext with
      meshRequirement := requirement
      writeMappingContext :=
        { mapping := some (map.setMeshes input output)
          localMesh := some created.1
          timing := confMapping.timing } },
   created.2.1, created.2.2)

/-- The read branch of the mapping loop after its assertion (lines 517-529):
as the write branch, with the output requirement, and input = context mesh,
output = local mesh. -/
def bindReadMapping (meshIDs dataIDs : Nat) (meshContext : MeshContext)
    (confMapping : ConfiguredMapping) : MeshContext × Nat × Nat :=
  let map := confMapping.mapping
  let requirement :=
    if map.outputRequirement > meshContext.meshRequirement then map.outputRequirement
    else meshContext.meshRequirement
  let created :=
    match meshContext.readMappingContext.localMesh with
    | none => copy meshIDs dataIDs meshContext.mesh
    | some localMesh => (localMesh, meshIDs, dataIDs)
  let input := meshContext.mesh
  let output := created.1
  ({ meshContext with
      meshRequirement := requirement
      readMappingContext :=
        { mapping := some (map.setMeshes input output)
          localMesh := some created.1
          timing := confMapping.timing } },
   created.2.1, created.2.2)

/-- The timing rule that closes the loop body (lines 532-538). -/
def applyTimingRule (confMapping : ConfiguredMapping) (meshContext : MeshContext) : MeshContext :=
  if confMapping.timing = Timing.INITIAL ∨ confMapping.timing ≠ Timing.INCREMENTAL then
    if meshContext.meshRequirement = MeshRequirement.TEMPORARY then
      { meshContext with meshRequirement := MeshRequirement.VERTEX }
    else meshContext
  else meshContext

/-- Body of the mapping loop once the mesh context is at hand (lines 495-538).
In either branch the assertion that no mapping is set yet precedes every
update, so a failure leaves the context untouched. -/
def configureMapping (meshIDs dataIDs : Nat) (meshContext : MeshContext)
    (confMapping : ConfiguredMapping) : Except ConfigError (MeshContext × Nat × Nat) :=
  match confMapping.direction with
  | Direction.WRITE =>
    match assertion meshContext.writeMappingContext.mapping.isNone with
    | Except.error e => Except.error e
    | Except.ok _ =>
      let bound := bindWriteMapping meshIDs dataIDs meshContext confMapping
      Except.ok (applyTimingRule confMapping bound.1, bound.2)
  | Direction.READ =>
    match assertion meshContext.readMappingContext.mapping.isNone with
    | Except.error e => Except.error e
    | Except.ok _ =>
      let bound := bindReadMapping meshIDs dataIDs meshContext confMapping
      Except.ok (applyTimingRule confMapping bound.1, bound.2)

/-- One iteration of the mapping loop (lines 488-539): `preciceCheck` that the
mesh is used by the participant (a `UsageError`: mapping to or from a mesh
"which he does not use"), then merge into the context of that mesh. -/
def mergeMapping (confMapping : ConfiguredMapping) (s : FinishState) : Outcome FinishState :=
  let meshID := confMapping.mesh.id
  match s.participant.meshContext meshID with
  | none => Outcome.failed ConfigError.UsageError s
  | some meshContext =>
    match configureMapping s.config.meshIDs s.config.dataIDs meshContext confMapping with
    | Except.error e => Outcome.failed e s
    | Except.ok (updated, meshIDs, dataIDs) =>
      Outcome.done
        { config := { s.config with meshIDs := meshIDs, dataIDs := dataIDs }
          participant := s.participant.setMeshContext meshID updated }

/-- Step A: the mapping loop over `_mappingConfig->mappings()` followed by
`_mappingConfig->resetMappings()`. -/
def mergeMappings (s : FinishState) : Outcome FinishState :=
  (forEach mergeMapping s.config.mappingConfig s).andThen fun s1 =>
    Outcome.done { s1 with config := { s1.config with mappingConfig := [] } }

/-- `ParticipantConfiguration::setLocalData(dataContext, mesh)`: the name of
the data is read from the mesh by identifier, and the first data field of the
local mesh with that name becomes `localData`; the final assertion requires
`localData` to be non-null.  A data identifier unknown to the mesh, or a null
local mesh, is the internal resolution failure of the specification. -/
def setLocalData (dataContext : DataContext) (mesh : Mesh) : Outcome DataContext :=
  let dataID := dataContext.data.id
  match mesh.dataByID dataID with
  | none => Outcome.failed ConfigError.ConsistencyError dataContext
  | some named =>
    let dataName := named.name
    match dataContext.mappingContext.localMesh with
    | none => Outcome.failed ConfigError.ConsistencyError dataContext
    | some localMesh =>
      let resolved : DataContext :=
        match localMesh.data.find? (fun data => data.name == dataName) with
        | some data => { dataContext with localData := some data }
        | none => dataContext
      if resolved.localData.isSome then Outcome.done resolved
      else Outcome.failed ConfigError.ConsistencyError resolved

/-- The mapping context of a mesh context for one direction. -/
def MeshContext.mappingContextOf (meshContext : MeshContext) : Direction → MappingContext
  | Direction.WRITE => meshContext.writeMappingContext
  | Direction.READ => meshContext.readMappingContext

/-- Body of the two data context loops (lines 543-565), which differ only in
the direction of the mapping context they read: `preciceCheck` that the mesh
of the data is used (a `UsageError`), then copy the mapping context and
resolve the local data when a mapping is set. -/
def resolveDataContext (direction : Direction) (participant : Participant)
    (dataContext : DataContext) : Outcome DataContext :=
  let meshID := dataContext.mesh.id
  match participant.meshContext meshID with
  | none => Outcome.failed ConfigError.UsageError dataContext
  | some meshContext =>
    if (meshContext.mappingContextOf direction).mapping.isSome then
      setLocalData { dataContext with mappingContext := meshContext.mappingContextOf direction }
        meshContext.mesh
    else Outcome.done dataContext

/-- A `foreach` over a container whose elements are updated in place. -/
def forEachInPlace {α : Type} (body : α → Outcome α) : List α → Outcome (List α)
  | [] => Outcome.done []
  | a :: as =>
    match body a with
    | Outcome.done a1 => (forEachInPlace body as).mapState (fun rest => a1 :: rest)
    | Outcome.failed e a1 => Outcome.failed e (a1 :: as)

/-- Step B, first loop: the write data contexts. -/
def resolveWriteData (s : FinishState) : Outcome FinishState :=
  (forEachInPlace (resolveDataContext Direction.WRITE s.participant)
      s.participant.writeDataContexts).mapState
    fun contexts => { s with participant := { s.participant with writeDataContexts := contexts } }

/-- Step B, second loop: the read data contexts. -/
def resolveReadData (s : FinishState) : Outcome FinishState :=
  (forEachInPlace (resolveDataContext Direction.READ s.participant)
      s.participant.readDataContexts).mapState
    fun contexts => { s with participant := { s.participant with readDataContexts := contexts } }

/-- One iteration of the action loop (lines 568-574): `preciceCheck` that the
mesh of the action is used (a `UsageError`), then `addAction`. -/
def addAction (action : Action) (s : FinishState) : Outcome FinishState :=
  let used := s.participant.isMeshUsed action.mesh.id
  if used then Outcome.done { s with participant := s.participant.addAction action }
  else Outcome.failed ConfigError.UsageError s

/-- Step C: the action loop followed by `_actionConfig->resetActions()`. -/
def addActions (s : FinishState) : Outcome FinishState :=
  (forEach addAction s.config.actionConfig s).andThen fun s1 =>
    Outcome.done { s1 with config := { s1.config with actionConfig := [] } }

/-- Step D: every pending export context is added, then
`_exportConfig->resetExports()`. -/
def addExportContexts (s : FinishState) : Outcome FinishState :=
  (forEach (fun context (s1 : FinishState) =>
      Outcome.done { s1 with participant := s1.participant.addExportContext context })
    s.config.exportConfig s).andThen fun s1 =>
    Outcome.done { s1 with config := { s1.config with exportConfig := [] } }

/-- The inner loop of the watch point step (lines 585-590): the mesh of the
last used context whose mesh name equals `nameMesh`, null if there is none. -/
def findWatchedMesh (contexts : List MeshContext) (nameMesh : String) : Option Mesh :=
  contexts.foldl
    (fun mesh context => if context.mesh.name == nameMesh then some context.mesh else mesh) none

/-- One iteration of the watch point loop (lines 584-600): `preciceCheck` that
a used mesh of that name exists (a `UsageError`: watchpoint for a mesh "which
is not used by him"), then build the file name and add the watch point. -/
def createWatchPoint (config : WatchPointConfig) (s : FinishState) : Outcome FinishState :=
  let mesh := findWatchedMesh s.participant.usedMeshContexts config.nameMesh
  if mesh.isSome then
    let filename := config.name ++ ".watchpoint.txt"
    let watchPoint : WatchPoint :=
      { coordinates := config.coordinates, mesh := mesh, filename := filename }
    Outcome.done { s with participant := s.participant.addWatchPoint watchPoint }
  else Outcome.failed ConfigError.UsageError s

/-- Step E: the watch point loop followed by `_watchPointConfigs.clear()`. -/
def createWatchPoints (s : FinishState) : Outcome FinishState :=
  (forEach createWatchPoint s.config.watchPointConfigs s).andThen fun s1 =>
    Outcome.done { s1 with config := { s1.config with watchPointConfigs := [] } }

/-- `ParticipantConfiguration::finishParticipantConfiguration(participant)`. -/
def finishParticipantConfiguration (s : FinishState) : Outcome FinishState :=
  ((((mergeMappings s).andThen resolveWriteData).andThen resolveReadData).andThen
    addActions).andThen addExportContexts |>.andThen createWatchPoints

/-! ## The tag callbacks -/

/-- Modelled from the spec: `utils::XMLTag` is the markup collaborator, outside
the excerpt.  A tag carries its name, its namespace and its attribute values
by attribute name. -/
structure XMLTag where
  name : String
  nspace : String
  stringAttributes : List (String × String)
  booleanAttributes : List (String × Bool)
  dynVectorAttributes : List (String × DynVector)
  deriving DecidableEq, Repr

/-- `XMLTag::getStringAttributeValue(name)`. -/
def XMLTag.getStringAttributeValue (tag : XMLTag) (name : String) : String :=
  (tag.stringAttributes.lookup name).getD ""

/-- `XMLTag::getBooleanAttributeValue(name)`. -/
def XMLTag.getBooleanAttributeValue (tag : XMLTag) (name : String) : Bool :=
  (tag.booleanAttributes.lookup name).getD false

/-- Modelled from the spec: `XMLTag::getDynVectorAttributeValue(name,
dimensions)` is outside the excerpt.  A vector shorter than the configured
dimensionality is a fatal dimensional mismatch; otherwise the vector is read
in that dimensionality (the default offset of `use-mesh` has three components
in every dimensionality). -/
def XMLTag.getDynVectorAttributeValue (tag : XMLTag) (name : String) (dimensions : Nat) :
    Except ConfigError DynVector :=
  let value := (tag.dynVectorAttributes.lookup name).getD []
  if value.length < dimensions then Except.error ConfigError.DimensionError
  else Except.ok (value.take dimensions)

def TAG : String := "participant"
def TAG_WRITE : String := "write-data"
def TAG_READ : String := "read-data"
def TAG_USE_MESH : String := "use-mesh"
def TAG_WATCH_POINT : String := "watch-point"
def TAG_SERVER : String := "server"
def ATTR_NAME : String := "name"
def ATTR_LOCAL_OFFSET : String := "offset"
def ATTR_FROM : String := "from"
def ATTR_PROVIDE : String := "provide"
def ATTR_MESH : String := "mesh"
def ATTR_COORDINATE : String := "coordinate"

/-- Run an operation on `_participants.back()` and keep its effect in the
list.  The tag grammar nests every sub-tag in a participant tag, so the list
is not empty when a sub-tag arrives; on an empty list nothing is done. -/
def onBack (c : ParticipantConfiguration) (operation : Participant → Outcome Participant) :
    Outcome ParticipantConfiguration :=
  match c.participants.getLast? with
  | none => Outcome.done c
  | some back =>
    (operation back).mapState fun updated =>
      { c with participants := c.participants.dropLast ++ [updated] }

/-- The `write-data` and `read-data` branches of `xmlTagCallback` (lines
353-372), which differ only in the list the data context is added to:
`preciceCheck` that `_meshConfig->getMesh(meshName)` is not null (the message
says that the participant "has to use mesh": a `UsageError`), `getData`, then
`addWriteData` or `addReadData`. -/
def bindData (direction : Direction) (tag : XMLTag) (c : ParticipantConfiguration) :
    Outcome ParticipantConfiguration :=
  let dataName := tag.getStringAttributeValue ATTR_NAME
  let meshName := tag.getStringAttributeValue ATTR_MESH
  match c.meshConfig.getMesh meshName with
  | none => Outcome.failed ConfigError.UsageError c
  | some mesh =>
    match getData mesh dataName with
    | Except.error e => Outcome.failed e c
    | Except.ok data =>
      onBack c fun back =>
        match direction with
        | Direction.WRITE => Outcome.done (back.addWriteData data mesh)
        | Direction.READ => Outcome.done (back.addReadData data mesh)

/-- The `use-mesh` branch of `xmlTagCallback` (lines 328-349).  The thrown
message "uses mesh ... which is not defined" is a `ReferenceError`. -/
def bindMesh (tag : XMLTag) (c : ParticipantConfiguration) : Outcome ParticipantConfiguration :=
  match assertion (c.dimensions != 0) with
  | Except.error e => Outcome.failed e c
  | Except.ok _ =>
    let name := tag.getStringAttributeValue ATTR_NAME
    match tag.getDynVectorAttributeValue ATTR_LOCAL_OFFSET c.dimensions with
    | Except.error e => Outcome.failed e c
    | Except.ok offset =>
      let fromParticipant := tag.getStringAttributeValue ATTR_FROM
      let provide := tag.getBooleanAttributeValue ATTR_PROVIDE
      match c.meshConfig.getMesh name with
      | none => Outcome.failed ConfigError.ReferenceError c
      | some mesh =>
        let geo := c.geometryConfig.find? (fun geometry => geometry.meshName == name)
        let spacetree :=
          if c.meshConfig.doesMeshUseSpacetree name then
            let spacetreeName := c.meshConfig.getSpacetreeName name
            c.spacetreeConfig.find? (fun tree => tree.name == spacetreeName)
          else none
        onBack c fun back => back.useMesh mesh geo spacetree offset false fromParticipant provide

/-- The `watch-point` branch of `xmlTagCallback` (lines 395-403). -/
def bufferWatchPoint (tag : XMLTag) (c : ParticipantConfiguration) :
    Outcome ParticipantConfiguration :=
  match assertion (c.dimensions != 0) with
  | Except.error e => Outcome.failed e c
  | Except.ok _ =>
    match tag.getDynVectorAttributeValue ATTR_COORDINATE c.dimensions with
    | Except.error e => Outcome.failed e c
    | Except.ok coordinate =>
      let config : WatchPointConfig :=
        { name := tag.getStringAttributeValue ATTR_NAME
          nameMesh := tag.getStringAttributeValue ATTR_MESH
          coordinates := [] ++ coordinate }
      Outcome.done { c with watchPointConfigs := c.watchPointConfigs ++ [config] }

/-- `ParticipantConfiguration::xmlTagCallback(tag)`. -/
def xmlTagCallback (tag : XMLTag) (c : ParticipantConfiguration) :
    Outcome ParticipantConfiguration :=
  if tag.name = TAG then
    let name := tag.getStringAttributeValue ATTR_NAME
    Outcome.done { c with participants := c.participants ++ [Participant.new name] }
  else if tag.name = TAG_USE_MESH then bindMesh tag c
  else if tag.name = TAG_WRITE then bindData Direction.WRITE tag c
  else if tag.name = TAG_READ then bindData Direction.READ tag c
  else if tag.name = TAG_WATCH_POINT then bufferWatchPoint tag c
  else if tag.nspace = TAG_SERVER then
    onBack c fun back =>
      Outcome.done { back with clientServerCommunication := some { kind := tag.name } }
  else Outcome.done c

/-- Store the participant of a finalization state back as
`_participants.back()`. -/
def FinishState.toConfiguration (s : FinishState) : ParticipantConfiguration :=
  { s.config with participants := s.config.participants.dropLast ++ [s.participant] }

/-- `ParticipantConfiguration::xmlEndTagCallback(tag)`: the end of a
participant tag finalizes `_participants.back()`. -/
def xmlEndTagCallback (tag : XMLTag) (c : ParticipantConfiguration) :
    Outcome ParticipantConfiguration :=
  if tag.name = TAG then
    match c.participants.getLast? with
    | none => Outcome.done c
    | some back =>
      (finishParticipantConfiguration { config := c, participant := back }).mapState
        FinishState.toConfiguration
  else Outcome.done c

/-- `ParticipantConfiguration::addParticipant(participant, mappingConfig)`. -/
def addParticipant (participant : Participant) (mappingConfig : List ConfiguredMapping)
    (c : ParticipantConfiguration) : Outcome ParticipantConfiguration :=
  let c1 := { c with participants := c.participants ++ [participant]
                     mappingConfig := mappingConfig }
  (finishParticipantConfiguration { config := c1, participant := participant }).mapState
    FinishState.toConfiguration

/-- `ParticipantConfiguration::getParticipants()`. -/
def getParticipants (c : ParticipantConfiguration) : List Participant :=
  c.participants

/-! ## Definitions that follow the wording of the specification -/

/-- The declared requirement of a configured mapping for its direction: the
input requirement of a `WRITE` mapping, the output requirement of a `READ`
mapping. -/
def declaredRequirement (confMapping : ConfiguredMapping) : MeshRequirement :=
  match confMapping.direction with
  | Direction.WRITE => confMapping.mapping.inputRequirement
  | Direction.READ => confMapping.mapping.outputRequirement

/-- The running maximum `m_i = max(r0, d_1, ..., d_i)` of the declared
requirements of the first `i` merged mappings. -/
def runningMax (r0 : MeshRequirement) (merged : List (MeshRequirement × Timing)) (i : Nat) :
    MeshRequirement :=
  (merged.take i).foldl (fun m x => MeshRequirement.maxReq m x.1) r0

/-- There is a merged mapping `i` (counted from one: index `i - 1` of the list)
with `m_i = TEMPORARY` whose timing is not `INCREMENTAL`. -/
def floorApplies (r0 : MeshRequirement) (merged : List (MeshRequirement × Timing)) : Prop :=
  ∃ i, i < merged.length ∧ runningMax r0 merged (i + 1) = MeshRequirement.TEMPORARY ∧
    (merged.map Prod.snd)[i]? ≠ some Timing.INCREMENTAL

instance (r0 : MeshRequirement) (merged : List (MeshRequirement × Timing)) :
    Decidable (floorApplies r0 merged) := by
  unfold floorApplies; infer_instance

/-- The final requirement as the specification words it: the maximum `m_n`
unless that is `TEMPORARY`; then `VERTEX` if the timing floor applied at some
mapping, and `TEMPORARY` otherwise. -/
def specFinalRequirement (r0 : MeshRequirement) (merged : List (MeshRequirement × Timing)) :
    MeshRequirement :=
  let mn := runningMax r0 merged merged.length
  if mn ≠ MeshRequirement.TEMPORARY then mn
  else if floorApplies r0 merged then MeshRequirement.VERTEX else MeshRequirement.TEMPORARY

/-- The requirement that one iteration of the mapping loop leaves in the mesh
context (lines 499-501 or 518-520, then 532-538), as a function of the current
requirement and of the declared requirement and timing of the mapping. -/
def updateRequirement (current : MeshRequirement) (x : MeshRequirement × Timing) :
    MeshRequirement :=
  let raised := if x.1 > current then x.1 else current
  if x.2 = Timing.INITIAL ∨ x.2 ≠ Timing.INCREMENTAL then
    if raised = MeshRequirement.TEMPORARY then MeshRequirement.VERTEX else raised
  else raised

/-- The mappings of a buffer that are merged into the context of one mesh
identity, as pairs of declared requirement and timing, in buffer order. -/
def mergedInto (meshID : Int) (buffer : List ConfiguredMapping) :
    List (MeshRequirement × Timing) :=
  (buffer.filter fun confMapping => confMapping.mesh.id == meshID).map
    fun confMapping => (declaredRequirement confMapping, confMapping.timing)

/-- The data context list of a participant for one direction. -/
def Participant.dataContextsOf (p : Participant) : Direction → List DataContext
  | Direction.WRITE => p.writeDataContexts
  | Direction.READ => p.readDataContexts

/-- A mapping context agrees with the mesh of its mesh context: a null local
mesh goes with a null mapping, and a local mesh has the data names of the
mesh, in order (it was made by `copy`). -/
def MappingContext.Mirrors (mappingContext : MappingContext) (mesh : Mesh) : Prop :=
  match mappingContext.localMesh with
  | none => mappingContext.mapping = none
  | some localMesh => localMesh.data.map Data.name = mesh.data.map Data.name

instance (mappingContext : MappingContext) (mesh : Mesh) :
    Decidable (mappingContext.Mirrors mesh) := by
  unfold MappingContext.Mirrors
  cases mappingContext.localMesh <;> exact inferInstance

/-- Object invariant of a mesh context: both mapping contexts agree with the
mesh.  It holds for every context made by `useMesh` (both local meshes null)
and is kept by the mapping loop. -/
def MeshContext.WellFormed (meshContext : MeshContext) : Prop :=
  meshContext.writeMappingContext.Mirrors meshContext.mesh ∧
  meshContext.readMappingContext.Mirrors meshContext.mesh

instance (meshContext : MeshContext) : Decidable meshContext.WellFormed := by
  unfold MeshContext.WellFormed
  exact inferInstance

/-- The watch point that the specification derives from a buffered config and
the used mesh contexts: the coordinates of the config, the used mesh of the
config's mesh name, and the file name `<name>.watchpoint.txt`. -/
def watchPointOf (contexts : List MeshContext) (config : WatchPointConfig) : WatchPoint :=
  { coordinates := config.coordinates
    mesh := findWatchedMesh contexts config.nameMesh
    filename := config.name ++ ".watchpoint.txt" }

/-! ## Example configurations -/

def exPressure : Data := { name := "Pressure", id := 0, dimensions := 1 }

def exSurface : Mesh :=
  { name := "Surface", id := 0, dimensions := 2, flipNormals := false, data := [exPressure] }

/-- A configuration in which mesh `Surface` is registered and participant
`Fluid` has been declared without any `use-mesh`. -/
def exConfig : ParticipantConfiguration :=
  { dimensions := 2, meshConfig := { meshes := [exSurface], spacetreeNames := [] },
    geometryConfig := [], spacetreeConfig := [], mappingConfig := [], actionConfig := [],
    exportConfig := [], participants := [Participant.new "Fluid"], watchPointConfigs := [],
    meshIDs := 1, dataIDs := 1 }

/-- The tag `<write-data name="Pressure" mesh="Surface"/>`. -/
def exWriteTag : XMLTag :=
  { name := "write-data", nspace := "",
    stringAttributes := [("name", "Pressure"), ("mesh", "Surface")],
    booleanAttributes := [], dynVectorAttributes := [] }

/-- The tag `<write-data name="Pressure" mesh="Volume"/>` for a mesh that is
not registered. -/
def exWriteTagUnknown : XMLTag :=
  { name := "write-data", nspace := "",
    stringAttributes := [("name", "Pressure"), ("mesh", "Volume")],
    booleanAttributes := [], dynVectorAttributes := [] }

/-- The context that `use-mesh name="Surface"` creates. -/
def exContext : MeshContext :=
  { mesh := exSurface, geometry := none, spacetree := none, localOffset := [0, 0],
    remote := false, receiveMeshFrom := "", provideMesh := false,
    meshRequirement := MeshRequirement.UNDEFINED,
    writeMappingContext := MappingContext.empty, readMappingContext := MappingContext.empty }

/-- Participant `Fluid` using mesh `Surface` and writing `Pressure` to it. -/
def exFluid : Participant :=
  { name := "Fluid", usedMeshContexts := [exContext],
    writeDataContexts :=
      [{ data := exPressure, mesh := exSurface, mappingContext := MappingContext.empty,
         localData := none }],
    readDataContexts := [], actions := [], exportContexts := [], watchPoints := [],
    clientServerCommunication := none }

/-- A write mapping on `Surface`: declared requirement `TEMPORARY`, timing
`INCREMENTAL`. -/
def exWriteMapping : ConfiguredMapping :=
  { mesh := exSurface, direction := Direction.WRITE, timing := Timing.INCREMENTAL,
    mapping := { inputRequirement := MeshRequirement.TEMPORARY,
                 outputRequirement := MeshRequirement.FULL, input := none, output := none } }

/-- A read mapping on `Surface`: declared requirement `UNDEFINED`, timing
`INITIAL`. -/
def exReadMapping : ConfiguredMapping :=
  { mesh := exSurface, direction := Direction.READ, timing := Timing.INITIAL,
    mapping := { inputRequirement := MeshRequirement.FULL,
                 outputRequirement := MeshRequirement.UNDEFINED, input := none, output := none } }

/-- A second write mapping on `Surface`. -/
def exWriteMappingAgain : ConfiguredMapping :=
  { mesh := exSurface, direction := Direction.WRITE, timing := Timing.INITIAL,
    mapping := { inputRequirement := MeshRequirement.FULL,
                 outputRequirement := MeshRequirement.FULL, input := none, output := none } }

/-- A mesh that no example participant uses. -/
def exVolume : Mesh :=
  { name := "Volume", id := 1, dimensions := 2, flipNormals := false, data := [] }

/-- A write mapping on the unused mesh `Volume`. -/
def exVolumeMapping : ConfiguredMapping :=
  { mesh := exVolume, direction := Direction.WRITE, timing := Timing.INITIAL,
    mapping := { inputRequirement := MeshRequirement.VERTEX,
                 outputRequirement := MeshRequirement.VERTEX, input := none, output := none } }

/-- The configuration object at the end of the participant element of `Fluid`
with the given pending mappings. -/
def exFinish (participant : Participant) (mappings : List ConfiguredMapping) : FinishState :=
  { config := { exConfig with participants := [participant], mappingConfig := mappings,
                              meshIDs := 2, dataIDs := 1 }
    participant := participant }

/-- An action on mesh `Surface`. -/
def exAction : Action := { mesh := exSurface, label := "scale" }

/-- An action on the unused mesh `Volume`. -/
def exVolumeAction : Action := { mesh := exVolume, label := "scale" }

/-- A watch point declared on mesh `Surface`. -/
def exProbe : WatchPointConfig := { name := "probe", nameMesh := "Surface", coordinates := [1, 2] }

/-- A watch point declared on a mesh name that `Fluid` does not use. -/
def exVolumeProbe : WatchPointConfig :=
  { name := "far", nameMesh := "Volume", coordinates := [3, 4] }

/-- The end of the participant element of `Fluid` with one pending fragment of
every kind: two mappings, an action, an export context and a watch point. -/
def exFinishAll : FinishState :=
  { config := { exConfig with participants := [exFluid]
                              mappingConfig := [exWriteMapping, exReadMapping]
                              actionConfig := [exAction]
                              exportConfig := [{ location := "out" }]
                              watchPointConfigs := [exProbe]
                              meshIDs := 2, dataIDs := 1 }
    participant := exFluid }

/-- The write data context of `Fluid` for `Pressure` on `Surface`, as the
`write-data` binding creates it. -/
def exDataContext : DataContext :=
  { data := exPressure, mesh := exSurface, mappingContext := MappingContext.empty,
    localData := none }

/-- The local mesh that the write mapping of `exFinishAll` receives. -/
def exLocalSurface : Mesh :=
  { name := "Local_Surface", id := 2, dimensions := 2, flipNormals := false,
    data := [{ name := "Pressure", id := 1, dimensions := 1 }] }

/-- The write mapping context of `Surface` after the mapping loop of
`exFinishAll`. -/
def exWriteContext : MappingContext :=
  { mapping := some (exWriteMapping.mapping.setMeshes exLocalSurface exSurface)
    localMesh := some exLocalSurface
    timing := Timing.INCREMENTAL }

/-- The state of `exFinishAll` after the mapping loop. -/
def exAfterLoop : FinishState :=
  (forEach mergeMapping exFinishAll.config.mappingConfig exFinishAll).state

/-- The context of `Surface` after the mapping loop of `exFinishAll`: both
mappings are set, each with its own local mesh, and the requirement is
`VERTEX`. -/
def exMergedContext : MeshContext :=
  { exContext with
    meshRequirement := MeshRequirement.VERTEX
    writeMappingContext := exWriteContext
    readMappingContext :=
      { mapping := some (exReadMapping.mapping.setMeshes exSurface
          { exLocalSurface with id := 3, data := [{ name := "Pressure", id := 2, dimensions := 1 }] })
        localMesh := some
          { exLocalSurface with id := 3, data := [{ name := "Pressure", id := 2, dimensions := 1 }] }
        timing := Timing.INITIAL } }

/-! ## Declaration events -/

/-- The tag name of a data declaration of one direction. -/
def dataTagName : Direction → String
  | Direction.WRITE => TAG_WRITE
  | Direction.READ => TAG_READ

/-- The data context that `addWriteData` / `addReadData` creates: mapping
context and local data unresolved. -/
def unresolvedDataContext (data : Data) (mesh : Mesh) : DataContext :=
  { data := data, mesh := mesh, mappingContext := MappingContext.empty, localData := none }

/-- The participant after one data context was appended to the list of one
direction. -/
def Participant.withDataContext (p : Participant) (direction : Direction)
    (dataContext : DataContext) : Participant :=
  match direction with
  | Direction.WRITE => { p with writeDataContexts := p.writeDataContexts ++ [dataContext] }
  | Direction.READ => { p with readDataContexts := p.readDataContexts ++ [dataContext] }

/-- The events of the markup engine: an element started, an element ended. -/
inductive Event where
  | started (tag : XMLTag)
  | ended (tag : XMLTag)
  deriving DecidableEq, Repr

/-- Dispatch of one event to `xmlTagCallback` or `xmlEndTagCallback`. -/
def handleEvent (event : Event) (c : ParticipantConfiguration) :
    Outcome ParticipantConfiguration :=
  match event with
  | Event.started tag => xmlTagCallback tag c
  | Event.ended tag => xmlEndTagCallback tag c

/-- A configuration pass: the events in document order; the pass stops at the
first error. -/
def runEvents (events : List Event) (c : ParticipantConfiguration) :
    Outcome ParticipantConfiguration :=
  forEach handleEvent events c

/-- No two mesh contexts of the participant reference the same mesh
identity. -/
def Participant.DistinctMeshes (p : Participant) : Prop :=
  (p.usedMeshContexts.map fun context => context.mesh.id).Nodup

instance (p : Participant) : Decidable p.DistinctMeshes := by
  unfold Participant.DistinctMeshes
  exact inferInstance

/-- What the action, export and watch point steps attach to a participant. -/
def Participant.attachments (p : Participant) :
    List Action × List ExportContext × List WatchPoint :=
  (p.actions, p.exportContexts, p.watchPoints)

/-- The mapping slot of a mesh identity and a direction is taken: the
participant uses the mesh and the mapping context of that direction has a
mapping. -/
def Participant.slotTaken (p : Participant) (meshID : Int) (direction : Direction) : Prop :=
  ∃ mc, p.meshContext meshID = some mc ∧ (mc.mappingContextOf direction).mapping ≠ none

/-- Two participants use the same mesh identities and have the same mapping
slots taken. -/
def Participant.sameSlots (p q : Participant) : Prop :=
  ∀ meshID, p.isMeshUsed meshID = q.isMeshUsed meshID ∧
    ∀ direction, p.slotTaken meshID direction ↔ q.slotTaken meshID direction

/-- The end tag of a participant element. -/
def exParticipantTag : XMLTag :=
  { name := "participant", nspace := "", stringAttributes := [("name", "Fluid")],
    booleanAttributes := [], dynVectorAttributes := [] }

/-- The configuration at the end of the participant element of `Fluid` with a
pending write mapping on `Surface` and a pending action on the unused mesh
`Volume`. -/
def exConfigBadAction : ParticipantConfiguration :=
  { exConfig with participants := [exFluid]
                  mappingConfig := [exWriteMapping]
                  actionConfig := [exVolumeAction]
                  meshIDs := 2, dataIDs := 1 }

/-- The tag `<use-mesh name="Surface"/>` with its default attributes. -/
def exUseMeshTag : XMLTag :=
  { name := "use-mesh", nspace := "",
    stringAttributes := [("name", "Surface"), ("from", "")],
    booleanAttributes := [("provide", false)],
    dynVectorAttributes := [("offset", [0, 0, 0])] }

/-- The tag `<use-mesh name="Volume"/>` for a mesh that is not registered. -/
def exUseMeshTagUnknown : XMLTag :=
  { name := "use-mesh", nspace := "",
    stringAttributes := [("name", "Volume"), ("from", "")],
    booleanAttributes := [("provide", false)],
    dynVectorAttributes := [("offset", [0, 0, 0])] }

/-- The configuration before the first participant is declared. -/
def exConfigEmpty : ParticipantConfiguration :=
  { exConfig with participants := [] }

/-- The events of `<participant name="Fluid"> <use-mesh name="Surface"/>
<write-data name="Pressure" mesh="Surface"/> </participant>`. -/
def exEvents : List Event :=
  [Event.started exParticipantTag, Event.started exUseMeshTag, Event.started exWriteTag,
   Event.ended exParticipantTag]

/-- A read mapping on `Surface`: declared requirement `TEMPORARY`, timing
`INITIAL`. -/
def exReadMappingTemporary : ConfiguredMapping :=
  { mesh := exSurface, direction := Direction.READ, timing := Timing.INITIAL,
    mapping := { inputRequirement := MeshRequirement.FULL,
                 outputRequirement := MeshRequirement.TEMPORARY, input := none, output := none } }

/-- Participant `Fluid` as the `write-data` binding leaves it when no
`use-mesh` was declared: a write data context on the unbound mesh `Surface`. -/
def exFluidUnbound : Participant :=
  (Participant.new "Fluid").addWriteData exPressure exSurface

/-- A mesh without data fields, as a local mesh made from a mesh of another
schema. -/
def exForeignLocal : Mesh :=
  { name := "Local_Other", id := 9, dimensions := 2, flipNormals := false, data := [] }

/-- Participant `Fluid` whose context of `Surface` already holds a write local
mesh, of another schema than `Surface`, and no write mapping. -/
def exFluidPreset : Participant :=
  { exFluid with
    usedMeshContexts :=
      [{ exContext with
         writeMappingContext :=
           { mapping := none, localMesh := some exForeignLocal, timing := Timing.INITIAL } }] }

/-! # Properties -/

/-! ## Binding of data declarations -/

/-- The two data tags dispatch to `bindData`. -/
theorem xmlTagCallback_data_tag (tag : XMLTag) (c : ParticipantConfiguration)
    (h : tag.name = TAG_WRITE ∨ tag.name = TAG_READ) :
    ∃ direction, xmlTagCallback tag c = bindData direction tag c := by
  rcases h with h | h
  · exact ⟨Direction.WRITE, by simp [xmlTagCallback, h, TAG_WRITE, TAG, TAG_USE_MESH]⟩
  · exact ⟨Direction.READ, by simp [xmlTagCallback, h, TAG_WRITE, TAG, TAG_USE_MESH, TAG_READ]⟩

/-- An operation that cannot fail does not fail on the last participant. -/
theorem onBack_error_of_done (c : ParticipantConfiguration) (f : Participant → Participant) :
    (onBack c fun back => Outcome.done (f back)).error? = none := by
  unfold onBack
  cases c.participants.getLast? <;> simp [Outcome.mapState, Outcome.error?]

/-- C1 (amended): a `write-data` or `read-data` declaration fails with a
`UsageError`, leaving the configuration unchanged (no data context is
attached), exactly when its mesh name is not in the mesh registry; a mesh that
is registered never makes the binding fail with a `UsageError`, whether or not
the participant has bound it by `use-mesh`. -/
theorem bindData_usage_error_iff_unregistered (tag : XMLTag) (c : ParticipantConfiguration)
    (h : tag.name = TAG_WRITE ∨ tag.name = TAG_READ) :
    (c.meshConfig.getMesh (tag.getStringAttributeValue ATTR_MESH) = none →
      xmlTagCallback tag c = Outcome.failed ConfigError.UsageError c) ∧
    (c.meshConfig.getMesh (tag.getStringAttributeValue ATTR_MESH) ≠ none →
      (xmlTagCallback tag c).error? ≠ some ConfigError.UsageError) := by
  obtain ⟨direction, hd⟩ := xmlTagCallback_data_tag tag c h
  rw [hd]
  constructor
  · intro hm
    simp [bindData, hm]
  · intro hm
    cases hmesh : c.meshConfig.getMesh (tag.getStringAttributeValue ATTR_MESH) with
    | none => exact absurd hmesh hm
    | some mesh =>
      cases hdata : getData mesh (tag.getStringAttributeValue ATTR_NAME) with
      | error e =>
        have : e = ConfigError.ReferenceError := by
          unfold getData at hdata
          split at hdata <;> simp_all
        simp [bindData, hmesh, hdata, Outcome.error?, this]
      | ok data =>
        cases direction <;> simp [bindData, hmesh, hdata, onBack_error_of_done]

/-- C1 (counterexample): participant `Fluid` has no `use-mesh` declaration,
yet `write-data` on the registered mesh `Surface` completes and attaches a
data context. -/
theorem bindData_accepts_unbound_mesh :
    exWriteTag.name = TAG_WRITE ∧
    exConfig.participants.getLast? = some (Participant.new "Fluid") ∧
    exConfig.meshConfig.getMesh (exWriteTag.getStringAttributeValue ATTR_MESH) = some exSurface ∧
    (Participant.new "Fluid").isMeshUsed exSurface.id = false ∧
    xmlTagCallback exWriteTag exConfig =
      Outcome.done { exConfig with
        participants := [(Participant.new "Fluid").addWriteData exPressure exSurface] } := by
  decide

/-- C1 (witness): the unregistered mesh `Volume`. -/
theorem bindData_usage_error_iff_unregistered_witness :
    (exWriteTagUnknown.name = TAG_WRITE ∨ exWriteTagUnknown.name = TAG_READ) ∧
    exConfig.meshConfig.getMesh (exWriteTagUnknown.getStringAttributeValue ATTR_MESH) = none ∧
    xmlTagCallback exWriteTagUnknown exConfig = Outcome.failed ConfigError.UsageError exConfig :=
  ⟨by decide, by decide,
    (bindData_usage_error_iff_unregistered exWriteTagUnknown exConfig (by decide)).1 (by decide)⟩

/-! ## Requirement levels and the body of the mapping loop -/

/-- The order of requirement levels is the order of their ranks. -/
theorem MeshRequirement.le_def (a b : MeshRequirement) : a ≤ b ↔ a.rank ≤ b.rank := Iff.rfl
/-- The strict order of requirement levels is the strict order of their ranks. -/
theorem MeshRequirement.lt_def (a b : MeshRequirement) : a < b ↔ a.rank < b.rank := Iff.rfl

/-- The timing rule never lowers the requirement. -/
theorem applyTimingRule_requirement_ge (confMapping : ConfiguredMapping) (mc : MeshContext) :
    mc.meshRequirement ≤ (applyTimingRule confMapping mc).meshRequirement := by
  unfold applyTimingRule
  split
  · split
    · rename_i h; simp [h, MeshRequirement.le_def, MeshRequirement.rank]
    · exact Nat.le_refl _
  · exact Nat.le_refl _

/-- The loop body completes exactly when the slot of the mapping is free, and
then yields the bound context after the timing rule. -/
theorem configureMapping_ok_iff (meshIDs dataIDs : Nat) (meshContext : MeshContext)
    (confMapping : ConfiguredMapping) (r : MeshContext × Nat × Nat) :
    configureMapping meshIDs dataIDs meshContext confMapping = Except.ok r ↔
      (meshContext.mappingContextOf confMapping.direction).mapping = none ∧
      r = match confMapping.direction with
          | Direction.WRITE =>
            (applyTimingRule confMapping (bindWriteMapping meshIDs dataIDs meshContext confMapping).1,
              (bindWriteMapping meshIDs dataIDs meshContext confMapping).2)
          | Direction.READ =>
            (applyTimingRule confMapping (bindReadMapping meshIDs dataIDs meshContext confMapping).1,
              (bindReadMapping meshIDs dataIDs meshContext confMapping).2) := by
  unfold configureMapping MeshContext.mappingContextOf assertion
  cases confMapping.direction <;> simp only
  · cases h : meshContext.writeMappingContext.mapping <;> simp [eq_comm]
  · cases h : meshContext.readMappingContext.mapping <;> simp [eq_comm]

/-- The loop body fails exactly when the slot of the mapping is taken, and then
with a `ConsistencyError`. -/
theorem configureMapping_error_iff (meshIDs dataIDs : Nat) (meshContext : MeshContext)
    (confMapping : ConfiguredMapping) (e : ConfigError) :
    configureMapping meshIDs dataIDs meshContext confMapping = Except.error e ↔
      (meshContext.mappingContextOf confMapping.direction).mapping ≠ none ∧
      e = ConfigError.ConsistencyError := by
  unfold configureMapping MeshContext.mappingContextOf assertion
  cases confMapping.direction <;> simp only
  · cases h : meshContext.writeMappingContext.mapping <;> simp [eq_comm]
  · cases h : meshContext.readMappingContext.mapping <;> simp [eq_comm]

/-- The loop body never lowers the requirement, and it reaches the declared
requirement of the mapping. -/
theorem configureMapping_requirement_monotone (meshIDs dataIDs : Nat)
    (meshContext : MeshContext) (confMapping : ConfiguredMapping)
    (r : MeshContext × Nat × Nat)
    (h : configureMapping meshIDs dataIDs meshContext confMapping = Except.ok r) :
    meshContext.meshRequirement ≤ r.1.meshRequirement ∧
    declaredRequirement confMapping ≤ r.1.meshRequirement := by
  rw [configureMapping_ok_iff] at h
  obtain ⟨-, rfl⟩ := h
  unfold declaredRequirement
  cases hdir : confMapping.direction <;> simp only
  · have h1 := applyTimingRule_requirement_ge confMapping
      (bindWriteMapping meshIDs dataIDs meshContext confMapping).1
    have hb : (bindWriteMapping meshIDs dataIDs meshContext confMapping).1.meshRequirement =
        if confMapping.mapping.inputRequirement > meshContext.meshRequirement then
          confMapping.mapping.inputRequirement else meshContext.meshRequirement := rfl
    generalize (bindWriteMapping meshIDs dataIDs meshContext confMapping).1 = b at h1 hb
    simp only [MeshRequirement.le_def, GT.gt, MeshRequirement.lt_def] at h1 hb ⊢
    split at hb <;> rw [hb] at h1 <;> constructor <;> omega
  · have h1 := applyTimingRule_requirement_ge confMapping
      (bindReadMapping meshIDs dataIDs meshContext confMapping).1
    have hb : (bindReadMapping meshIDs dataIDs meshContext confMapping).1.meshRequirement =
        if confMapping.mapping.outputRequirement > meshContext.meshRequirement then
          confMapping.mapping.outputRequirement else meshContext.meshRequirement := rfl
    generalize (bindReadMapping meshIDs dataIDs meshContext confMapping).1 = b at h1 hb
    simp only [MeshRequirement.le_def, GT.gt, MeshRequirement.lt_def] at h1 hb ⊢
    split at hb <;> rw [hb] at h1 <;> constructor <;> omega

/-! ## Lookup and update of mesh contexts -/

/-- A context found under a mesh identity has a mesh of that identity. -/
theorem meshContext_mesh_id (p : Participant) (meshID : Int) (mc : MeshContext)
    (h : p.meshContext meshID = some mc) : mc.mesh.id = meshID := by
  unfold Participant.meshContext at h
  have := List.find?_some h
  simpa using this

/-- Lookup of the identity that was written: the updated context, if the
identity was bound. -/
theorem find_replaceContext_same (meshID : Int) (updated : MeshContext)
    (hid : updated.mesh.id = meshID) (l : List MeshContext) :
    (replaceContext meshID updated l).find? (fun context => context.mesh.id == meshID) =
      (l.find? (fun context => context.mesh.id == meshID)).map (fun _ => updated) := by
  induction l with
  | nil => rfl
  | cons c cs ih =>
    unfold replaceContext
    by_cases hc : c.mesh.id = meshID
    · simp [hc, hid]
    · simp [hc, List.find?_cons, ih]

/-- Lookup of another identity is not affected by writing a context back. -/
theorem find_replaceContext_other (meshID other : Int) (updated : MeshContext)
    (hid : updated.mesh.id = meshID) (hne : other ≠ meshID) (l : List MeshContext) :
    (replaceContext meshID updated l).find? (fun context => context.mesh.id == other) =
      l.find? (fun context => context.mesh.id == other) := by
  induction l with
  | nil => rfl
  | cons c cs ih =>
    unfold replaceContext
    by_cases hc : c.mesh.id = meshID
    · have h1 : ¬ updated.mesh.id = other := fun h => hne (h ▸ hid ▸ rfl)
      have h2 : ¬ meshID = other := fun h => hne h.symm
      simp [hc, List.find?_cons, h1, h2]
    · by_cases ho : c.mesh.id = other
      · simp [hc, List.find?_cons, ho, hne]
      · simp [hc, List.find?_cons, ho, ih]

/-- Writing back a context with the same mesh leaves the list of used meshes
unchanged. -/
theorem replaceContext_map_mesh (meshID : Int) (updated : MeshContext) (l : List MeshContext)
    (h : ∀ mc, l.find? (fun context => context.mesh.id == meshID) = some mc →
      updated.mesh = mc.mesh) :
    (replaceContext meshID updated l).map (fun context => context.mesh) =
      l.map (fun context => context.mesh) := by
  induction l with
  | nil => rfl
  | cons c cs ih =>
    unfold replaceContext
    by_cases hc : c.mesh.id = meshID
    · have := h c (by simp [List.find?_cons, hc])
      simp [hc, this]
    · simp only [beq_iff_eq, hc, ↓reduceIte, List.map_cons, List.cons.injEq, true_and]
      apply ih
      intro mc hmc
      apply h
      simp [List.find?_cons, hc, hmc]

/-- The loop body keeps the mesh of the context. -/
theorem configureMapping_mesh (meshIDs dataIDs : Nat) (meshContext : MeshContext)
    (confMapping : ConfiguredMapping) (r : MeshContext × Nat × Nat)
    (h : configureMapping meshIDs dataIDs meshContext confMapping = Except.ok r) :
    r.1.mesh = meshContext.mesh := by
  rw [configureMapping_ok_iff] at h
  obtain ⟨-, rfl⟩ := h
  cases confMapping.direction <;> simp only <;>
    unfold applyTimingRule <;> split <;> (try split) <;> rfl

/-- One iteration of the mapping loop completes exactly when the mesh is used
and the body succeeds. -/
theorem mergeMapping_done_iff (confMapping : ConfiguredMapping) (s s1 : FinishState) :
    mergeMapping confMapping s = Outcome.done s1 ↔
      ∃ mc r, s.participant.meshContext confMapping.mesh.id = some mc ∧
        configureMapping s.config.meshIDs s.config.dataIDs mc confMapping = Except.ok r ∧
        s1 = { config := { s.config with meshIDs := r.2.1, dataIDs := r.2.2 }
               participant := s.participant.setMeshContext confMapping.mesh.id r.1 } := by
  cases hmc : s.participant.meshContext confMapping.mesh.id with
  | none => simp [mergeMapping, hmc]
  | some mc =>
    cases hr : configureMapping s.config.meshIDs s.config.dataIDs mc confMapping with
    | error e => simp [mergeMapping, hmc, hr]
    | ok r =>
      obtain ⟨u, m, d⟩ := r
      simp only [mergeMapping, hmc, hr]
      constructor
      · intro h
        injection h with h
        exact ⟨mc, (u, m, d), rfl, hr, h.symm⟩
      · rintro ⟨mc1, r1, h1, h2, rfl⟩
        cases h1
        rw [hr] at h2
        cases h2
        rfl

/-- One iteration of the mapping loop fails without changing the state: with a
`UsageError` for an unused mesh, with a `ConsistencyError` for a taken slot. -/
theorem mergeMapping_failed_iff (confMapping : ConfiguredMapping) (s s1 : FinishState)
    (e : ConfigError) :
    mergeMapping confMapping s = Outcome.failed e s1 ↔
      s1 = s ∧
      ((s.participant.meshContext confMapping.mesh.id = none ∧ e = ConfigError.UsageError) ∨
       (∃ mc, s.participant.meshContext confMapping.mesh.id = some mc ∧
          (mc.mappingContextOf confMapping.direction).mapping ≠ none ∧
          e = ConfigError.ConsistencyError)) := by
  cases hmc : s.participant.meshContext confMapping.mesh.id with
  | none =>
    simp only [mergeMapping, hmc, Outcome.failed.injEq, true_and, reduceCtorEq, false_and,
      exists_false, or_false]
    constructor
    · rintro ⟨rfl, rfl⟩
      exact ⟨rfl, rfl⟩
    · rintro ⟨rfl, rfl⟩
      exact ⟨rfl, rfl⟩
  | some mc =>
    cases hr : configureMapping s.config.meshIDs s.config.dataIDs mc confMapping with
    | error e1 =>
      simp only [mergeMapping, hmc, hr]
      rw [configureMapping_error_iff] at hr
      simp only [Outcome.failed.injEq, reduceCtorEq, false_and, Option.some.injEq, ne_eq,
        exists_eq_left', false_or]
      constructor
      · rintro ⟨rfl, rfl⟩
        exact ⟨rfl, hr.1, hr.2⟩
      · rintro ⟨rfl, -, rfl⟩
        exact ⟨hr.2, rfl⟩
    | ok r =>
      obtain ⟨u, m, d⟩ := r
      have := (configureMapping_ok_iff _ _ _ _ _).1 hr
      simp [mergeMapping, hmc, hr, this.1]

/-! ## The requirement across the mapping loop -/

/-- The requirement left by the loop body is `updateRequirement` of the
requirement before. -/
theorem configureMapping_requirement_eq (meshIDs dataIDs : Nat) (meshContext : MeshContext)
    (confMapping : ConfiguredMapping) (r : MeshContext × Nat × Nat)
    (h : configureMapping meshIDs dataIDs meshContext confMapping = Except.ok r) :
    r.1.meshRequirement = updateRequirement meshContext.meshRequirement
      (declaredRequirement confMapping, confMapping.timing) := by
  rw [configureMapping_ok_iff] at h
  obtain ⟨-, rfl⟩ := h
  unfold declaredRequirement updateRequirement
  cases hdir : confMapping.direction <;> simp only <;>
    unfold applyTimingRule <;> split <;> (try split) <;>
    simp_all [bindWriteMapping, bindReadMapping]

/-- Effect of a completed iteration on the lookup of mesh contexts. -/
theorem mergeMapping_lookup (confMapping : ConfiguredMapping) (s s1 : FinishState)
    (h : mergeMapping confMapping s = Outcome.done s1) :
    ∃ mc r, s.participant.meshContext confMapping.mesh.id = some mc ∧
      configureMapping s.config.meshIDs s.config.dataIDs mc confMapping = Except.ok r ∧
      s1.participant.meshContext confMapping.mesh.id = some r.1 ∧
      ∀ other, other ≠ confMapping.mesh.id →
        s1.participant.meshContext other = s.participant.meshContext other := by
  rw [mergeMapping_done_iff] at h
  obtain ⟨mc, r, hmc, hr, rfl⟩ := h
  have hid : r.1.mesh.id = confMapping.mesh.id := by
    rw [configureMapping_mesh _ _ _ _ _ hr]
    exact meshContext_mesh_id _ _ _ hmc
  refine ⟨mc, r, hmc, hr, ?_, ?_⟩
  · simp only [Participant.meshContext, Participant.setMeshContext]
    rw [find_replaceContext_same _ _ hid]
    unfold Participant.meshContext at hmc
    rw [hmc]; rfl
  · intro other hne
    simp only [Participant.meshContext, Participant.setMeshContext]
    exact find_replaceContext_other _ _ _ hid hne _

/-- Unfolding of `mergedInto` on a buffer with a first mapping. -/
theorem mergedInto_cons (meshID : Int) (confMapping : ConfiguredMapping)
    (buffer : List ConfiguredMapping) :
    mergedInto meshID (confMapping :: buffer) =
      if confMapping.mesh.id = meshID then
        (declaredRequirement confMapping, confMapping.timing) :: mergedInto meshID buffer
      else mergedInto meshID buffer := by
  unfold mergedInto
  by_cases h : confMapping.mesh.id = meshID <;> simp [List.filter_cons, h]

/-- The requirement of a mesh context after the mapping loop is the fold of
`updateRequirement` over the mappings merged into it. -/
theorem forEach_mergeMapping_requirement (buffer : List ConfiguredMapping) :
    ∀ (s s1 : FinishState), forEach mergeMapping buffer s = Outcome.done s1 →
      ∀ meshID mc, s.participant.meshContext meshID = some mc →
        ∃ mc1, s1.participant.meshContext meshID = some mc1 ∧
          mc1.meshRequirement =
            (mergedInto meshID buffer).foldl updateRequirement mc.meshRequirement := by
  induction buffer with
  | nil =>
    intro s s1 h meshID mc hmc
    simp only [forEach, Outcome.done.injEq] at h
    subst h
    exact ⟨mc, hmc, rfl⟩
  | cons cm rest ih =>
    intro s s1 h meshID mc hmc
    simp only [forEach] at h
    cases hstep : mergeMapping cm s with
    | failed e s2 => simp [hstep] at h
    | done s2 =>
      simp only [hstep] at h
      obtain ⟨mc0, r, hmc0, hr, hsame, hother⟩ := mergeMapping_lookup cm s s2 hstep
      rw [mergedInto_cons]
      by_cases hid : cm.mesh.id = meshID
      · subst hid
        rw [hmc] at hmc0
        cases hmc0
        obtain ⟨mc1, h1, h2⟩ := ih s2 s1 h _ r.1 hsame
        refine ⟨mc1, h1, ?_⟩
        rw [h2, configureMapping_requirement_eq _ _ _ _ _ hr]
        simp
      · have := hother meshID (fun h => hid h.symm)
        obtain ⟨mc1, h1, h2⟩ := ih s2 s1 h meshID mc (this ▸ hmc)
        exact ⟨mc1, h1, by simp [hid, h2]⟩

/-! ## The loop result and the wording of the specification -/

/-- The running maximum over the whole list. -/
theorem runningMax_length (r0 : MeshRequirement) (l : List (MeshRequirement × Timing)) :
    runningMax r0 l l.length = l.foldl (fun m x => MeshRequirement.maxReq m x.1) r0 := by
  simp [runningMax]

/-- A running maximum inside the list does not see an appended element. -/
theorem runningMax_snoc_lt (r0 : MeshRequirement) (l : List (MeshRequirement × Timing))
    (x : MeshRequirement × Timing) (i : Nat) (h : i < l.length) :
    runningMax r0 (l ++ [x]) (i + 1) = runningMax r0 l (i + 1) := by
  unfold runningMax
  rw [List.take_append_of_le_length (by omega)]

/-- The running maximum after an appended element. -/
theorem runningMax_snoc_length (r0 : MeshRequirement) (l : List (MeshRequirement × Timing))
    (x : MeshRequirement × Timing) :
    runningMax r0 (l ++ [x]) (l.length + 1) =
      MeshRequirement.maxReq (runningMax r0 l l.length) x.1 := by
  have : (l ++ [x]).length = l.length + 1 := by simp
  rw [← this, runningMax_length, runningMax_length, List.foldl_append]
  rfl

/-- The timing floor applies to an extended list if it applied before or applies
at the new element. -/
theorem floorApplies_snoc (r0 : MeshRequirement) (l : List (MeshRequirement × Timing))
    (x : MeshRequirement × Timing) :
    floorApplies r0 (l ++ [x]) ↔
      floorApplies r0 l ∨
        (MeshRequirement.maxReq (runningMax r0 l l.length) x.1 = MeshRequirement.TEMPORARY ∧
          x.2 ≠ Timing.INCREMENTAL) := by
  unfold floorApplies
  constructor
  · rintro ⟨i, hi, hm, ht⟩
    simp only [List.length_append, List.length_singleton] at hi
    by_cases hlt : i < l.length
    · left
      refine ⟨i, hlt, ?_, ?_⟩
      · rw [← runningMax_snoc_lt r0 l x i hlt]; exact hm
      · simpa [List.getElem?_append_left, hlt] using ht
    · have hi' : i = l.length := by omega
      subst hi'
      right
      rw [runningMax_snoc_length] at hm
      refine ⟨hm, ?_⟩
      simpa using ht
  · rintro (⟨i, hi, hm, ht⟩ | ⟨hm, ht⟩)
    · refine ⟨i, by simp; omega, ?_, ?_⟩
      · rw [runningMax_snoc_lt r0 l x i hi]; exact hm
      · simpa [List.getElem?_append_left, hi] using ht
    · refine ⟨l.length, by simp, ?_, ?_⟩
      · rw [runningMax_snoc_length]; exact hm
      · simpa using ht

/-- The timing floor does not apply to the empty list. -/
theorem floorApplies_nil (r0 : MeshRequirement) : ¬ floorApplies r0 [] := by
  rintro ⟨i, hi, -⟩
  simp at hi

/-- The invariant that links the requirement computed by the loop with the
running maximum and the timing floor. -/
theorem foldl_updateRequirement_invariant (r0 : MeshRequirement)
    (l : List (MeshRequirement × Timing)) :
    (runningMax r0 l l.length ≠ MeshRequirement.TEMPORARY →
      l.foldl updateRequirement r0 = runningMax r0 l l.length) ∧
    (runningMax r0 l l.length = MeshRequirement.TEMPORARY → floorApplies r0 l →
      l.foldl updateRequirement r0 = MeshRequirement.VERTEX) ∧
    (runningMax r0 l l.length = MeshRequirement.TEMPORARY → ¬ floorApplies r0 l →
      l.foldl updateRequirement r0 = MeshRequirement.TEMPORARY) ∧
    (floorApplies r0 l → MeshRequirement.TEMPORARY ≤ runningMax r0 l l.length) := by
  induction l using List.reverseRecOn with
  | nil =>
    simp [runningMax, floorApplies_nil]
  | append_singleton l x ih =>
    obtain ⟨d, t⟩ := x
    have hlen : (l ++ [(d, t)]).length = l.length + 1 := by simp
    rw [hlen, runningMax_snoc_length, floorApplies_snoc, List.foldl_append]
    simp only [List.foldl_cons, List.foldl_nil]
    generalize runningMax r0 l l.length = m at ih ⊢
    generalize List.foldl updateRequirement r0 l = a at ih ⊢
    by_cases hf : floorApplies r0 l <;> by_cases ht : t = Timing.INCREMENTAL <;>
      cases m <;> cases d <;>
      simp_all [updateRequirement, MeshRequirement.maxReq, MeshRequirement.le_def,
        MeshRequirement.lt_def, MeshRequirement.rank]

/-- The requirement computed by the loop is the final requirement in the wording
of the specification. -/
theorem foldl_updateRequirement_eq_spec (r0 : MeshRequirement)
    (l : List (MeshRequirement × Timing)) :
    l.foldl updateRequirement r0 = specFinalRequirement r0 l := by
  obtain ⟨h1, h2, h3, -⟩ := foldl_updateRequirement_invariant r0 l
  unfold specFinalRequirement
  simp only
  split
  · exact h1 ‹_›
  · rename_i h
    have h := not_not.1 h
    split
    · exact h2 h ‹_›
    · exact h3 h ‹_›

/-! ## Outcomes, loops and mapping slots -/

/-- A sequence completes exactly when both parts complete. -/
theorem Outcome.andThen_done_iff {σ : Type} (o : Outcome σ) (f : σ → Outcome σ) (s1 : σ) :
    o.andThen f = Outcome.done s1 ↔ ∃ s0, o = Outcome.done s0 ∧ f s0 = Outcome.done s1 := by
  cases o <;> simp [Outcome.andThen]

/-- A sequence fails exactly when the first part fails or the second part fails
after the first completed. -/
theorem Outcome.andThen_failed_iff {σ : Type} (o : Outcome σ) (f : σ → Outcome σ) (e : ConfigError)
    (s1 : σ) :
    o.andThen f = Outcome.failed e s1 ↔
      o = Outcome.failed e s1 ∨ ∃ s0, o = Outcome.done s0 ∧ f s0 = Outcome.failed e s1 := by
  cases o <;> simp [Outcome.andThen]

/-- The state of an outcome transported by `mapState`. -/
theorem Outcome.mapState_state {σ τ : Type} (g : σ → τ) (o : Outcome σ) :
    (o.mapState g).state = g o.state := by
  cases o <;> rfl

/-- Transport by `mapState` keeps the error. -/
theorem Outcome.mapState_error {σ τ : Type} (g : σ → τ) (o : Outcome σ) :
    (o.mapState g).error? = o.error? := by
  cases o <;> rfl

/-- A loop over an appended list is the sequence of the two loops. -/
theorem forEach_append {α σ : Type} (body : α → σ → Outcome σ) (l1 l2 : List α) (s : σ) :
    forEach body (l1 ++ l2) s = (forEach body l1 s).andThen (forEach body l2) := by
  induction l1 generalizing s with
  | nil => rfl
  | cons a as ih =>
    simp only [List.cons_append, forEach]
    cases body a s with
    | done s1 => exact ih s1
    | failed e s1 => rfl

/-- A failed loop completed on the elements before some element and failed on
that element. -/
theorem forEach_failed_split {α σ : Type} (body : α → σ → Outcome σ) (l : List α) (s s1 : σ)
    (e : ConfigError) (h : forEach body l s = Outcome.failed e s1) :
    ∃ pre a post s0, l = pre ++ a :: post ∧ forEach body pre s = Outcome.done s0 ∧
      body a s0 = Outcome.failed e s1 := by
  induction l generalizing s with
  | nil => simp [forEach] at h
  | cons a as ih =>
    simp only [forEach] at h
    cases hstep : body a s with
    | done s2 =>
      rw [hstep] at h
      obtain ⟨pre, b, post, s0, hl, hpre, hb⟩ := ih s2 h
      refine ⟨a :: pre, b, post, s0, by simp [hl], ?_, hb⟩
      simp [forEach, hstep, hpre]
    | failed e2 s2 =>
      rw [hstep] at h
      cases h
      exact ⟨[], a, as, s, rfl, rfl, hstep⟩

/-- A projection of the state that every iteration keeps is kept by the loop. -/
theorem forEach_preserves {α σ β : Type} (f : σ → β) (body : α → σ → Outcome σ)
    (hbody : ∀ a s, f (body a s).state = f s) (l : List α) (s : σ) :
    f (forEach body l s).state = f s := by
  induction l generalizing s with
  | nil => rfl
  | cons a as ih =>
    simp only [forEach]
    have := hbody a s
    cases hstep : body a s with
    | done s1 =>
      rw [hstep] at this
      simp only [ih]
      exact this
    | failed e s1 =>
      rw [hstep] at this
      exact this

/-- The loop body sets the mapping of its direction and leaves the mapping
context of the other direction alone. -/
theorem configureMapping_mappingContextOf (meshIDs dataIDs : Nat) (meshContext : MeshContext)
    (confMapping : ConfiguredMapping) (r : MeshContext × Nat × Nat)
    (h : configureMapping meshIDs dataIDs meshContext confMapping = Except.ok r) :
    (r.1.mappingContextOf confMapping.direction).mapping ≠ none ∧
    ∀ direction, direction ≠ confMapping.direction →
      r.1.mappingContextOf direction = meshContext.mappingContextOf direction := by
  rw [configureMapping_ok_iff] at h
  obtain ⟨-, rfl⟩ := h
  cases hdir : confMapping.direction <;> simp only <;> constructor
  · unfold applyTimingRule; split <;> (try split) <;>
      simp [MeshContext.mappingContextOf, bindWriteMapping]
  · intro direction hne
    cases direction
    · exact absurd rfl hne
    · unfold applyTimingRule; split <;> (try split) <;>
        simp [MeshContext.mappingContextOf, bindWriteMapping]
  · unfold applyTimingRule; split <;> (try split) <;>
      simp [MeshContext.mappingContextOf, bindReadMapping]
  · intro direction hne
    cases direction
    · unfold applyTimingRule; split <;> (try split) <;>
        simp [MeshContext.mappingContextOf, bindReadMapping]
    · exact absurd rfl hne

/-- A mapping slot (mesh identity and direction) of the participant is set. -/
theorem mergeMapping_slot (confMapping : ConfiguredMapping) (s s1 : FinishState)
    (h : mergeMapping confMapping s = Outcome.done s1) :
    (∀ mc, s.participant.meshContext confMapping.mesh.id = some mc →
      (mc.mappingContextOf confMapping.direction).mapping = none) ∧
    (∃ mc1, s1.participant.meshContext confMapping.mesh.id = some mc1 ∧
      (mc1.mappingContextOf confMapping.direction).mapping ≠ none) ∧
    (∀ meshID direction mc, s.participant.meshContext meshID = some mc →
      (mc.mappingContextOf direction).mapping ≠ none →
      ∃ mc1, s1.participant.meshContext meshID = some mc1 ∧
        (mc1.mappingContextOf direction).mapping ≠ none) ∧
    (∀ meshID, (s1.participant.meshContext meshID).isSome =
      (s.participant.meshContext meshID).isSome) := by
  obtain ⟨mc, r, hmc, hr, hsame, hother⟩ := mergeMapping_lookup confMapping s s1 h
  have hslot := configureMapping_mappingContextOf _ _ _ _ _ hr
  have hnone := ((configureMapping_ok_iff _ _ _ _ _).1 hr).1
  refine ⟨?_, ⟨r.1, hsame, hslot.1⟩, ?_, ?_⟩
  · intro mc' hmc'
    rw [hmc] at hmc'
    cases hmc'
    exact hnone
  · intro meshID direction mc' hmc' hset
    by_cases hid : meshID = confMapping.mesh.id
    · subst hid
      rw [hmc] at hmc'
      cases hmc'
      refine ⟨r.1, hsame, ?_⟩
      by_cases hd : direction = confMapping.direction
      · subst hd; exact hslot.1
      · rw [hslot.2 direction hd]; exact hset
    · exact ⟨mc', (hother meshID hid) ▸ hmc', hset⟩
  · intro meshID
    by_cases hid : meshID = confMapping.mesh.id
    · subst hid; rw [hsame, hmc]; rfl
    · rw [hother meshID hid]

/-- A completed mapping loop found the slot of each of its mappings free at the
start, keeps every mapping that was set, and keeps the set of used mesh
identities. -/
theorem forEach_mergeMapping_slots (buffer : List ConfiguredMapping) :
    ∀ (s s1 : FinishState), forEach mergeMapping buffer s = Outcome.done s1 →
      (∀ cm ∈ buffer, ∀ mc, s.participant.meshContext cm.mesh.id = some mc →
        (mc.mappingContextOf cm.direction).mapping = none) ∧
      (∀ meshID direction mc, s.participant.meshContext meshID = some mc →
        (mc.mappingContextOf direction).mapping ≠ none →
        ∃ mc1, s1.participant.meshContext meshID = some mc1 ∧
          (mc1.mappingContextOf direction).mapping ≠ none) ∧
      (∀ meshID, (s1.participant.meshContext meshID).isSome =
        (s.participant.meshContext meshID).isSome) := by
  induction buffer with
  | nil =>
    intro s s1 h
    simp only [forEach, Outcome.done.injEq] at h
    subst h
    exact ⟨by simp, fun _ _ mc hmc hset => ⟨mc, hmc, hset⟩, fun _ => rfl⟩
  | cons a rest ih =>
    intro s s1 h
    simp only [forEach] at h
    cases hstep : mergeMapping a s with
    | failed e s2 => simp [hstep] at h
    | done s2 =>
      rw [hstep] at h
      obtain ⟨hfree, _, hkeep, hused⟩ := mergeMapping_slot a s s2 hstep
      obtain ⟨ihfree, ihkeep, ihused⟩ := ih s2 s1 h
      refine ⟨?_, ?_, ?_⟩
      · intro cm hcm mc hmc
        rcases List.mem_cons.1 hcm with rfl | hmem
        · exact hfree mc hmc
        · by_contra hset
          obtain ⟨mc2, hmc2, hset2⟩ := hkeep _ _ mc hmc hset
          exact hset2 (ihfree cm hmem mc2 hmc2)
      · intro meshID direction mc hmc hset
        obtain ⟨mc2, hmc2, hset2⟩ := hkeep _ _ mc hmc hset
        exact ihkeep _ _ mc2 hmc2 hset2
      · intro meshID
        rw [ihused, hused]

/-! ## Steps of the finalization -/

/-- The mapping step completes exactly when its loop completes; the buffer is
then reset. -/
theorem mergeMappings_done_iff (s s1 : FinishState) :
    mergeMappings s = Outcome.done s1 ↔
      ∃ s0, forEach mergeMapping s.config.mappingConfig s = Outcome.done s0 ∧
        s1 = { s0 with config := { s0.config with mappingConfig := [] } } := by
  unfold mergeMappings
  rw [Outcome.andThen_done_iff]
  simp [eq_comm]

/-- The mapping step fails exactly as its loop fails. -/
theorem mergeMappings_failed_iff (s s1 : FinishState) (e : ConfigError) :
    mergeMappings s = Outcome.failed e s1 ↔
      forEach mergeMapping s.config.mappingConfig s = Outcome.failed e s1 := by
  unfold mergeMappings
  rw [Outcome.andThen_failed_iff]
  simp

/-- A failure of the mapping step is the failure of the finalization. -/
theorem finish_failed_of_mergeMappings (s s1 : FinishState) (e : ConfigError)
    (h : mergeMappings s = Outcome.failed e s1) :
    finishParticipantConfiguration s = Outcome.failed e s1 := by
  unfold finishParticipantConfiguration
  rw [h]
  rfl

/-- The finalization completes exactly when its six steps complete in sequence. -/
theorem finish_done_iff (s s6 : FinishState) :
    finishParticipantConfiguration s = Outcome.done s6 ↔
      ∃ s1 s2 s3 s4 s5, mergeMappings s = Outcome.done s1 ∧
        resolveWriteData s1 = Outcome.done s2 ∧ resolveReadData s2 = Outcome.done s3 ∧
        addActions s3 = Outcome.done s4 ∧ addExportContexts s4 = Outcome.done s5 ∧
        createWatchPoints s5 = Outcome.done s6 := by
  unfold finishParticipantConfiguration
  simp only [Outcome.andThen_done_iff]
  constructor
  · rintro ⟨s5, ⟨s4, ⟨s3, ⟨s2, ⟨s1, h1, h2⟩, h3⟩, h4⟩, h5⟩, h6⟩
    exact ⟨s1, s2, s3, s4, s5, h1, h2, h3, h4, h5, h6⟩
  · rintro ⟨s1, s2, s3, s4, s5, h1, h2, h3, h4, h5, h6⟩
    exact ⟨s5, ⟨s4, ⟨s3, ⟨s2, ⟨s1, h1, h2⟩, h3⟩, h4⟩, h5⟩, h6⟩

/-! ### Frame lemmas: what each step leaves untouched -/

/-- A closing reset that keeps a projection does not change it. -/
theorem Outcome.andThen_reset_state {σ β : Type} (f : σ → β) (o : Outcome σ) (g : σ → σ)
    (hg : ∀ s, f (g s) = f s) :
    f (o.andThen fun s => Outcome.done (g s)).state = f o.state := by
  cases o with
  | done s => exact hg s
  | failed e s => rfl

/-- An iteration of the mapping loop changes at most the identifier counters of
the configuration. -/
theorem mergeMapping_frame_config {β : Type} (pc : ParticipantConfiguration → β)
    (h : ∀ (c : ParticipantConfiguration) m d, pc { c with meshIDs := m, dataIDs := d } = pc c)
    (cm : ConfiguredMapping) (s : FinishState) :
    pc (mergeMapping cm s).state.config = pc s.config := by
  unfold mergeMapping
  simp only
  split
  · rfl
  · split
    · rfl
    · exact h _ _ _

/-- An iteration of the mapping loop changes at most the mesh contexts of the
participant. -/
theorem mergeMapping_frame_participant {β : Type} (pp : Participant → β)
    (h : ∀ (p : Participant) l, pp { p with usedMeshContexts := l } = pp p)
    (cm : ConfiguredMapping) (s : FinishState) :
    pp (mergeMapping cm s).state.participant = pp s.participant := by
  unfold mergeMapping
  simp only
  split
  · rfl
  · split
    · rfl
    · exact h _ _

/-- An iteration of the mapping loop keeps the list of used meshes. -/
theorem mergeMapping_frame_meshes (cm : ConfiguredMapping) (s : FinishState) :
    (mergeMapping cm s).state.participant.usedMeshContexts.map (fun context => context.mesh) =
      s.participant.usedMeshContexts.map (fun context => context.mesh) := by
  cases hstep : mergeMapping cm s with
  | failed e s1 =>
    rw [mergeMapping_failed_iff] at hstep
    rw [hstep.1]; rfl
  | done s1 =>
    rw [mergeMapping_done_iff] at hstep
    obtain ⟨mc, r, hmc, hr, rfl⟩ := hstep
    simp only [Outcome.state, Participant.setMeshContext]
    apply replaceContext_map_mesh
    intro mc' hmc'
    unfold Participant.meshContext at hmc
    rw [hmc] at hmc'
    cases hmc'
    exact configureMapping_mesh _ _ _ _ _ hr

/-- The mapping step changes at most the identifier counters and the mapping
buffer. -/
theorem mergeMappings_frame_config {β : Type} (pc : ParticipantConfiguration → β)
    (h : ∀ (c : ParticipantConfiguration) m d, pc { c with meshIDs := m, dataIDs := d } = pc c)
    (hreset : ∀ c : ParticipantConfiguration, pc { c with mappingConfig := [] } = pc c)
    (s : FinishState) : pc (mergeMappings s).state.config = pc s.config := by
  unfold mergeMappings
  refine (Outcome.andThen_reset_state (fun s : FinishState => pc s.config) _
    (fun s1 => { s1 with config := { s1.config with mappingConfig := [] } })
    (fun s1 => hreset s1.config)).trans ?_
  exact forEach_preserves (fun s : FinishState => pc s.config) _
    (mergeMapping_frame_config pc h) _ _

/-- The mapping step changes at most the mesh contexts of the participant. -/
theorem mergeMappings_frame_participant {β : Type} (pp : Participant → β)
    (h : ∀ (p : Participant) l, pp { p with usedMeshContexts := l } = pp p)
    (s : FinishState) : pp (mergeMappings s).state.participant = pp s.participant := by
  unfold mergeMappings
  refine (Outcome.andThen_reset_state (fun s : FinishState => pp s.participant) _
    (fun s1 => { s1 with config := { s1.config with mappingConfig := [] } })
    (fun _ => rfl)).trans ?_
  exact forEach_preserves (fun s : FinishState => pp s.participant) _
    (mergeMapping_frame_participant pp h) _ _

/-- The mapping step keeps the list of used meshes. -/
theorem mergeMappings_frame_meshes (s : FinishState) :
    (mergeMappings s).state.participant.usedMeshContexts.map (fun context => context.mesh) =
      s.participant.usedMeshContexts.map (fun context => context.mesh) := by
  unfold mergeMappings
  refine (Outcome.andThen_reset_state
    (fun s : FinishState =>
      s.participant.usedMeshContexts.map (fun context : MeshContext => context.mesh)) _
    (fun s1 => { s1 with config := { s1.config with mappingConfig := [] } })
    (fun _ => rfl)).trans ?_
  exact forEach_preserves
    (fun s : FinishState =>
      s.participant.usedMeshContexts.map (fun context : MeshContext => context.mesh)) _
    mergeMapping_frame_meshes _ _

/-- The write data loop keeps the configuration. -/
theorem resolveWriteData_frame_config (s : FinishState) :
    (resolveWriteData s).state.config = s.config := by
  unfold resolveWriteData
  rw [Outcome.mapState_state]

/-- The write data loop changes at most the write data contexts. -/
theorem resolveWriteData_frame_participant {β : Type} (pp : Participant → β)
    (h : ∀ (p : Participant) l, pp { p with writeDataContexts := l } = pp p) (s : FinishState) :
    pp (resolveWriteData s).state.participant = pp s.participant := by
  unfold resolveWriteData
  rw [Outcome.mapState_state]
  exact h _ _

/-- The read data loop keeps the configuration. -/
theorem resolveReadData_frame_config (s : FinishState) :
    (resolveReadData s).state.config = s.config := by
  unfold resolveReadData
  rw [Outcome.mapState_state]

/-- The read data loop changes at most the read data contexts. -/
theorem resolveReadData_frame_participant {β : Type} (pp : Participant → β)
    (h : ∀ (p : Participant) l, pp { p with readDataContexts := l } = pp p) (s : FinishState) :
    pp (resolveReadData s).state.participant = pp s.participant := by
  unfold resolveReadData
  rw [Outcome.mapState_state]
  exact h _ _

/-- An iteration of the action loop keeps the configuration. -/
theorem addAction_frame_config (action : Action) (s : FinishState) :
    (addAction action s).state.config = s.config := by
  unfold addAction
  simp only
  split <;> rfl

/-- An iteration of the action loop changes at most the action list. -/
theorem addAction_frame_participant {β : Type} (pp : Participant → β)
    (h : ∀ (p : Participant) l, pp { p with actions := l } = pp p)
    (action : Action) (s : FinishState) :
    pp (addAction action s).state.participant = pp s.participant := by
  unfold addAction
  simp only
  split
  · exact h _ _
  · rfl

/-- The action step changes at most the action buffer. -/
theorem addActions_frame_config {β : Type} (pc : ParticipantConfiguration → β)
    (hreset : ∀ c : ParticipantConfiguration, pc { c with actionConfig := [] } = pc c)
    (s : FinishState) : pc (addActions s).state.config = pc s.config := by
  unfold addActions
  refine (Outcome.andThen_reset_state (fun s : FinishState => pc s.config) _
    (fun s1 => { s1 with config := { s1.config with actionConfig := [] } })
    (fun s1 => hreset s1.config)).trans ?_
  exact forEach_preserves (fun s : FinishState => pc s.config) _
    (fun a s => congrArg pc (addAction_frame_config a s)) _ _

/-- The action step changes at most the action list. -/
theorem addActions_frame_participant {β : Type} (pp : Participant → β)
    (h : ∀ (p : Participant) l, pp { p with actions := l } = pp p)
    (s : FinishState) : pp (addActions s).state.participant = pp s.participant := by
  unfold addActions
  refine (Outcome.andThen_reset_state (fun s : FinishState => pp s.participant) _
    (fun s1 => { s1 with config := { s1.config with actionConfig := [] } })
    (fun _ => rfl)).trans ?_
  exact forEach_preserves (fun s : FinishState => pp s.participant) _
    (addAction_frame_participant pp h) _ _

/-- The export step changes at most the export buffer. -/
theorem addExportContexts_frame_config {β : Type} (pc : ParticipantConfiguration → β)
    (hreset : ∀ c : ParticipantConfiguration, pc { c with exportConfig := [] } = pc c)
    (s : FinishState) : pc (addExportContexts s).state.config = pc s.config := by
  unfold addExportContexts
  refine (Outcome.andThen_reset_state (fun s : FinishState => pc s.config) _
    (fun s1 => { s1 with config := { s1.config with exportConfig := [] } })
    (fun s1 => hreset s1.config)).trans ?_
  apply forEach_preserves (fun s : FinishState => pc s.config)
  intro a s1
  rfl

/-- The export step changes at most the export context list. -/
theorem addExportContexts_frame_participant {β : Type} (pp : Participant → β)
    (h : ∀ (p : Participant) l, pp { p with exportContexts := l } = pp p)
    (s : FinishState) : pp (addExportContexts s).state.participant = pp s.participant := by
  unfold addExportContexts
  refine (Outcome.andThen_reset_state (fun s : FinishState => pp s.participant) _
    (fun s1 => { s1 with config := { s1.config with exportConfig := [] } })
    (fun _ => rfl)).trans ?_
  apply forEach_preserves (fun s : FinishState => pp s.participant)
  intro a s1
  exact h _ _

/-- An iteration of the watch point loop keeps the configuration. -/
theorem createWatchPoint_frame_config (config : WatchPointConfig) (s : FinishState) :
    (createWatchPoint config s).state.config = s.config := by
  unfold createWatchPoint
  simp only
  split <;> rfl

/-- An iteration of the watch point loop changes at most the watch point list. -/
theorem createWatchPoint_frame_participant {β : Type} (pp : Participant → β)
    (h : ∀ (p : Participant) l, pp { p with watchPoints := l } = pp p)
    (config : WatchPointConfig) (s : FinishState) :
    pp (createWatchPoint config s).state.participant = pp s.participant := by
  unfold createWatchPoint
  simp only
  split
  · exact h _ _
  · rfl

/-- The watch point step changes at most the watch point buffer. -/
theorem createWatchPoints_frame_config {β : Type} (pc : ParticipantConfiguration → β)
    (hreset : ∀ c : ParticipantConfiguration, pc { c with watchPointConfigs := [] } = pc c)
    (s : FinishState) : pc (createWatchPoints s).state.config = pc s.config := by
  unfold createWatchPoints
  refine (Outcome.andThen_reset_state (fun s : FinishState => pc s.config) _
    (fun s1 => { s1 with config := { s1.config with watchPointConfigs := [] } })
    (fun s1 => hreset s1.config)).trans ?_
  exact forEach_preserves (fun s : FinishState => pc s.config) _
    (fun a s => congrArg pc (createWatchPoint_frame_config a s)) _ _

/-- The watch point step changes at most the watch point list. -/
theorem createWatchPoints_frame_participant {β : Type} (pp : Participant → β)
    (h : ∀ (p : Participant) l, pp { p with watchPoints := l } = pp p)
    (s : FinishState) : pp (createWatchPoints s).state.participant = pp s.participant := by
  unfold createWatchPoints
  refine (Outcome.andThen_reset_state (fun s : FinishState => pp s.participant) _
    (fun s1 => { s1 with config := { s1.config with watchPointConfigs := [] } })
    (fun _ => rfl)).trans ?_
  exact forEach_preserves (fun s : FinishState => pp s.participant) _
    (createWatchPoint_frame_participant pp h) _ _

/-- The state of a completed operation. -/
theorem Outcome.state_of_done {σ : Type} {o : Outcome σ} {s : σ} (h : o = Outcome.done s) :
    o.state = s := by
  rw [h]; rfl

/-- After a completed finalization the mesh contexts are those left by the
mapping loop. -/
theorem finish_done_contexts (s s6 : FinishState)
    (h : finishParticipantConfiguration s = Outcome.done s6) :
    ∃ s0, forEach mergeMapping s.config.mappingConfig s = Outcome.done s0 ∧
      s6.participant.usedMeshContexts = s0.participant.usedMeshContexts := by
  rw [finish_done_iff] at h
  obtain ⟨s1, s2, s3, s4, s5, h1, h2, h3, h4, h5, h6⟩ := h
  rw [mergeMappings_done_iff] at h1
  obtain ⟨s0, h0, rfl⟩ := h1
  refine ⟨s0, h0, ?_⟩
  have e2 := resolveWriteData_frame_participant (fun p => p.usedMeshContexts) (fun _ _ => rfl)
    { s0 with config := { s0.config with mappingConfig := [] } }
  have e3 := resolveReadData_frame_participant (fun p => p.usedMeshContexts) (fun _ _ => rfl) s2
  have e4 := addActions_frame_participant (fun p => p.usedMeshContexts) (fun _ _ => rfl) s3
  have e5 := addExportContexts_frame_participant (fun p => p.usedMeshContexts)
    (fun _ _ => rfl) s4
  have e6 := createWatchPoints_frame_participant (fun p => p.usedMeshContexts)
    (fun _ _ => rfl) s5
  rw [Outcome.state_of_done h2] at e2
  rw [Outcome.state_of_done h3] at e3
  rw [Outcome.state_of_done h4] at e4
  rw [Outcome.state_of_done h5] at e5
  rw [Outcome.state_of_done h6] at e6
  simp only at e2 e3 e4 e5 e6
  rw [e6, e5, e4, e3, e2]

/-- C4: once `finishParticipantConfiguration` completes, the requirement of the
mesh context of every mesh identity equals the value the specification
describes for the sequence of mappings of the buffer merged into that context
(declared requirement and timing, in buffer order): the running maximum `m_n`
when that is not `TEMPORARY`, else `VERTEX` if some mapping `i` has
`m_i = TEMPORARY` and a timing other than `INCREMENTAL`, else `TEMPORARY`. -/
theorem finish_requirement_eq_spec (s s1 : FinishState)
    (h : finishParticipantConfiguration s = Outcome.done s1) (meshID : Int) (mc : MeshContext)
    (hmc : s.participant.meshContext meshID = some mc) :
    ∃ mc1, s1.participant.meshContext meshID = some mc1 ∧
      mc1.meshRequirement =
        specFinalRequirement mc.meshRequirement (mergedInto meshID s.config.mappingConfig) := by
  obtain ⟨s0, h0, hctx⟩ := finish_done_contexts s s1 h
  obtain ⟨mc1, h1, h2⟩ := forEach_mergeMapping_requirement _ s s0 h0 meshID mc hmc
  refine ⟨mc1, ?_, ?_⟩
  · unfold Participant.meshContext at h1 ⊢
    rw [hctx]; exact h1
  · rw [h2, foldl_updateRequirement_eq_spec]

/-- C3: a single mapping merge applied to the mesh context of its mesh (either
direction, any timing) leaves a requirement that is at least the requirement
before the merge and at least the declared requirement of the mapping for its
direction, in the order `UNDEFINED < TEMPORARY < VERTEX < FULL`. -/
theorem mergeMapping_requirement_monotone (confMapping : ConfiguredMapping) (s s1 : FinishState)
    (h : mergeMapping confMapping s = Outcome.done s1) :
    ∃ mc mc1, s.participant.meshContext confMapping.mesh.id = some mc ∧
      s1.participant.meshContext confMapping.mesh.id = some mc1 ∧
      mc.meshRequirement ≤ mc1.meshRequirement ∧
      declaredRequirement confMapping ≤ mc1.meshRequirement := by
  obtain ⟨mc, r, hmc, hr, hsame, -⟩ := mergeMapping_lookup confMapping s s1 h
  exact ⟨mc, r.1, hmc, hsame, configureMapping_requirement_monotone _ _ _ _ _ hr⟩

/-! ## Failures of the mapping step -/

/-- A mesh is used exactly when a context is bound to its identity. -/
theorem isMeshUsed_eq (p : Participant) (meshID : Int) :
    p.isMeshUsed meshID = (p.meshContext meshID).isSome := rfl

/-- C2 (amended): when every mapping of the buffer is for a mesh the participant
uses, and the buffer holds two mappings with the same mesh identity and the
same direction (or a mapping for a slot whose mapping is already set),
`finishParticipantConfiguration` fails with a `ConsistencyError`.  It stops at
a mapping `cm` of the buffer in the state `s0` reached by merging the mappings
before `cm`; in `s0` the slot of `cm` already holds a mapping, and that mapping
is kept, not replaced. -/
theorem finish_duplicate_mapping_fails (s : FinishState)
    (hused : ∀ cm ∈ s.config.mappingConfig, s.participant.isMeshUsed cm.mesh.id = true)
    (hdup : (∃ l1 a l2 b l3, s.config.mappingConfig = l1 ++ a :: (l2 ++ b :: l3) ∧
                a.mesh.id = b.mesh.id ∧ a.direction = b.direction) ∨
            (∃ cm ∈ s.config.mappingConfig, ∃ mc,
                s.participant.meshContext cm.mesh.id = some mc ∧
                (mc.mappingContextOf cm.direction).mapping ≠ none)) :
    ∃ pre cm post s0 mc, s.config.mappingConfig = pre ++ cm :: post ∧
      forEach mergeMapping pre s = Outcome.done s0 ∧
      s0.participant.meshContext cm.mesh.id = some mc ∧
      (mc.mappingContextOf cm.direction).mapping ≠ none ∧
      finishParticipantConfiguration s = Outcome.failed ConfigError.ConsistencyError s0 := by
  cases hloop : forEach mergeMapping s.config.mappingConfig s with
  | done s1 =>
    exfalso
    rcases hdup with ⟨l1, a, l2, b, l3, hbuf, hid, hdir⟩ | ⟨cm, hcm, mc, hmc, hset⟩
    · rw [hbuf, forEach_append, Outcome.andThen_done_iff] at hloop
      obtain ⟨sa, -, hrest⟩ := hloop
      simp only [forEach] at hrest
      cases hstep : mergeMapping a sa with
      | failed e s2 => simp [hstep] at hrest
      | done s2 =>
        rw [hstep] at hrest
        obtain ⟨-, ⟨mc1, hmc1, hset1⟩, -, -⟩ := mergeMapping_slot a sa s2 hstep
        obtain ⟨hfree, -, -⟩ := forEach_mergeMapping_slots _ s2 s1 hrest
        have := hfree b (by simp) mc1 (hid ▸ hmc1)
        rw [← hdir] at this
        exact hset1 this
    · obtain ⟨hfree, -, -⟩ := forEach_mergeMapping_slots _ s s1 hloop
      exact hset (hfree cm hcm mc hmc)
  | failed e s1 =>
    obtain ⟨pre, cm, post, s0, hbuf, hpre, hstep⟩ := forEach_failed_split _ _ _ _ _ hloop
    rw [mergeMapping_failed_iff] at hstep
    obtain ⟨rfl, hcase⟩ := hstep
    obtain ⟨-, -, husedpre⟩ := forEach_mergeMapping_slots _ s s1 hpre
    rcases hcase with ⟨hnone, -⟩ | ⟨mc, hmc, hset, rfl⟩
    · exfalso
      have h1 := hused cm (by rw [hbuf]; simp)
      rw [isMeshUsed_eq, ← husedpre, hnone] at h1
      simp at h1
    · refine ⟨pre, cm, post, s1, mc, hbuf, hpre, hmc, hset, ?_⟩
      exact finish_failed_of_mergeMappings _ _ _ ((mergeMappings_failed_iff _ _ _).2 hloop)

/-- C9: when the mapping loop reaches a configured mapping `cm` whose mesh
identity the participant does not use, the mapping step and with it
`finishParticipantConfiguration` fail with a `UsageError`; the state at the
failure is the state `s0` reached by merging the mappings before `cm`, so `cm`
is assigned to no mesh context. -/
theorem mergeMappings_unused_mesh_fails (s s0 : FinishState)
    (pre post : List ConfiguredMapping) (cm : ConfiguredMapping)
    (hbuf : s.config.mappingConfig = pre ++ cm :: post)
    (hpre : forEach mergeMapping pre s = Outcome.done s0)
    (hunused : s.participant.isMeshUsed cm.mesh.id = false) :
    mergeMappings s = Outcome.failed ConfigError.UsageError s0 ∧
    finishParticipantConfiguration s = Outcome.failed ConfigError.UsageError s0 := by
  obtain ⟨-, -, husedpre⟩ := forEach_mergeMapping_slots _ s s0 hpre
  have hnone : s0.participant.meshContext cm.mesh.id = none := by
    have := husedpre cm.mesh.id
    rw [isMeshUsed_eq] at hunused
    rw [hunused] at this
    simpa using this
  have hstep : mergeMapping cm s0 = Outcome.failed ConfigError.UsageError s0 :=
    (mergeMapping_failed_iff _ _ _ _).2 ⟨rfl, Or.inl ⟨hnone, rfl⟩⟩
  have hloop : forEach mergeMapping s.config.mappingConfig s =
      Outcome.failed ConfigError.UsageError s0 := by
    rw [hbuf, forEach_append, hpre]
    simp [Outcome.andThen, forEach, hstep]
  have h := (mergeMappings_failed_iff _ _ _).2 hloop
  exact ⟨h, finish_failed_of_mergeMappings _ _ _ h⟩

/-! ## Well formed mesh contexts -/

/-- The loop of `copy` appends the data names of the source, in order. -/
theorem copyData_names (l : List Data) (acc : Mesh × Nat) :
    (copyData l acc).1.data.map Data.name = acc.1.data.map Data.name ++ l.map Data.name := by
  induction l generalizing acc with
  | nil => simp [copyData]
  | cons d ds ih =>
    simp only [copyData]
    rw [ih]
    simp [Mesh.createData]

/-- A copy has the data names of the source mesh, in order. -/
theorem copy_names (meshIDs dataIDs : Nat) (mesh : Mesh) :
    (copy meshIDs dataIDs mesh).1.data.map Data.name = mesh.data.map Data.name := by
  unfold copy
  simp only
  rw [copyData_names]
  simp

/-- The timing rule changes only the requirement. -/
theorem applyTimingRule_frame (confMapping : ConfiguredMapping) (mc : MeshContext) :
    (applyTimingRule confMapping mc).mesh = mc.mesh ∧
    (applyTimingRule confMapping mc).writeMappingContext = mc.writeMappingContext ∧
    (applyTimingRule confMapping mc).readMappingContext = mc.readMappingContext := by
  unfold applyTimingRule
  split <;> (try split) <;> exact ⟨rfl, rfl, rfl⟩

/-- The loop body keeps a mesh context well formed. -/
theorem configureMapping_wellFormed (meshIDs dataIDs : Nat) (meshContext : MeshContext)
    (confMapping : ConfiguredMapping) (r : MeshContext × Nat × Nat)
    (h : configureMapping meshIDs dataIDs meshContext confMapping = Except.ok r)
    (hwf : meshContext.WellFormed) : r.1.WellFormed := by
  rw [configureMapping_ok_iff] at h
  obtain ⟨-, rfl⟩ := h
  obtain ⟨hw, hr⟩ := hwf
  unfold MeshContext.WellFormed
  cases hdir : confMapping.direction <;> simp only
  · obtain ⟨e1, e2, e3⟩ := applyTimingRule_frame confMapping
      (bindWriteMapping meshIDs dataIDs meshContext confMapping).1
    rw [e1, e2, e3]
    refine ⟨?_, hr⟩
    unfold MappingContext.Mirrors at hw ⊢
    simp only [bindWriteMapping]
    cases hlm : meshContext.writeMappingContext.localMesh with
    | none => simp [copy_names]
    | some lm => simpa [hlm] using hw
  · obtain ⟨e1, e2, e3⟩ := applyTimingRule_frame confMapping
      (bindReadMapping meshIDs dataIDs meshContext confMapping).1
    rw [e1, e2, e3]
    refine ⟨hw, ?_⟩
    unfold MappingContext.Mirrors at hr ⊢
    simp only [bindReadMapping]
    cases hlm : meshContext.readMappingContext.localMesh with
    | none => simp [copy_names]
    | some lm => simpa [hlm] using hr

/-- An invariant of mesh contexts that every merge keeps holds after the
mapping loop for the context of every mesh identity. -/
theorem forEach_mergeMapping_invariant (P : MeshContext → Prop)
    (hP : ∀ meshIDs dataIDs mc cm r,
      configureMapping meshIDs dataIDs mc cm = Except.ok r → P mc → P r.1)
    (buffer : List ConfiguredMapping) :
    ∀ (s s1 : FinishState), forEach mergeMapping buffer s = Outcome.done s1 →
      ∀ meshID mc, s.participant.meshContext meshID = some mc → P mc →
        ∃ mc1, s1.participant.meshContext meshID = some mc1 ∧ P mc1 := by
  induction buffer with
  | nil =>
    intro s s1 h meshID mc hmc hp
    simp only [forEach, Outcome.done.injEq] at h
    subst h
    exact ⟨mc, hmc, hp⟩
  | cons cm rest ih =>
    intro s s1 h meshID mc hmc hp
    simp only [forEach] at h
    cases hstep : mergeMapping cm s with
    | failed e s2 => simp [hstep] at h
    | done s2 =>
      rw [hstep] at h
      obtain ⟨mc0, r, hmc0, hr, hsame, hother⟩ := mergeMapping_lookup cm s s2 hstep
      by_cases hid : meshID = cm.mesh.id
      · subst hid
        rw [hmc] at hmc0
        cases hmc0
        exact ih s2 s1 h _ r.1 hsame (hP _ _ _ _ _ hr hp)
      · exact ih s2 s1 h meshID mc ((hother meshID hid) ▸ hmc) hp

/-! ## Resolution of local data -/

/-- A completed in-place loop completed on every element and stored the result
at the same position. -/
theorem forEachInPlace_done_get {α : Type} (body : α → Outcome α) (l l1 : List α)
    (h : forEachInPlace body l = Outcome.done l1) (i : Nat) (a : α) (ha : l[i]? = some a) :
    ∃ a1, l1[i]? = some a1 ∧ body a = Outcome.done a1 := by
  induction l generalizing l1 i with
  | nil => simp at ha
  | cons b bs ih =>
    simp only [forEachInPlace] at h
    cases hb : body b with
    | failed e b1 => simp [hb] at h
    | done b1 =>
      rw [hb] at h
      cases hrest : forEachInPlace body bs with
      | failed e r => simp [hrest, Outcome.mapState] at h
      | done r =>
        simp only [hrest, Outcome.mapState, Outcome.done.injEq] at h
        subst h
        cases i with
        | zero =>
          simp only [List.getElem?_cons_zero, Option.some.injEq] at ha
          subst ha
          exact ⟨b1, by simp, hb⟩
        | succ j =>
          simp only [List.getElem?_cons_succ] at ha ⊢
          exact ih r hrest j ha

/-- The data context loop body reads only the mesh contexts of the participant. -/
theorem resolveDataContext_congr (direction : Direction) (p q : Participant)
    (h : p.usedMeshContexts = q.usedMeshContexts) (dataContext : DataContext) :
    resolveDataContext direction p dataContext = resolveDataContext direction q dataContext := by
  unfold resolveDataContext Participant.meshContext
  rw [h]

/-- The body of the data context loops cannot fail on a data context whose
data belongs to its mesh when the mapping context of the direction agrees with
the mesh and has a mapping; it resolves the local data by name. -/
theorem resolveDataContext_resolves (direction : Direction) (p : Participant)
    (dataContext : DataContext) (mc : MeshContext)
    (hmc : p.meshContext dataContext.mesh.id = some mc)
    (hmesh : mc.mesh = dataContext.mesh)
    (hmir : (mc.mappingContextOf direction).Mirrors mc.mesh)
    (hdata : dataContext.data ∈ dataContext.mesh.data)
    (hids : ∀ d ∈ dataContext.mesh.data, d.id = dataContext.data.id → d = dataContext.data)
    (hset : (mc.mappingContextOf direction).mapping ≠ none) :
    ∃ resolved d localMesh,
      resolveDataContext direction p dataContext = Outcome.done resolved ∧
      resolved.data = dataContext.data ∧ resolved.mesh = dataContext.mesh ∧
      resolved.mappingContext = mc.mappingContextOf direction ∧
      resolved.localData = some d ∧
      (mc.mappingContextOf direction).localMesh = some localMesh ∧
      d ∈ localMesh.data ∧ d.name = dataContext.data.name := by
  unfold MappingContext.Mirrors at hmir
  cases hlm : (mc.mappingContextOf direction).localMesh with
  | none => rw [hlm] at hmir; exact absurd hmir hset
  | some localMesh =>
    rw [hlm] at hmir
    simp only at hmir
    -- the name read from the mesh by identifier
    have hfind : ∃ named, mc.mesh.dataByID dataContext.data.id = some named := by
      unfold Mesh.dataByID
      rw [hmesh]
      cases hf : dataContext.mesh.data.find? (fun data => data.id == dataContext.data.id) with
      | some named => exact ⟨named, rfl⟩
      | none =>
        rw [List.find?_eq_none] at hf
        exact absurd (hf _ hdata) (by simp)
    obtain ⟨named, hnamed⟩ := hfind
    have hname : named = dataContext.data := by
      unfold Mesh.dataByID at hnamed
      rw [hmesh] at hnamed
      have h1 := List.find?_some hnamed
      have h2 := List.mem_of_find?_eq_some hnamed
      exact hids named h2 (by simpa using h1)
    subst hname
    -- the local data of that name
    have hmem : dataContext.data.name ∈ localMesh.data.map Data.name := by
      rw [hmir, hmesh]
      exact List.mem_map_of_mem _ hdata
    have hlocal : ∃ d, localMesh.data.find? (fun data => data.name == dataContext.data.name) = some d := by
      cases hf : localMesh.data.find? (fun data => data.name == dataContext.data.name) with
      | some d => exact ⟨d, rfl⟩
      | none =>
        rw [List.find?_eq_none] at hf
        obtain ⟨d, hd, hdn⟩ := List.mem_map.1 hmem
        exact absurd (hf d hd) (by simp [hdn])
    obtain ⟨d, hd⟩ := hlocal
    refine ⟨{ dataContext with mappingContext := mc.mappingContextOf direction,
                               localData := some d }, d, localMesh, ?_, rfl, rfl, rfl, rfl, rfl,
      List.mem_of_find?_eq_some hd, by simpa using List.find?_some hd⟩
    have hsome : (mc.mappingContextOf direction).mapping.isSome = true := by
      cases hm : (mc.mappingContextOf direction).mapping with
      | none => exact absurd hm hset
      | some _ => rfl
    simp only [resolveDataContext, hmc, hsome, if_true, setLocalData, hnamed, hlm, hd,
      Option.isSome_some]

/-- The loop body keeps the agreement of the mapping context of either
direction with the mesh: a merge of the other direction leaves the mapping
context untouched, a merge of the same direction keeps the local mesh or
makes it by `copy`. -/
theorem configureMapping_mirrors (direction : Direction) (meshIDs dataIDs : Nat)
    (meshContext : MeshContext) (confMapping : ConfiguredMapping) (r : MeshContext × Nat × Nat)
    (h : configureMapping meshIDs dataIDs meshContext confMapping = Except.ok r)
    (hm : (meshContext.mappingContextOf direction).Mirrors meshContext.mesh) :
    (r.1.mappingContextOf direction).Mirrors r.1.mesh := by
  rw [configureMapping_ok_iff] at h
  obtain ⟨-, rfl⟩ := h
  cases hdir : confMapping.direction <;> simp only
  · obtain ⟨e1, e2, e3⟩ := applyTimingRule_frame confMapping
      (bindWriteMapping meshIDs dataIDs meshContext confMapping).1
    cases direction <;> simp only [MeshContext.mappingContextOf] at hm ⊢ <;> rw [e1]
    · rw [e2]
      unfold MappingContext.Mirrors at hm ⊢
      simp only [bindWriteMapping]
      cases hlm : meshContext.writeMappingContext.localMesh with
      | none => simp [copy_names]
      | some lm => simpa [hlm] using hm
    · rw [e3]
      exact hm
  · obtain ⟨e1, e2, e3⟩ := applyTimingRule_frame confMapping
      (bindReadMapping meshIDs dataIDs meshContext confMapping).1
    cases direction <;> simp only [MeshContext.mappingContextOf] at hm ⊢ <;> rw [e1]
    · rw [e2]
      exact hm
    · rw [e3]
      unfold MappingContext.Mirrors at hm ⊢
      simp only [bindReadMapping]
      cases hlm : meshContext.readMappingContext.localMesh with
      | none => simp [copy_names]
      | some lm => simpa [hlm] using hm

/-- A transported outcome is complete exactly when the outcome is. -/
theorem Outcome.mapState_done_iff {σ τ : Type} (g : σ → τ) (o : Outcome σ) (t : τ) :
    o.mapState g = Outcome.done t ↔ ∃ s, o = Outcome.done s ∧ g s = t := by
  cases o <;> simp [Outcome.mapState]

/-- The data context lists after a completed finalization are the results of
the two data context loops run on the mesh contexts left by the mapping loop. -/
theorem finish_done_dataContexts (direction : Direction) (s s0 s6 : FinishState)
    (hloop : forEach mergeMapping s.config.mappingConfig s = Outcome.done s0)
    (h : finishParticipantConfiguration s = Outcome.done s6) :
    forEachInPlace (resolveDataContext direction s0.participant)
        (s.participant.dataContextsOf direction) =
      Outcome.done (s6.participant.dataContextsOf direction) := by
  rw [finish_done_iff] at h
  obtain ⟨s1, s2, s3, s4, s5, h1, h2, h3, h4, h5, h6⟩ := h
  rw [mergeMappings_done_iff, hloop] at h1
  obtain ⟨s0', h0, rfl⟩ := h1
  cases h0
  have ew : s0.participant.writeDataContexts = s.participant.writeDataContexts := by
    have := forEach_preserves (fun s : FinishState => s.participant.writeDataContexts) _
      (mergeMapping_frame_participant (fun p => p.writeDataContexts) (fun _ _ => rfl))
      s.config.mappingConfig s
    rw [Outcome.state_of_done hloop] at this
    exact this
  have er : s0.participant.readDataContexts = s.participant.readDataContexts := by
    have := forEach_preserves (fun s : FinishState => s.participant.readDataContexts) _
      (mergeMapping_frame_participant (fun p => p.readDataContexts) (fun _ _ => rfl))
      s.config.mappingConfig s
    rw [Outcome.state_of_done hloop] at this
    exact this
  unfold resolveWriteData at h2
  rw [Outcome.mapState_done_iff] at h2
  obtain ⟨lw, hlw, hs2⟩ := h2
  unfold resolveReadData at h3
  rw [Outcome.mapState_done_iff] at h3
  obtain ⟨lr, hlr, hs3⟩ := h3
  simp only at hlw
  have e2w : s2.participant.writeDataContexts = lw := by rw [← hs2]
  have e2r : s2.participant.readDataContexts = s0.participant.readDataContexts := by rw [← hs2]
  have e2c : s2.participant.usedMeshContexts = s0.participant.usedMeshContexts := by rw [← hs2]
  have e3w : s3.participant.writeDataContexts = s2.participant.writeDataContexts := by rw [← hs3]
  have e3r : s3.participant.readDataContexts = lr := by rw [← hs3]
  cases direction
  · have e4 := addActions_frame_participant (fun p => p.writeDataContexts) (fun _ _ => rfl) s3
    have e5 := addExportContexts_frame_participant (fun p => p.writeDataContexts)
      (fun _ _ => rfl) s4
    have e6 := createWatchPoints_frame_participant (fun p => p.writeDataContexts)
      (fun _ _ => rfl) s5
    rw [Outcome.state_of_done h4] at e4
    rw [Outcome.state_of_done h5] at e5
    rw [Outcome.state_of_done h6] at e6
    simp only [Participant.dataContextsOf]
    rw [e6, e5, e4, e3w, e2w, ← ew]
    exact hlw
  · have e4 := addActions_frame_participant (fun p => p.readDataContexts) (fun _ _ => rfl) s3
    have e5 := addExportContexts_frame_participant (fun p => p.readDataContexts)
      (fun _ _ => rfl) s4
    have e6 := createWatchPoints_frame_participant (fun p => p.readDataContexts)
      (fun _ _ => rfl) s5
    rw [Outcome.state_of_done h4] at e4
    rw [Outcome.state_of_done h5] at e5
    rw [Outcome.state_of_done h6] at e6
    simp only [Participant.dataContextsOf]
    rw [e6, e5, e4, e3r, ← er, ← e2r]
    have hfun : resolveDataContext Direction.READ s0.participant =
        resolveDataContext Direction.READ s2.participant :=
      funext fun dc => resolveDataContext_congr _ _ _ e2c.symm dc
    rw [hfun]
    exact hlr

/-- C5 (amended): let `dataContext` be the `i`-th entry of the write (resp. read)
list, with its data among the data of its mesh (and the only data field of the
mesh with its identifier), and let `mc` be the mesh context of its mesh after
the mapping loop, with a mapping set for that direction.  Assume further that
the mapping context of that direction agreed with the mesh when finalization
began: in the context `mcInit` of the mesh it had either no local mesh and no
mapping, or a local mesh with the data names of the mesh.  Then the data
context loop resolves `dataContext` without failure: the resolved context keeps
data and mesh, its mapping context is a copy of that of `mc`, its local data is
non-null, is a data entry of the local mesh of that mapping context, and has
the name of the data; and it is the `i`-th entry of the list after every
completed `finishParticipantConfiguration`. -/
theorem finish_resolves_localData (direction : Direction) (s s0 : FinishState) (i : Nat)
    (dataContext : DataContext) (mcInit mc : MeshContext)
    (hloop : forEach mergeMapping s.config.mappingConfig s = Outcome.done s0)
    (hD : (s.participant.dataContextsOf direction)[i]? = some dataContext)
    (hdata : dataContext.data ∈ dataContext.mesh.data)
    (hids : ∀ d ∈ dataContext.mesh.data, d.id = dataContext.data.id → d = dataContext.data)
    (hmc : s0.participant.meshContext dataContext.mesh.id = some mc)
    (hmesh : mc.mesh = dataContext.mesh)
    (hset : (mc.mappingContextOf direction).mapping ≠ none)
    (hinit : s.participant.meshContext dataContext.mesh.id = some mcInit)
    (hmirrors : (mcInit.mappingContextOf direction).Mirrors mcInit.mesh) :
    ∃ resolved d localMesh,
      resolveDataContext direction s0.participant dataContext = Outcome.done resolved ∧
      resolved.data = dataContext.data ∧ resolved.mesh = dataContext.mesh ∧
      resolved.mappingContext = mc.mappingContextOf direction ∧
      resolved.localData = some d ∧
      (mc.mappingContextOf direction).localMesh = some localMesh ∧
      d ∈ localMesh.data ∧ d.name = dataContext.data.name ∧
      ∀ s6, finishParticipantConfiguration s = Outcome.done s6 →
        (s6.participant.dataContextsOf direction)[i]? = some resolved := by
  obtain ⟨mc1, hmc1, hmir1⟩ := forEach_mergeMapping_invariant
    (fun m => (m.mappingContextOf direction).Mirrors m.mesh)
    (fun _ _ m cm r hr hp => configureMapping_mirrors direction _ _ m cm r hr hp)
    _ s s0 hloop _ mcInit hinit hmirrors
  rw [hmc] at hmc1
  cases hmc1
  obtain ⟨resolved, d, localMesh, hres, h1, h2, h3, h4, h5, h6, h7⟩ :=
    resolveDataContext_resolves direction s0.participant dataContext mc hmc hmesh hmir1 hdata
      hids hset
  refine ⟨resolved, d, localMesh, hres, h1, h2, h3, h4, h5, h6, h7, ?_⟩
  intro s6 hfin
  have hlist := finish_done_dataContexts direction s s0 s6 hloop hfin
  obtain ⟨a1, ha1, hbody⟩ := forEachInPlace_done_get _ _ _ hlist i dataContext hD
  rw [hres] at hbody
  cases hbody
  exact ha1

/-! ## Watch points -/

/-- The inner loop of the watch point step, from any start value: a result is
the start value or the mesh of a context of that name, and a context of that
name or a non-null start value gives a non-null result. -/
theorem findWatchedMesh_fold (nameMesh : String) (l : List MeshContext) (acc : Option Mesh) :
    (∀ m, l.foldl (fun mesh context =>
        if context.mesh.name == nameMesh then some context.mesh else mesh) acc = some m →
      acc = some m ∨ ∃ mc ∈ l, mc.mesh = m ∧ m.name = nameMesh) ∧
    ((∃ mc ∈ l, mc.mesh.name = nameMesh) →
      (l.foldl (fun mesh context =>
        if context.mesh.name == nameMesh then some context.mesh else mesh) acc).isSome = true) ∧
    (acc.isSome = true →
      (l.foldl (fun mesh context =>
        if context.mesh.name == nameMesh then some context.mesh else mesh) acc).isSome = true) := by
  induction l generalizing acc with
  | nil => simp
  | cons c cs ih =>
    simp only [List.foldl_cons]
    obtain ⟨ih1, ih2, ih3⟩ := ih (if c.mesh.name == nameMesh then some c.mesh else acc)
    refine ⟨?_, ?_, ?_⟩
    · intro m hm
      rcases ih1 m hm with h | ⟨mc, hmc, h1, h2⟩
      · by_cases hc : c.mesh.name = nameMesh
        · simp only [hc, beq_self_eq_true, if_true, Option.some.injEq] at h
          exact Or.inr ⟨c, by simp, h, h ▸ hc⟩
        · simp only [beq_iff_eq, hc, if_false] at h
          exact Or.inl h
      · exact Or.inr ⟨mc, by simp [hmc], h1, h2⟩
    · rintro ⟨mc, hmc, hname⟩
      rcases List.mem_cons.1 hmc with rfl | hmem
      · apply ih3
        simp [hname]
      · exact ih2 ⟨mc, hmem, hname⟩
    · intro hacc
      apply ih3
      split
      · rfl
      · exact hacc

/-- The inner loop finds a mesh exactly when a used context has a mesh of that
name. -/
theorem findWatchedMesh_isSome_iff (contexts : List MeshContext) (nameMesh : String) :
    (findWatchedMesh contexts nameMesh).isSome = true ↔
      ∃ mc ∈ contexts, mc.mesh.name = nameMesh := by
  obtain ⟨h1, h2, -⟩ := findWatchedMesh_fold nameMesh contexts none
  constructor
  · intro h
    obtain ⟨m, hm⟩ := Option.isSome_iff_exists.1 h
    rcases h1 m hm with h | ⟨mc, hmc, rfl, hname⟩
    · cases h
    · exact ⟨mc, hmc, hname⟩
  · exact h2

/-- A mesh found by the inner loop is the mesh of a used context and has that
name. -/
theorem findWatchedMesh_some (contexts : List MeshContext) (nameMesh : String) (m : Mesh)
    (h : findWatchedMesh contexts nameMesh = some m) :
    ∃ mc ∈ contexts, mc.mesh = m ∧ m.name = nameMesh := by
  rcases (findWatchedMesh_fold nameMesh contexts none).1 m h with h | h
  · cases h
  · exact h

/-- One iteration of the watch point loop in terms of `watchPointOf`. -/
theorem createWatchPoint_eq (config : WatchPointConfig) (s : FinishState) :
    createWatchPoint config s =
      if (findWatchedMesh s.participant.usedMeshContexts config.nameMesh).isSome then
        Outcome.done { s with participant :=
          s.participant.addWatchPoint (watchPointOf s.participant.usedMeshContexts config) }
      else Outcome.failed ConfigError.UsageError s := rfl

/-- The watch point loop completes and appends one watch point per config when
every config names a used mesh. -/
theorem forEach_createWatchPoint_done (configs : List WatchPointConfig) :
    ∀ s : FinishState,
      (∀ config ∈ configs,
        (findWatchedMesh s.participant.usedMeshContexts config.nameMesh).isSome = true) →
      forEach createWatchPoint configs s =
        Outcome.done { s with participant := { s.participant with
          watchPoints := s.participant.watchPoints ++
            configs.map (watchPointOf s.participant.usedMeshContexts) } } := by
  induction configs with
  | nil => intro s _; simp [forEach]
  | cons c cs ih =>
    intro s h
    have hc := h c (by simp)
    simp only [forEach, createWatchPoint_eq, hc, if_true]
    have hrest := ih
      { s with participant :=
          s.participant.addWatchPoint (watchPointOf s.participant.usedMeshContexts c) }
      (fun config hmem => h config (by simp [hmem]))
    rw [hrest]
    simp [Participant.addWatchPoint]

/-- The watch point loop fails with a `UsageError` when some config names no
used mesh. -/
theorem forEach_createWatchPoint_failed (configs : List WatchPointConfig) :
    ∀ s : FinishState,
      (∃ config ∈ configs,
        (findWatchedMesh s.participant.usedMeshContexts config.nameMesh).isSome = false) →
      ∃ s1, forEach createWatchPoint configs s = Outcome.failed ConfigError.UsageError s1 := by
  induction configs with
  | nil => intro s h; simp at h
  | cons c cs ih =>
    intro s h
    by_cases hc : (findWatchedMesh s.participant.usedMeshContexts c.nameMesh).isSome = true
    · simp only [forEach, createWatchPoint_eq, hc, if_true]
      apply ih
        { s with participant :=
            s.participant.addWatchPoint (watchPointOf s.participant.usedMeshContexts c) }
      obtain ⟨config, hmem, hbad⟩ := h
      rcases List.mem_cons.1 hmem with rfl | hmem
      · rw [hc] at hbad; cases hbad
      · exact ⟨config, hmem, hbad⟩
    · simp only [forEach, createWatchPoint_eq, hc]
      exact ⟨s, rfl⟩

/-- C6: the watch point step fails with a `UsageError` if and only if some
buffered watch point config has a mesh name that is the name of no mesh among
the used mesh contexts of the participant. -/
theorem createWatchPoints_fails_iff (s : FinishState) :
    (createWatchPoints s).error? = some ConfigError.UsageError ↔
      ∃ config ∈ s.config.watchPointConfigs,
        ∀ mc ∈ s.participant.usedMeshContexts, mc.mesh.name ≠ config.nameMesh := by
  constructor
  · intro h
    by_contra hno
    have hall : ∀ config ∈ s.config.watchPointConfigs,
        (findWatchedMesh s.participant.usedMeshContexts config.nameMesh).isSome = true := by
      intro config hmem
      rw [findWatchedMesh_isSome_iff]
      by_contra hnone
      exact hno ⟨config, hmem, fun mc hmc hname => hnone ⟨mc, hmc, hname⟩⟩
    unfold createWatchPoints at h
    rw [forEach_createWatchPoint_done _ s hall] at h
    simp [Outcome.andThen, Outcome.error?] at h
  · rintro ⟨config, hmem, hbad⟩
    have hnone : (findWatchedMesh s.participant.usedMeshContexts config.nameMesh).isSome
        = false := by
      cases hsome : (findWatchedMesh s.participant.usedMeshContexts config.nameMesh).isSome with
      | false => rfl
      | true =>
        obtain ⟨mc, hmc, hname⟩ := (findWatchedMesh_isSome_iff _ _).1 hsome
        exact absurd hname (hbad mc hmc)
    obtain ⟨s1, hs1⟩ := forEach_createWatchPoint_failed _ s ⟨config, hmem, hnone⟩
    unfold createWatchPoints
    rw [hs1]
    rfl

/-- The watch point step, run in any state: when every buffered watch point
config names a used mesh, the step completes, appends to the participant one
watch point per config in buffer order, and clears the buffer; each watch point
has the coordinates of its config unchanged, the file name
`<name>.watchpoint.txt`, and the mesh of a used mesh context whose name is the
mesh name of the config. -/
theorem createWatchPoints_appends (s : FinishState)
    (hall : ∀ config ∈ s.config.watchPointConfigs,
      ∃ mc ∈ s.participant.usedMeshContexts, mc.mesh.name = config.nameMesh) :
    createWatchPoints s =
      Outcome.done
        { config := { s.config with watchPointConfigs := [] }
          participant := { s.participant with
            watchPoints := s.participant.watchPoints ++
              s.config.watchPointConfigs.map (watchPointOf s.participant.usedMeshContexts) } } ∧
    ∀ config ∈ s.config.watchPointConfigs,
      (watchPointOf s.participant.usedMeshContexts config).coordinates = config.coordinates ∧
      (watchPointOf s.participant.usedMeshContexts config).filename =
        config.name ++ ".watchpoint.txt" ∧
      ∃ mc ∈ s.participant.usedMeshContexts,
        (watchPointOf s.participant.usedMeshContexts config).mesh = some mc.mesh ∧
        mc.mesh.name = config.nameMesh := by
  have hsome : ∀ config ∈ s.config.watchPointConfigs,
      (findWatchedMesh s.participant.usedMeshContexts config.nameMesh).isSome = true :=
    fun config hmem => (findWatchedMesh_isSome_iff _ _).2 (hall config hmem)
  constructor
  · unfold createWatchPoints
    rw [forEach_createWatchPoint_done _ s hsome]
    rfl
  · intro config hmem
    refine ⟨rfl, rfl, ?_⟩
    obtain ⟨m, hm⟩ := Option.isSome_iff_exists.1 (hsome config hmem)
    obtain ⟨mc, hmc, rfl, hname⟩ := findWatchedMesh_some _ _ _ hm
    exact ⟨mc, hmc, hm, hname⟩

/-! ## Actions and buffers -/

/-- A projection that the second part keeps is that of the first part. -/
theorem Outcome.andThen_state_frame {σ β : Type} (f : σ → β) (o : Outcome σ)
    (g : σ → Outcome σ) (hg : ∀ s, f (g s).state = f s) :
    f (o.andThen g).state = f o.state := by
  cases o with
  | done s => exact hg s
  | failed e s => rfl

/-- One iteration of the action loop. -/
theorem addAction_eq (action : Action) (s : FinishState) :
    addAction action s =
      if s.participant.isMeshUsed action.mesh.id then
        Outcome.done { s with participant := s.participant.addAction action }
      else Outcome.failed ConfigError.UsageError s := rfl

/-- The action loop completes and appends the buffer when every mesh is used. -/
theorem forEach_addAction_done (actions : List Action) :
    ∀ s : FinishState,
      (∀ action ∈ actions, s.participant.isMeshUsed action.mesh.id = true) →
      forEach addAction actions s =
        Outcome.done { s with participant := { s.participant with
          actions := s.participant.actions ++ actions } } := by
  induction actions with
  | nil => intro s _; simp [forEach]
  | cons a as ih =>
    intro s h
    have ha := h a (by simp)
    simp only [forEach, addAction_eq, ha, if_true]
    have hrest := ih { s with participant := s.participant.addAction a }
      (fun action hmem => h action (by simp [hmem]))
    rw [hrest]
    simp [Participant.addAction]

/-- The action loop fails with a `UsageError` when some mesh is not used. -/
theorem forEach_addAction_failed (actions : List Action) :
    ∀ s : FinishState,
      (∃ action ∈ actions, s.participant.isMeshUsed action.mesh.id = false) →
      ∃ s1, forEach addAction actions s = Outcome.failed ConfigError.UsageError s1 := by
  induction actions with
  | nil => intro s h; simp at h
  | cons a as ih =>
    intro s h
    by_cases ha : s.participant.isMeshUsed a.mesh.id = true
    · simp only [forEach, addAction_eq, ha, if_true]
      apply ih { s with participant := s.participant.addAction a }
      obtain ⟨action, hmem, hbad⟩ := h
      rcases List.mem_cons.1 hmem with rfl | hmem
      · rw [ha] at hbad; cases hbad
      · exact ⟨action, hmem, hbad⟩
    · simp only [forEach, addAction_eq, ha]
      exact ⟨s, rfl⟩

/-- C10: the action step, run in any state `s`: if the mesh of every buffered
action is used by the participant, it appends the buffer to the action list in
buffer order (new list = old list followed by the buffer) and drains the
buffer; if the mesh of some buffered action is not used, it fails with a
`UsageError`.  Whenever the steps before it complete in `s`,
`finishParticipantConfiguration` leaves that action list, respectively fails
with the `UsageError`. -/
theorem addActions_appends_or_fails (s : FinishState) :
    ((∀ action ∈ s.config.actionConfig, s.participant.isMeshUsed action.mesh.id = true) →
      addActions s =
        Outcome.done
          { config := { s.config with actionConfig := [] }
            participant := { s.participant with
              actions := s.participant.actions ++ s.config.actionConfig } }) ∧
    ((∃ action ∈ s.config.actionConfig, s.participant.isMeshUsed action.mesh.id = false) →
      ∃ s1, addActions s = Outcome.failed ConfigError.UsageError s1) ∧
    ∀ initial : FinishState,
      ((mergeMappings initial).andThen resolveWriteData).andThen resolveReadData =
        Outcome.done s →
      ((∀ action ∈ s.config.actionConfig, s.participant.isMeshUsed action.mesh.id = true) →
        (finishParticipantConfiguration initial).state.participant.actions =
          s.participant.actions ++ s.config.actionConfig) ∧
      ((∃ action ∈ s.config.actionConfig, s.participant.isMeshUsed action.mesh.id = false) →
        ∃ s1, finishParticipantConfiguration initial =
          Outcome.failed ConfigError.UsageError s1) := by
  have hdone : (∀ action ∈ s.config.actionConfig,
      s.participant.isMeshUsed action.mesh.id = true) →
      addActions s =
        Outcome.done
          { config := { s.config with actionConfig := [] }
            participant := { s.participant with
              actions := s.participant.actions ++ s.config.actionConfig } } := by
    intro h
    unfold addActions
    rw [forEach_addAction_done _ s h]
    rfl
  have hfail : (∃ action ∈ s.config.actionConfig,
      s.participant.isMeshUsed action.mesh.id = false) →
      ∃ s1, addActions s = Outcome.failed ConfigError.UsageError s1 := by
    intro h
    obtain ⟨s1, hs1⟩ := forEach_addAction_failed _ s h
    unfold addActions
    rw [hs1]
    exact ⟨s1, rfl⟩
  refine ⟨hdone, hfail, ?_⟩
  intro initial hprev
  have hfin : finishParticipantConfiguration initial =
      ((addActions s).andThen addExportContexts).andThen createWatchPoints := by
    unfold finishParticipantConfiguration
    rw [hprev]
    rfl
  constructor
  · intro h
    rw [hfin, hdone h]
    have e6 := Outcome.andThen_state_frame (fun s : FinishState => s.participant.actions)
      ((Outcome.done
          { config := { s.config with actionConfig := [] }
            participant := { s.participant with
              actions := s.participant.actions ++ s.config.actionConfig } }).andThen
        addExportContexts) createWatchPoints
      (createWatchPoints_frame_participant (fun p => p.actions) (fun _ _ => rfl))
    exact e6.trans
      (addExportContexts_frame_participant (fun p => p.actions) (fun _ _ => rfl) _)
  · intro h
    obtain ⟨s1, hs1⟩ := hfail h
    exact ⟨s1, by rw [hfin, hs1]; rfl⟩

/-- C8: whenever `finishParticipantConfiguration` completes, the mapping
buffer, the action buffer, the export buffer and the watch point buffer are
all empty afterwards, whatever they held before, both in the final state and
in the configuration object handed on to the next declaration; so a later
finalization only sees fragments buffered after this one. -/
theorem finish_drains_buffers (s s6 : FinishState)
    (h : finishParticipantConfiguration s = Outcome.done s6) :
    (s6.config.mappingConfig = [] ∧ s6.config.actionConfig = [] ∧
      s6.config.exportConfig = [] ∧ s6.config.watchPointConfigs = []) ∧
    (s6.toConfiguration.mappingConfig = [] ∧ s6.toConfiguration.actionConfig = [] ∧
      s6.toConfiguration.exportConfig = [] ∧ s6.toConfiguration.watchPointConfigs = []) := by
  suffices hmain : s6.config.mappingConfig = [] ∧ s6.config.actionConfig = [] ∧
      s6.config.exportConfig = [] ∧ s6.config.watchPointConfigs = [] from ⟨hmain, hmain⟩
  rw [finish_done_iff] at h
  obtain ⟨s1, s2, s3, s4, s5, h1, h2, h3, h4, h5, h6⟩ := h
  have r1 : s1.config.mappingConfig = [] := by
    rw [mergeMappings_done_iff] at h1
    obtain ⟨s0, -, rfl⟩ := h1
    rfl
  have r4 : s4.config.actionConfig = [] := by
    unfold addActions at h4
    rw [Outcome.andThen_done_iff] at h4
    obtain ⟨s0, -, h4⟩ := h4
    cases h4
    rfl
  have r5 : s5.config.exportConfig = [] := by
    unfold addExportContexts at h5
    rw [Outcome.andThen_done_iff] at h5
    obtain ⟨s0, -, h5⟩ := h5
    cases h5
    rfl
  have r6 : s6.config.watchPointConfigs = [] := by
    unfold createWatchPoints at h6
    rw [Outcome.andThen_done_iff] at h6
    obtain ⟨s0, -, h6⟩ := h6
    cases h6
    rfl
  have c2 := resolveWriteData_frame_config s1
  have c3 := resolveReadData_frame_config s2
  rw [Outcome.state_of_done h2] at c2
  rw [Outcome.state_of_done h3] at c3
  have m4 := addActions_frame_config (fun c => c.mappingConfig) (fun _ => rfl) s3
  have m5 := addExportContexts_frame_config (fun c => c.mappingConfig) (fun _ => rfl) s4
  have m6 := createWatchPoints_frame_config (fun c => c.mappingConfig) (fun _ => rfl) s5
  have a5 := addExportContexts_frame_config (fun c => c.actionConfig) (fun _ => rfl) s4
  have a6 := createWatchPoints_frame_config (fun c => c.actionConfig) (fun _ => rfl) s5
  have x6 := createWatchPoints_frame_config (fun c => c.exportConfig) (fun _ => rfl) s5
  rw [Outcome.state_of_done h4] at m4
  rw [Outcome.state_of_done h5] at m5 a5
  rw [Outcome.state_of_done h6] at m6 a6 x6
  refine ⟨?_, ?_, ?_, r6⟩
  · rw [m6, m5, m4, c3, c2, r1]
  · rw [a6, a5, r4]
  · rw [x6, r5]

/-! ## Watch points attached by the finalization -/

/-- The inner loop of the watch point step reads only the meshes of the used
contexts. -/
theorem findWatchedMesh_congr (l l1 : List MeshContext) (nameMesh : String)
    (h : l.map (fun context : MeshContext => context.mesh) =
      l1.map (fun context : MeshContext => context.mesh)) :
    findWatchedMesh l nameMesh = findWatchedMesh l1 nameMesh := by
  have key : ∀ (l : List MeshContext) (acc : Option Mesh),
      l.foldl (fun mesh context =>
          if context.mesh.name == nameMesh then some context.mesh else mesh) acc =
        (l.map (fun context : MeshContext => context.mesh)).foldl
          (fun mesh m => if m.name == nameMesh then some m else mesh) acc := by
    intro l
    induction l with
    | nil => intro acc; rfl
    | cons c cs ih => intro acc; simp only [List.foldl_cons, List.map_cons]; exact ih _
  unfold findWatchedMesh
  rw [key, key, h]

/-- A projection of the participant that the data, action and export steps
keep is, before the watch point step, that left by the mapping step. -/
theorem steps_until_exports_frame_participant {β : Type} (pp : Participant → β)
    (hw : ∀ (p : Participant) l, pp { p with writeDataContexts := l } = pp p)
    (hr : ∀ (p : Participant) l, pp { p with readDataContexts := l } = pp p)
    (ha : ∀ (p : Participant) l, pp { p with actions := l } = pp p)
    (he : ∀ (p : Participant) l, pp { p with exportContexts := l } = pp p)
    (s : FinishState) :
    pp (((((mergeMappings s).andThen resolveWriteData).andThen resolveReadData).andThen
        addActions).andThen addExportContexts).state.participant =
      pp (mergeMappings s).state.participant := by
  refine (Outcome.andThen_state_frame (fun s : FinishState => pp s.participant)
    _ addExportContexts (addExportContexts_frame_participant pp he)).trans ?_
  refine (Outcome.andThen_state_frame (fun s : FinishState => pp s.participant)
    _ addActions (addActions_frame_participant pp ha)).trans ?_
  refine (Outcome.andThen_state_frame (fun s : FinishState => pp s.participant)
    _ resolveReadData (resolveReadData_frame_participant pp hr)).trans ?_
  exact Outcome.andThen_state_frame (fun s : FinishState => pp s.participant)
    _ resolveWriteData (resolveWriteData_frame_participant pp hw)

/-- The steps before the watch point step keep the buffer of watch point
configs. -/
theorem steps_until_exports_frame_watchPointConfigs (s : FinishState) :
    (((((mergeMappings s).andThen resolveWriteData).andThen resolveReadData).andThen
        addActions).andThen addExportContexts).state.config.watchPointConfigs =
      s.config.watchPointConfigs := by
  refine (Outcome.andThen_state_frame (fun s : FinishState => s.config.watchPointConfigs)
    _ addExportContexts
    (addExportContexts_frame_config (fun c => c.watchPointConfigs) (fun _ => rfl))).trans ?_
  refine (Outcome.andThen_state_frame (fun s : FinishState => s.config.watchPointConfigs)
    _ addActions
    (addActions_frame_config (fun c => c.watchPointConfigs) (fun _ => rfl))).trans ?_
  refine (Outcome.andThen_state_frame (fun s : FinishState => s.config.watchPointConfigs)
    _ resolveReadData
    (fun s1 => congrArg (fun c : ParticipantConfiguration => c.watchPointConfigs)
      (resolveReadData_frame_config s1))).trans ?_
  refine (Outcome.andThen_state_frame (fun s : FinishState => s.config.watchPointConfigs)
    _ resolveWriteData
    (fun s1 => congrArg (fun c : ParticipantConfiguration => c.watchPointConfigs)
      (resolveWriteData_frame_config s1))).trans ?_
  exact mergeMappings_frame_config (fun c => c.watchPointConfigs) (fun _ _ _ => rfl)
    (fun _ => rfl) s

/-- C7: let every buffered watch point config of the state `s` in which
`finishParticipantConfiguration` is called name a mesh used by the participant.
Then the watch point step of `finishParticipantConfiguration` cannot fail:
whenever the steps before it complete (in a state `s5`), the function completes,
and a failure of the function is a failure of those steps.  Every completed
`finishParticipantConfiguration` appends to the watch points of the participant
exactly one watch point per buffered config, in buffer order (new list = old
list followed by the list `added`, which has the length of the buffer and whose
`i`-th entry is made from the `i`-th config).  The watch point of a config has
the coordinates of the config unchanged, the file name that is the name of the
config followed by `.watchpoint.txt`, and a mesh used by the participant (before
and after the finalization) whose name equals the mesh name of the config. -/
theorem finish_appends_watchPoints (s : FinishState)
    (hall : ∀ config ∈ s.config.watchPointConfigs,
      ∃ mc ∈ s.participant.usedMeshContexts, mc.mesh.name = config.nameMesh) :
    (∀ s5, ((((mergeMappings s).andThen resolveWriteData).andThen resolveReadData).andThen
          addActions).andThen addExportContexts = Outcome.done s5 →
        finishParticipantConfiguration s =
          Outcome.done
            { config := { s5.config with watchPointConfigs := [] }
              participant := { s5.participant with
                watchPoints := s.participant.watchPoints ++
                  s.config.watchPointConfigs.map
                    (fun config =>
                      { coordinates := config.coordinates
                        mesh := findWatchedMesh s.participant.usedMeshContexts config.nameMesh
                        filename := config.name ++ ".watchpoint.txt" }) } }) ∧
    (∀ e s1, finishParticipantConfiguration s = Outcome.failed e s1 →
        ((((mergeMappings s).andThen resolveWriteData).andThen resolveReadData).andThen
          addActions).andThen addExportContexts = Outcome.failed e s1) ∧
    (∀ s6, finishParticipantConfiguration s = Outcome.done s6 →
        ∃ added : List WatchPoint,
          s6.participant.watchPoints = s.participant.watchPoints ++ added ∧
          added.length = s.config.watchPointConfigs.length ∧
          ∀ (i : Nat) (config : WatchPointConfig), s.config.watchPointConfigs[i]? = some config →
            ∃ watchPoint mesh, added[i]? = some watchPoint ∧
              watchPoint.coordinates = config.coordinates ∧
              watchPoint.filename = config.name ++ ".watchpoint.txt" ∧
              watchPoint.mesh = some mesh ∧
              mesh.name = config.nameMesh ∧
              mesh ∈ s.participant.usedMeshContexts.map (fun context => context.mesh) ∧
              mesh ∈ s6.participant.usedMeshContexts.map (fun context => context.mesh)) := by
  have e1 := steps_until_exports_frame_watchPointConfigs s
  have e2 := (steps_until_exports_frame_participant (fun p : Participant => p.watchPoints)
    (fun _ _ => rfl) (fun _ _ => rfl) (fun _ _ => rfl) (fun _ _ => rfl) s).trans
    (mergeMappings_frame_participant (fun p : Participant => p.watchPoints) (fun _ _ => rfl) s)
  have e3 := (steps_until_exports_frame_participant
    (fun p : Participant =>
      p.usedMeshContexts.map (fun context : MeshContext => context.mesh))
    (fun _ _ => rfl) (fun _ _ => rfl) (fun _ _ => rfl) (fun _ _ => rfl) s).trans
    (mergeMappings_frame_meshes s)
  have key : ∀ s5, ((((mergeMappings s).andThen resolveWriteData).andThen
        resolveReadData).andThen addActions).andThen addExportContexts = Outcome.done s5 →
      finishParticipantConfiguration s =
        Outcome.done
          { config := { s5.config with watchPointConfigs := [] }
            participant := { s5.participant with
              watchPoints := s.participant.watchPoints ++
                s.config.watchPointConfigs.map
                  (fun config =>
                    { coordinates := config.coordinates
                      mesh := findWatchedMesh s.participant.usedMeshContexts config.nameMesh
                      filename := config.name ++ ".watchpoint.txt" }) } } := by
    intro s5 h5
    rw [h5] at e1 e2 e3
    simp only [Outcome.state] at e1 e2 e3
    have hfind : ∀ nameMesh, findWatchedMesh s5.participant.usedMeshContexts nameMesh =
        findWatchedMesh s.participant.usedMeshContexts nameMesh :=
      fun nameMesh => findWatchedMesh_congr _ _ nameMesh e3
    have hall5 : ∀ config ∈ s5.config.watchPointConfigs,
        ∃ mc ∈ s5.participant.usedMeshContexts, mc.mesh.name = config.nameMesh := by
      intro config hmem
      rw [e1] at hmem
      rw [← findWatchedMesh_isSome_iff, hfind, findWatchedMesh_isSome_iff]
      exact hall config hmem
    unfold finishParticipantConfiguration
    rw [h5]
    simp only [Outcome.andThen]
    rw [(createWatchPoints_appends s5 hall5).1, e1, e2]
    have hmap : s.config.watchPointConfigs.map (watchPointOf s5.participant.usedMeshContexts) =
        s.config.watchPointConfigs.map
          (fun config =>
            { coordinates := config.coordinates
              mesh := findWatchedMesh s.participant.usedMeshContexts config.nameMesh
              filename := config.name ++ ".watchpoint.txt" }) := by
      apply List.map_congr_left
      intro config _
      simp only [watchPointOf, hfind]
    rw [hmap]
  refine ⟨key, ?_, ?_⟩
  · intro e s1 hf
    cases hc : ((((mergeMappings s).andThen resolveWriteData).andThen resolveReadData).andThen
        addActions).andThen addExportContexts with
    | done s5 =>
      rw [key s5 hc] at hf
      cases hf
    | failed e0 s0 =>
      unfold finishParticipantConfiguration at hf
      rw [hc] at hf
      exact hf
  · intro s6 h6
    cases hc : ((((mergeMappings s).andThen resolveWriteData).andThen resolveReadData).andThen
        addActions).andThen addExportContexts with
    | failed e0 s0 =>
      unfold finishParticipantConfiguration at h6
      rw [hc] at h6
      cases h6
    | done s5 =>
      rw [key s5 hc] at h6
      cases h6
      rw [hc] at e3
      simp only [Outcome.state] at e3
      refine ⟨_, rfl, by simp, ?_⟩
      intro i config hi
      have hmem : config ∈ s.config.watchPointConfigs := List.mem_iff_getElem?.2 ⟨i, hi⟩
      have hsome := (findWatchedMesh_isSome_iff _ _).2 (hall config hmem)
      obtain ⟨mesh, hmesh⟩ := Option.isSome_iff_exists.1 hsome
      obtain ⟨mc, hmc, hmcm, hname⟩ := findWatchedMesh_some _ _ _ hmesh
      have hin : mesh ∈ s.participant.usedMeshContexts.map
          (fun context : MeshContext => context.mesh) :=
        List.mem_map.2 ⟨mc, hmc, hmcm⟩
      refine ⟨{ coordinates := config.coordinates
                mesh := findWatchedMesh s.participant.usedMeshContexts config.nameMesh
                filename := config.name ++ ".watchpoint.txt" },
        mesh, ?_, rfl, rfl, hmesh, hname, hin, ?_⟩
      · rw [List.getElem?_map, hi]
        rfl
      · simp only
        rw [e3]
        exact hin

/-! ## Binding of mesh and data declarations -/

/-- The `use-mesh` tag dispatches to `bindMesh`. -/
theorem xmlTagCallback_use_mesh (tag : XMLTag) (c : ParticipantConfiguration)
    (h : tag.name = TAG_USE_MESH) : xmlTagCallback tag c = bindMesh tag c := by
  simp [xmlTagCallback, h, TAG_USE_MESH, TAG]

/-- The data tag of a direction dispatches to `bindData` of that direction. -/
theorem xmlTagCallback_data (direction : Direction) (tag : XMLTag)
    (c : ParticipantConfiguration) (h : tag.name = dataTagName direction) :
    xmlTagCallback tag c = bindData direction tag c := by
  cases direction <;>
    simp [xmlTagCallback, h, dataTagName, TAG_WRITE, TAG, TAG_USE_MESH, TAG_READ]

/-- Writing the last participant back unchanged gives the same list. -/
theorem dropLast_append_back {α : Type} (l : List α) (a : α) (h : l.getLast? = some a) :
    l.dropLast ++ [a] = l := by
  have hne : l ≠ [] := by
    rintro rfl
    simp at h
  rw [List.getLast?_eq_getLast _ hne] at h
  cases h
  exact List.dropLast_append_getLast hne

/-- C11: for a `use-mesh` declaration that is read without error (the
dimensionality has been set and the offset attribute is read), a mesh name
that is absent from the mesh registry makes the binding fail with a
`ReferenceError` and leaves the configuration, hence the mesh context list of
the current participant, unchanged.  When the name is present and the
participant does not use the mesh yet, the mesh is bound: a mesh context with
requirement `UNDEFINED` is appended, whose geometry and spacetree are what
the registries hold for the mesh, null if they hold nothing. -/
theorem bindMesh_resolves_registry (tag : XMLTag) (c : ParticipantConfiguration)
    (offset : DynVector)
    (htag : tag.name = TAG_USE_MESH)
    (hdim : c.dimensions ≠ 0)
    (hoffset : tag.getDynVectorAttributeValue ATTR_LOCAL_OFFSET c.dimensions = Except.ok offset) :
    (c.meshConfig.getMesh (tag.getStringAttributeValue ATTR_NAME) = none →
      xmlTagCallback tag c = Outcome.failed ConfigError.ReferenceError c) ∧
    (∀ mesh back,
      c.meshConfig.getMesh (tag.getStringAttributeValue ATTR_NAME) = some mesh →
      c.participants.getLast? = some back →
      back.isMeshUsed mesh.id = false →
      xmlTagCallback tag c =
        Outcome.done { c with participants := c.participants.dropLast ++
          [{ back with usedMeshContexts := back.usedMeshContexts ++
            [{ mesh := mesh
               geometry := c.geometryConfig.find? (fun geometry =>
                 geometry.meshName == tag.getStringAttributeValue ATTR_NAME)
               spacetree :=
                 if c.meshConfig.doesMeshUseSpacetree (tag.getStringAttributeValue ATTR_NAME)
                 then c.spacetreeConfig.find? (fun tree =>
                   tree.name ==
                     c.meshConfig.getSpacetreeName (tag.getStringAttributeValue ATTR_NAME))
                 else none
               localOffset := offset
               remote := false
               receiveMeshFrom := tag.getStringAttributeValue ATTR_FROM
               provideMesh := tag.getBooleanAttributeValue ATTR_PROVIDE
               meshRequirement := MeshRequirement.UNDEFINED
               writeMappingContext := MappingContext.empty
               readMappingContext := MappingContext.empty }] }] }) := by
  have hassert : assertion (c.dimensions != 0) = Except.ok () := by
    simp [assertion, hdim]
  rw [xmlTagCallback_use_mesh tag c htag]
  constructor
  · intro hmesh
    simp only [bindMesh, hassert, hoffset, hmesh]
  · intro mesh back hmesh hback hunused
    simp only [bindMesh, hassert, hoffset, hmesh, onBack, hback, Participant.useMesh, hunused,
      Outcome.mapState]
    rfl

/-- C12: a `write-data` (resp. `read-data`) declaration on a mesh that the
registry resolves, in a participant under construction.  If no entry of the
data list of the mesh has the declared name, the binding fails with a
`ReferenceError` and changes nothing.  Otherwise, with `data` the first entry
of that name, exactly one data context is appended to the write (resp. read)
list of the current participant; it references `data` and the mesh, its
mapping context and local data are unresolved, and the list of the other
direction is unchanged. -/
theorem bindData_resolves_data (direction : Direction) (tag : XMLTag)
    (c : ParticipantConfiguration) (mesh : Mesh) (back : Participant)
    (htag : tag.name = dataTagName direction)
    (hmesh : c.meshConfig.getMesh (tag.getStringAttributeValue ATTR_MESH) = some mesh)
    (hback : c.participants.getLast? = some back) :
    ((∀ data ∈ mesh.data, data.name ≠ tag.getStringAttributeValue ATTR_NAME) →
      xmlTagCallback tag c = Outcome.failed ConfigError.ReferenceError c) ∧
    (∀ before data after, mesh.data = before ++ data :: after →
      data.name = tag.getStringAttributeValue ATTR_NAME →
      (∀ other ∈ before, other.name ≠ tag.getStringAttributeValue ATTR_NAME) →
      xmlTagCallback tag c =
        Outcome.done { c with participants := c.participants.dropLast ++
          [back.withDataContext direction (unresolvedDataContext data mesh)] }) := by
  rw [xmlTagCallback_data direction tag c htag]
  constructor
  · intro hnone
    have hfind : mesh.data.find? (fun data => data.name == tag.getStringAttributeValue ATTR_NAME)
        = none := by
      rw [List.find?_eq_none]
      intro data hmem
      simpa using hnone data hmem
    simp only [bindData, hmesh, getData, hfind]
  · intro before data after hsplit hname hfirst
    have hfind : mesh.data.find? (fun data => data.name == tag.getStringAttributeValue ATTR_NAME)
        = some data := by
      rw [hsplit, List.find?_append]
      have hb : before.find? (fun data => data.name == tag.getStringAttributeValue ATTR_NAME)
          = none := by
        rw [List.find?_eq_none]
        intro other hmem
        simpa using hfirst other hmem
      simp [hb, List.find?_cons, hname]
    cases direction <;>
      simp only [bindData, hmesh, getData, hfind, onBack, hback, Outcome.mapState,
        Participant.withDataContext, unresolvedDataContext, Participant.addWriteData,
        Participant.addReadData]

/-! ## Binding of the meshes of a mapping -/

/-- The loop of `copy` keeps name, dimensionality and normal orientation of
the mesh under construction and appends the data dimensions of the source, in
order. -/
theorem copyData_schema (l : List Data) (acc : Mesh × Nat) :
    (copyData l acc).1.name = acc.1.name ∧
    (copyData l acc).1.id = acc.1.id ∧
    (copyData l acc).1.dimensions = acc.1.dimensions ∧
    (copyData l acc).1.flipNormals = acc.1.flipNormals ∧
    (copyData l acc).1.data.map Data.dimensions =
      acc.1.data.map Data.dimensions ++ l.map Data.dimensions := by
  induction l generalizing acc with
  | nil => simp [copyData]
  | cons d ds ih =>
    simp only [copyData]
    obtain ⟨h1, h2, h3, h4, h5⟩ := ih (acc.1.createData acc.2 d.name d.dimensions)
    rw [h1, h2, h3, h4, h5]
    simp [Mesh.createData]

/-- A copy is a new mesh named `Local_<name>` with the next free mesh
identifier, the dimensionality and normal orientation of the source, and a data
field of the same name and dimension for every data field of the source, in
order. -/
theorem copy_schema (meshIDs dataIDs : Nat) (mesh : Mesh) :
    (copy meshIDs dataIDs mesh).1.name = "Local_" ++ mesh.name ∧
    (copy meshIDs dataIDs mesh).1.id = meshIDs ∧
    (copy meshIDs dataIDs mesh).1.dimensions = mesh.dimensions ∧
    (copy meshIDs dataIDs mesh).1.flipNormals = mesh.flipNormals ∧
    (copy meshIDs dataIDs mesh).1.data.map Data.name = mesh.data.map Data.name ∧
    (copy meshIDs dataIDs mesh).1.data.map Data.dimensions = mesh.data.map Data.dimensions ∧
    (copy meshIDs dataIDs mesh).2.1 = meshIDs + 1 := by
  refine ⟨?_, ?_, ?_, ?_, copy_names meshIDs dataIDs mesh, ?_, rfl⟩
  all_goals
    unfold copy
    simp only
    obtain ⟨h1, h2, h3, h4, h5⟩ := copyData_schema mesh.data
      ({ name := "Local_" ++ mesh.name, id := meshIDs, dimensions := mesh.dimensions,
         flipNormals := mesh.flipNormals, data := [] }, dataIDs)
    first
      | exact h1
      | exact h2
      | exact h3
      | exact h4
      | (rw [h5]; simp)

/-- C13: a completed merge of a configured mapping into the mesh context `mc` of
its mesh yields a context `mc1` of the same mesh whose mapping context of the
direction of the mapping holds a mapping `stored`, a local mesh `localMesh` and
the timing of the configured mapping.  `stored` is the configured mapping (same
requirement levels) with its meshes bound: for direction `WRITE` its input is
`localMesh` and its output is the context mesh, and the read mapping context
is left unchanged; for direction `READ` its input is the context mesh and its
output is `localMesh`, and the write mapping context is left unchanged.  If
the mapping context already had a local mesh, `localMesh` is that mesh and no
mesh is created (the identifier counters stay); if it had none, `localMesh` is
a new copy of the context mesh: named `Local_<name>`, with the dimensionality,
normal orientation, data names and data dimensions of the context mesh. -/
theorem mergeMapping_binds_meshes (confMapping : ConfiguredMapping) (s s1 : FinishState)
    (h : mergeMapping confMapping s = Outcome.done s1) :
    ∃ mc mc1 stored localMesh,
      s.participant.meshContext confMapping.mesh.id = some mc ∧
      s1.participant.meshContext confMapping.mesh.id = some mc1 ∧
      mc1.mesh = mc.mesh ∧
      mc1.mappingContextOf confMapping.direction =
        { mapping := some stored, localMesh := some localMesh, timing := confMapping.timing } ∧
      stored.inputRequirement = confMapping.mapping.inputRequirement ∧
      stored.outputRequirement = confMapping.mapping.outputRequirement ∧
      (confMapping.direction = Direction.WRITE →
        stored.input = some localMesh ∧ stored.output = some mc.mesh ∧
        mc1.readMappingContext = mc.readMappingContext) ∧
      (confMapping.direction = Direction.READ →
        stored.input = some mc.mesh ∧ stored.output = some localMesh ∧
        mc1.writeMappingContext = mc.writeMappingContext) ∧
      (∀ present, (mc.mappingContextOf confMapping.direction).localMesh = some present →
        localMesh = present ∧
        s1.config.meshIDs = s.config.meshIDs ∧ s1.config.dataIDs = s.config.dataIDs) ∧
      ((mc.mappingContextOf confMapping.direction).localMesh = none →
        localMesh = (copy s.config.meshIDs s.config.dataIDs mc.mesh).1 ∧
        localMesh.name = "Local_" ++ mc.mesh.name ∧
        localMesh.dimensions = mc.mesh.dimensions ∧
        localMesh.flipNormals = mc.mesh.flipNormals ∧
        localMesh.data.map Data.name = mc.mesh.data.map Data.name ∧
        localMesh.data.map Data.dimensions = mc.mesh.data.map Data.dimensions ∧
        s1.config.meshIDs = s.config.meshIDs + 1) := by
  obtain ⟨mc, r, hmc, hr, hsame, -⟩ := mergeMapping_lookup confMapping s s1 h
  rw [mergeMapping_done_iff] at h
  obtain ⟨mc', r', hmc', hr', hs1⟩ := h
  rw [hmc] at hmc'
  cases hmc'
  rw [hr] at hr'
  cases hr'
  subst hs1
  have hmesh := configureMapping_mesh _ _ _ _ _ hr
  rw [configureMapping_ok_iff] at hr
  obtain ⟨-, hr⟩ := hr
  obtain ⟨hc1, hc2, hc3, hc4, hc5, hc6, hc7⟩ := copy_schema s.config.meshIDs s.config.dataIDs mc.mesh
  cases hdir : confMapping.direction with
  | WRITE =>
    rw [hdir] at hr
    simp only at hr
    subst hr
    obtain ⟨-, hw, hrd⟩ := applyTimingRule_frame confMapping
      (bindWriteMapping s.config.meshIDs s.config.dataIDs mc confMapping).1
    cases hlm : mc.writeMappingContext.localMesh with
    | none =>
      refine ⟨mc, _, confMapping.mapping.setMeshes
        (copy s.config.meshIDs s.config.dataIDs mc.mesh).1 mc.mesh,
        (copy s.config.meshIDs s.config.dataIDs mc.mesh).1, hmc, hsame, hmesh, ?_, rfl, rfl,
        fun _ => ⟨rfl, rfl, ?_⟩, (fun hd => by cases hd), ?_, ?_⟩
      · simp only [MeshContext.mappingContextOf]
        rw [hw]
        simp only [bindWriteMapping, hlm]
      · rw [hrd]; rfl
      · intro present hp
        simp [MeshContext.mappingContextOf, hlm] at hp
      · intro _
        refine ⟨rfl, hc1, hc3, hc4, hc5, hc6, ?_⟩
        simp only [bindWriteMapping, hlm]
        exact hc7
    | some present =>
      refine ⟨mc, _, confMapping.mapping.setMeshes present mc.mesh, present, hmc, hsame, hmesh,
        ?_, rfl, rfl, fun _ => ⟨rfl, rfl, ?_⟩, (fun hd => by cases hd), ?_, ?_⟩
      · simp only [MeshContext.mappingContextOf]
        rw [hw]
        simp only [bindWriteMapping, hlm]
      · rw [hrd]; rfl
      · intro p hp
        simp only [MeshContext.mappingContextOf, hlm, Option.some.injEq] at hp
        subst hp
        simp [bindWriteMapping, hlm]
      · intro hn
        simp [MeshContext.mappingContextOf, hlm] at hn
  | READ =>
    rw [hdir] at hr
    simp only at hr
    subst hr
    obtain ⟨-, hw, hrd⟩ := applyTimingRule_frame confMapping
      (bindReadMapping s.config.meshIDs s.config.dataIDs mc confMapping).1
    cases hlm : mc.readMappingContext.localMesh with
    | none =>
      refine ⟨mc, _, confMapping.mapping.setMeshes mc.mesh
        (copy s.config.meshIDs s.config.dataIDs mc.mesh).1,
        (copy s.config.meshIDs s.config.dataIDs mc.mesh).1, hmc, hsame, hmesh, ?_, rfl, rfl,
        (fun hd => by cases hd), fun _ => ⟨rfl, rfl, ?_⟩, ?_, ?_⟩
      · simp only [MeshContext.mappingContextOf]
        rw [hrd]
        simp only [bindReadMapping, hlm]
      · rw [hw]; rfl
      · intro present hp
        simp [MeshContext.mappingContextOf, hlm] at hp
      · intro _
        refine ⟨rfl, hc1, hc3, hc4, hc5, hc6, ?_⟩
        simp only [bindReadMapping, hlm]
        exact hc7
    | some present =>
      refine ⟨mc, _, confMapping.mapping.setMeshes mc.mesh present, present, hmc, hsame, hmesh,
        ?_, rfl, rfl, (fun hd => by cases hd), fun _ => ⟨rfl, rfl, ?_⟩, ?_, ?_⟩
      · simp only [MeshContext.mappingContextOf]
        rw [hrd]
        simp only [bindReadMapping, hlm]
      · rw [hw]; rfl
      · intro p hp
        simp only [MeshContext.mappingContextOf, hlm, Option.some.injEq] at hp
        subst hp
        simp [bindReadMapping, hlm]
      · intro hn
        simp [MeshContext.mappingContextOf, hlm] at hn

/-! ## Distinct mesh identities -/

/-- The mesh identity list of a participant decides which meshes it uses. -/
theorem isMeshUsed_iff_mem (p : Participant) (meshID : Int) :
    p.isMeshUsed meshID = true ↔
      meshID ∈ p.usedMeshContexts.map (fun context => context.mesh.id) := by
  unfold Participant.isMeshUsed Participant.meshContext
  rw [List.find?_isSome]
  simp

/-- A completed `useMesh` keeps the mesh identities distinct. -/
theorem useMesh_distinct (p p1 : Participant) (mesh : Mesh) (geometry : Option Geometry)
    (spacetree : Option Spacetree) (localOffset : DynVector) (remote : Bool)
    (fromParticipant : String) (provideMesh : Bool)
    (h : p.useMesh mesh geometry spacetree localOffset remote fromParticipant provideMesh =
      Outcome.done p1)
    (hp : p.DistinctMeshes) : p1.DistinctMeshes := by
  unfold Participant.useMesh at h
  split at h
  · cases h
  · rename_i hused
    cases h
    have hnot : mesh.id ∉ p.usedMeshContexts.map (fun context => context.mesh.id) := by
      intro hmem
      exact hused ((isMeshUsed_iff_mem p mesh.id).2 hmem)
    unfold Participant.DistinctMeshes at hp ⊢
    simp only [List.map_append, List.map_cons, List.map_nil]
    rw [List.nodup_append]
    refine ⟨hp, List.nodup_singleton _, ?_⟩
    intro a ha hb
    simp only [List.mem_singleton] at hb
    subst hb
    exact hnot ha

/-- An operation on the last participant that keeps an invariant of
participants keeps it for the whole list. -/
theorem onBack_invariant (P : Participant → Prop) (c c1 : ParticipantConfiguration)
    (operation : Participant → Outcome Participant)
    (hop : ∀ back updated, operation back = Outcome.done updated → P back → P updated)
    (h : onBack c operation = Outcome.done c1)
    (hall : ∀ p ∈ c.participants, P p) : ∀ p ∈ c1.participants, P p := by
  unfold onBack at h
  cases hback : c.participants.getLast? with
  | none =>
    simp only [hback] at h
    cases h
    exact hall
  | some back =>
    simp only [hback] at h
    rw [Outcome.mapState_done_iff] at h
    obtain ⟨updated, hdone, rfl⟩ := h
    intro p hp
    simp only [List.mem_append, List.mem_singleton] at hp
    rcases hp with hp | rfl
    · exact hall p (List.mem_of_mem_dropLast hp)
    · exact hop back _ hdone (hall back (List.mem_of_getLast?_eq_some hback))

/-- A projection of the participant that the steps after the mapping step
keep is, after the finalization, that left by the mapping step. -/
theorem finish_frame_participant {β : Type} (pp : Participant → β)
    (hw : ∀ (p : Participant) l, pp { p with writeDataContexts := l } = pp p)
    (hr : ∀ (p : Participant) l, pp { p with readDataContexts := l } = pp p)
    (ha : ∀ (p : Participant) l, pp { p with actions := l } = pp p)
    (he : ∀ (p : Participant) l, pp { p with exportContexts := l } = pp p)
    (hp : ∀ (p : Participant) l, pp { p with watchPoints := l } = pp p)
    (s : FinishState) :
    pp (finishParticipantConfiguration s).state.participant =
      pp (mergeMappings s).state.participant := by
  unfold finishParticipantConfiguration
  refine (Outcome.andThen_state_frame (fun s : FinishState => pp s.participant)
    _ createWatchPoints (createWatchPoints_frame_participant pp hp)).trans ?_
  refine (Outcome.andThen_state_frame (fun s : FinishState => pp s.participant)
    _ addExportContexts (addExportContexts_frame_participant pp he)).trans ?_
  refine (Outcome.andThen_state_frame (fun s : FinishState => pp s.participant)
    _ addActions (addActions_frame_participant pp ha)).trans ?_
  refine (Outcome.andThen_state_frame (fun s : FinishState => pp s.participant)
    _ resolveReadData (resolveReadData_frame_participant pp hr)).trans ?_
  exact Outcome.andThen_state_frame (fun s : FinishState => pp s.participant)
    _ resolveWriteData (resolveWriteData_frame_participant pp hw)

/-- A projection of the configuration that neither the identifier counters
nor the resets of the four buffers change is kept by the finalization. -/
theorem finish_frame_config {β : Type} (pc : ParticipantConfiguration → β)
    (hid : ∀ (c : ParticipantConfiguration) m d, pc { c with meshIDs := m, dataIDs := d } = pc c)
    (hm : ∀ c : ParticipantConfiguration, pc { c with mappingConfig := [] } = pc c)
    (ha : ∀ c : ParticipantConfiguration, pc { c with actionConfig := [] } = pc c)
    (he : ∀ c : ParticipantConfiguration, pc { c with exportConfig := [] } = pc c)
    (hw : ∀ c : ParticipantConfiguration, pc { c with watchPointConfigs := [] } = pc c)
    (s : FinishState) :
    pc (finishParticipantConfiguration s).state.config = pc s.config := by
  unfold finishParticipantConfiguration
  refine (Outcome.andThen_state_frame (fun s : FinishState => pc s.config)
    _ createWatchPoints (createWatchPoints_frame_config pc hw)).trans ?_
  refine (Outcome.andThen_state_frame (fun s : FinishState => pc s.config)
    _ addExportContexts (addExportContexts_frame_config pc he)).trans ?_
  refine (Outcome.andThen_state_frame (fun s : FinishState => pc s.config)
    _ addActions (addActions_frame_config pc ha)).trans ?_
  refine (Outcome.andThen_state_frame (fun s : FinishState => pc s.config)
    _ resolveReadData (fun s1 => congrArg pc (resolveReadData_frame_config s1))).trans ?_
  refine (Outcome.andThen_state_frame (fun s : FinishState => pc s.config)
    _ resolveWriteData (fun s1 => congrArg pc (resolveWriteData_frame_config s1))).trans ?_
  exact mergeMappings_frame_config pc hid hm s

/-- The finalization keeps the list of used meshes, whether it completes or
not. -/
theorem finish_frame_meshes (s : FinishState) :
    (finishParticipantConfiguration s).state.participant.usedMeshContexts.map
        (fun context : MeshContext => context.mesh) =
      s.participant.usedMeshContexts.map (fun context : MeshContext => context.mesh) := by
  have h := finish_frame_participant (fun p : Participant => p.usedMeshContexts)
    (fun _ _ => rfl) (fun _ _ => rfl) (fun _ _ => rfl) (fun _ _ => rfl) (fun _ _ => rfl) s
  simp only at h
  rw [h]
  exact mergeMappings_frame_meshes s

/-- The finalization keeps the mesh identities of the participant distinct. -/
theorem finish_distinct (s : FinishState) (hp : s.participant.DistinctMeshes) :
    (finishParticipantConfiguration s).state.participant.DistinctMeshes := by
  unfold Participant.DistinctMeshes at hp ⊢
  have h := congrArg (List.map (fun mesh : Mesh => mesh.id)) (finish_frame_meshes s)
  simp only [List.map_map] at h
  have e : ((fun mesh : Mesh => mesh.id) ∘ fun context : MeshContext => context.mesh) =
      fun context => context.mesh.id := rfl
  rw [e] at h
  rw [h]
  exact hp

/-- A completed `use-mesh` binding keeps the mesh identities of every
participant distinct. -/
theorem bindMesh_distinct (tag : XMLTag) (c c1 : ParticipantConfiguration)
    (h : bindMesh tag c = Outcome.done c1)
    (hall : ∀ p ∈ c.participants, p.DistinctMeshes) : ∀ p ∈ c1.participants, p.DistinctMeshes := by
  cases ha : assertion (c.dimensions != 0) with
  | error e => simp [bindMesh, ha] at h
  | ok u =>
    cases ho : tag.getDynVectorAttributeValue ATTR_LOCAL_OFFSET c.dimensions with
    | error e => simp [bindMesh, ha, ho] at h
    | ok offset =>
      cases hm : c.meshConfig.getMesh (tag.getStringAttributeValue ATTR_NAME) with
      | none => simp [bindMesh, ha, ho, hm] at h
      | some mesh =>
        simp only [bindMesh, ha, ho, hm] at h
        exact onBack_invariant _ c c1 _
          (fun back updated hdone hback => useMesh_distinct _ _ _ _ _ _ _ _ _ hdone hback)
          h hall

/-- A completed data binding keeps the mesh identities of every participant
distinct. -/
theorem bindData_distinct (direction : Direction) (tag : XMLTag)
    (c c1 : ParticipantConfiguration)
    (h : bindData direction tag c = Outcome.done c1)
    (hall : ∀ p ∈ c.participants, p.DistinctMeshes) : ∀ p ∈ c1.participants, p.DistinctMeshes := by
  cases hm : c.meshConfig.getMesh (tag.getStringAttributeValue ATTR_MESH) with
  | none => simp [bindData, hm] at h
  | some mesh =>
    cases hd : getData mesh (tag.getStringAttributeValue ATTR_NAME) with
    | error e => simp [bindData, hm, hd] at h
    | ok data =>
      simp only [bindData, hm, hd] at h
      refine onBack_invariant _ c c1 _ ?_ h hall
      intro back updated hdone hback
      cases direction <;> (cases hdone; exact hback)

/-- A completed `watch-point` declaration leaves the participants alone. -/
theorem bufferWatchPoint_participants (tag : XMLTag) (c c1 : ParticipantConfiguration)
    (h : bufferWatchPoint tag c = Outcome.done c1) : c1.participants = c.participants := by
  cases ha : assertion (c.dimensions != 0) with
  | error e => simp [bufferWatchPoint, ha] at h
  | ok u =>
    cases ho : tag.getDynVectorAttributeValue ATTR_COORDINATE c.dimensions with
    | error e => simp [bufferWatchPoint, ha, ho] at h
    | ok coordinate =>
      simp only [bufferWatchPoint, ha, ho, Outcome.done.injEq] at h
      rw [← h]

/-- The `watch-point` tag dispatches to `bufferWatchPoint`. -/
theorem xmlTagCallback_watch_point (tag : XMLTag) (c : ParticipantConfiguration)
    (h : tag.name = TAG_WATCH_POINT) : xmlTagCallback tag c = bufferWatchPoint tag c := by
  simp [xmlTagCallback, h, TAG_WATCH_POINT, TAG, TAG_USE_MESH, TAG_WRITE, TAG_READ]

/-- A completed `xmlTagCallback` keeps the mesh identities of every
participant distinct. -/
theorem xmlTagCallback_distinct (tag : XMLTag) (c c1 : ParticipantConfiguration)
    (h : xmlTagCallback tag c = Outcome.done c1)
    (hall : ∀ p ∈ c.participants, p.DistinctMeshes) : ∀ p ∈ c1.participants, p.DistinctMeshes := by
  by_cases h1 : tag.name = TAG
  · simp only [xmlTagCallback, h1, if_true, Outcome.done.injEq] at h
    rw [← h]
    intro p hp
    simp only [List.mem_append, List.mem_singleton] at hp
    rcases hp with hp | rfl
    · exact hall p hp
    · exact List.nodup_nil
  · by_cases h2 : tag.name = TAG_USE_MESH
    · rw [xmlTagCallback_use_mesh tag c h2] at h
      exact bindMesh_distinct tag c c1 h hall
    · by_cases h3 : tag.name = TAG_WRITE
      · rw [xmlTagCallback_data Direction.WRITE tag c h3] at h
        exact bindData_distinct _ tag c c1 h hall
      · by_cases h4 : tag.name = TAG_READ
        · rw [xmlTagCallback_data Direction.READ tag c h4] at h
          exact bindData_distinct _ tag c c1 h hall
        · by_cases h5 : tag.name = TAG_WATCH_POINT
          · rw [xmlTagCallback_watch_point tag c h5] at h
            rw [bufferWatchPoint_participants tag c c1 h]
            exact hall
          · by_cases h6 : tag.nspace = TAG_SERVER
            · simp only [xmlTagCallback, h1, h2, h3, h4, h5, h6, if_true, if_false] at h
              refine onBack_invariant _ c c1 _ ?_ h hall
              intro back updated hdone hback
              cases hdone
              exact hback
            · simp only [xmlTagCallback, h1, h2, h3, h4, h5, h6, if_false,
                Outcome.done.injEq] at h
              rw [← h]
              exact hall

/-- A completed `xmlEndTagCallback` keeps the mesh identities of every
participant distinct. -/
theorem xmlEndTagCallback_distinct (tag : XMLTag) (c c1 : ParticipantConfiguration)
    (h : xmlEndTagCallback tag c = Outcome.done c1)
    (hall : ∀ p ∈ c.participants, p.DistinctMeshes) : ∀ p ∈ c1.participants, p.DistinctMeshes := by
  unfold xmlEndTagCallback at h
  split at h
  · cases hback : c.participants.getLast? with
    | none =>
      simp only [hback] at h
      cases h
      exact hall
    | some back =>
      simp only [hback] at h
      rw [Outcome.mapState_done_iff] at h
      obtain ⟨s1, hfin, rfl⟩ := h
      have hd := finish_distinct { config := c, participant := back }
        (hall back (List.mem_of_getLast?_eq_some hback))
      rw [Outcome.state_of_done hfin] at hd
      have hcfg : s1.config.participants = c.participants := by
        have hf := finish_frame_config (fun c : ParticipantConfiguration => c.participants)
          (fun _ _ _ => rfl) (fun _ => rfl) (fun _ => rfl) (fun _ => rfl) (fun _ => rfl)
          { config := c, participant := back }
        rw [Outcome.state_of_done hfin] at hf
        exact hf
      intro p hp
      simp only [FinishState.toConfiguration, List.mem_append, List.mem_singleton] at hp
      rcases hp with hp | rfl
      · rw [hcfg] at hp
        exact hall p (List.mem_of_mem_dropLast hp)
      · exact hd
  · cases h
    exact hall

/-- A completed event keeps the mesh identities of every participant
distinct. -/
theorem handleEvent_distinct (event : Event) (c c1 : ParticipantConfiguration)
    (h : handleEvent event c = Outcome.done c1)
    (hall : ∀ p ∈ c.participants, p.DistinctMeshes) : ∀ p ∈ c1.participants, p.DistinctMeshes := by
  cases event with
  | started tag => exact xmlTagCallback_distinct tag c c1 h hall
  | ended tag => exact xmlEndTagCallback_distinct tag c c1 h hall

/-- C14: when a sequence of declaration events is accepted without error, from a
configuration whose participants have distinct mesh identities (in particular
from one without participants), no two mesh contexts of any participant it
produces reference the same mesh identity; and a `use-mesh` declaration for a
mesh that the current participant already uses is rejected, leaving the
configuration unchanged. -/
theorem runEvents_distinct_meshes (events : List Event) (c c1 : ParticipantConfiguration)
    (hinit : ∀ p ∈ c.participants, p.DistinctMeshes)
    (hrun : runEvents events c = Outcome.done c1) :
    (∀ p ∈ getParticipants c1, p.DistinctMeshes) ∧
    (∀ (tag : XMLTag) (c2 : ParticipantConfiguration) (mesh : Mesh) (back : Participant),
      tag.name = TAG_USE_MESH →
      c2.meshConfig.getMesh (tag.getStringAttributeValue ATTR_NAME) = some mesh →
      c2.participants.getLast? = some back →
      back.isMeshUsed mesh.id = true →
      ∃ e, handleEvent (Event.started tag) c2 = Outcome.failed e c2) := by
  constructor
  · unfold runEvents at hrun
    unfold getParticipants
    induction events generalizing c with
    | nil =>
      simp only [forEach, Outcome.done.injEq] at hrun
      rw [← hrun]
      exact hinit
    | cons event rest ih =>
      simp only [forEach] at hrun
      cases hstep : handleEvent event c with
      | failed e c2 => simp [hstep] at hrun
      | done c2 =>
        rw [hstep] at hrun
        exact ih c2 (handleEvent_distinct event c c2 hstep hinit) hrun
  · intro tag c2 mesh back htag hmesh hback hused
    simp only [handleEvent]
    rw [xmlTagCallback_use_mesh tag c2 htag]
    cases ha : assertion (c2.dimensions != 0) with
    | error e => exact ⟨e, by simp [bindMesh, ha]⟩
    | ok u =>
      cases ho : tag.getDynVectorAttributeValue ATTR_LOCAL_OFFSET c2.dimensions with
      | error e => exact ⟨e, by simp [bindMesh, ha, ho]⟩
      | ok offset =>
        refine ⟨ConfigError.ConsistencyError, ?_⟩
        simp only [bindMesh, ha, ho, hmesh, onBack, hback, Participant.useMesh, hused, if_true,
          Outcome.mapState, dropLast_append_back _ _ hback]

/-! ## Failure of the finalization -/

/-- The state of a failed operation. -/
theorem Outcome.state_of_failed {σ : Type} {o : Outcome σ} {e : ConfigError} {s : σ}
    (h : o = Outcome.failed e s) : o.state = s := by
  rw [h]; rfl

/-- The export step never fails. -/
theorem addExportContexts_done (s : FinishState) : ∃ s1, addExportContexts s = Outcome.done s1 := by
  have hloop : ∀ (l : List ExportContext) (s : FinishState),
      ∃ s1, forEach (fun context (s1 : FinishState) =>
        Outcome.done { s1 with participant := s1.participant.addExportContext context })
        l s = Outcome.done s1 := by
    intro l
    induction l with
    | nil => intro s; exact ⟨s, rfl⟩
    | cons a as ih => intro s; simp only [forEach]; exact ih _
  obtain ⟨s1, hs1⟩ := hloop s.config.exportConfig s
  unfold addExportContexts
  rw [hs1]
  exact ⟨_, rfl⟩

/-- A failed finalization failed in exactly one of its steps, after the steps
before it completed. -/
theorem finish_failed_cases (s s1 : FinishState) (e : ConfigError)
    (h : finishParticipantConfiguration s = Outcome.failed e s1) :
    mergeMappings s = Outcome.failed e s1 ∨
    (∃ a, mergeMappings s = Outcome.done a ∧ resolveWriteData a = Outcome.failed e s1) ∨
    (∃ a b, mergeMappings s = Outcome.done a ∧ resolveWriteData a = Outcome.done b ∧
      resolveReadData b = Outcome.failed e s1) ∨
    (∃ a b c, mergeMappings s = Outcome.done a ∧ resolveWriteData a = Outcome.done b ∧
      resolveReadData b = Outcome.done c ∧ addActions c = Outcome.failed e s1) ∨
    (∃ a b c d d1, mergeMappings s = Outcome.done a ∧ resolveWriteData a = Outcome.done b ∧
      resolveReadData b = Outcome.done c ∧ addActions c = Outcome.done d ∧
      addExportContexts d = Outcome.done d1 ∧ createWatchPoints d1 = Outcome.failed e s1) := by
  unfold finishParticipantConfiguration at h
  cases hA : mergeMappings s with
  | failed e1 a =>
    rw [hA] at h
    simp only [Outcome.andThen, Outcome.failed.injEq] at h
    obtain ⟨rfl, rfl⟩ := h
    exact Or.inl rfl
  | done a =>
    rw [hA] at h
    simp only [Outcome.andThen] at h
    cases hB : resolveWriteData a with
    | failed e1 b =>
      rw [hB] at h
      simp only [Outcome.failed.injEq] at h
      obtain ⟨rfl, rfl⟩ := h
      exact Or.inr (Or.inl ⟨a, rfl, hB⟩)
    | done b =>
      rw [hB] at h
      simp only at h
      cases hC : resolveReadData b with
      | failed e1 c =>
        rw [hC] at h
        simp only [Outcome.failed.injEq] at h
        obtain ⟨rfl, rfl⟩ := h
        exact Or.inr (Or.inr (Or.inl ⟨a, b, rfl, hB, hC⟩))
      | done c =>
        rw [hC] at h
        simp only at h
        cases hD : addActions c with
        | failed e1 d =>
          rw [hD] at h
          simp only [Outcome.failed.injEq] at h
          obtain ⟨rfl, rfl⟩ := h
          exact Or.inr (Or.inr (Or.inr (Or.inl ⟨a, b, c, rfl, hB, hC, hD⟩)))
        | done d =>
          rw [hD] at h
          simp only at h
          obtain ⟨d1, hE⟩ := addExportContexts_done d
          rw [hE] at h
          simp only at h
          exact Or.inr (Or.inr (Or.inr (Or.inr ⟨a, b, c, d, d1, rfl, hB, hC, hD, hE, h⟩)))

/-- A projection of the participant that the mapping step and the data steps
keep is unchanged when these steps have completed. -/
theorem data_steps_frame {β : Type} (pp : Participant → β)
    (hu : ∀ (p : Participant) l, pp { p with usedMeshContexts := l } = pp p)
    (hw : ∀ (p : Participant) l, pp { p with writeDataContexts := l } = pp p)
    (hr : ∀ (p : Participant) l, pp { p with readDataContexts := l } = pp p)
    (s : FinishState) :
    pp (mergeMappings s).state.participant = pp s.participant ∧
    (∀ a, mergeMappings s = Outcome.done a →
      pp (resolveWriteData a).state.participant = pp s.participant ∧
      ∀ b, resolveWriteData a = Outcome.done b →
        pp (resolveReadData b).state.participant = pp s.participant) := by
  have hA := mergeMappings_frame_participant pp hu s
  refine ⟨hA, ?_⟩
  intro a ha
  rw [Outcome.state_of_done ha] at hA
  have hB := (resolveWriteData_frame_participant pp hw a).trans hA
  refine ⟨hB, ?_⟩
  intro b hb
  rw [Outcome.state_of_done hb] at hB
  exact (resolveReadData_frame_participant pp hr b).trans hB

/-- C15 (amended): when `finishParticipantConfiguration` fails, the pass stopped
in one step, after the steps before it completed, and the state is the one in
which that step stopped: no later step was executed (after a failure of the
mapping step the data contexts and the attached actions, export contexts and
watch points are as before the finalization; after a failure of a data step
the attachments are; after a failure of the action step the export contexts
and watch points are).  The participant being finalized stays in the list
returned by `getParticipants`, in the state the in-place updates had reached
at the failure; the updates of the completed steps are not rolled back. -/
theorem finish_failure_keeps_reached_state (s s1 : FinishState) (e : ConfigError)
    (h : finishParticipantConfiguration s = Outcome.failed e s1) :
    ((mergeMappings s = Outcome.failed e s1 ∧
        s1.participant.writeDataContexts = s.participant.writeDataContexts ∧
        s1.participant.readDataContexts = s.participant.readDataContexts ∧
        s1.participant.attachments = s.participant.attachments) ∨
      (∃ a, mergeMappings s = Outcome.done a ∧
        (resolveWriteData a = Outcome.failed e s1 ∨
          ∃ b, resolveWriteData a = Outcome.done b ∧ resolveReadData b = Outcome.failed e s1) ∧
        s1.participant.attachments = s.participant.attachments) ∨
      (∃ a b c, mergeMappings s = Outcome.done a ∧ resolveWriteData a = Outcome.done b ∧
        resolveReadData b = Outcome.done c ∧ addActions c = Outcome.failed e s1 ∧
        s1.participant.exportContexts = s.participant.exportContexts ∧
        s1.participant.watchPoints = s.participant.watchPoints) ∨
      (∃ a b c d d1, mergeMappings s = Outcome.done a ∧ resolveWriteData a = Outcome.done b ∧
        resolveReadData b = Outcome.done c ∧ addActions c = Outcome.done d ∧
        addExportContexts d = Outcome.done d1 ∧
        createWatchPoints d1 = Outcome.failed e s1)) ∧
    getParticipants s1.toConfiguration = s.config.participants.dropLast ++ [s1.participant] := by
  constructor
  · rcases finish_failed_cases s s1 e h with hA | ⟨a, hA, hB⟩ | ⟨a, b, hA, hB, hC⟩ |
      ⟨a, b, c, hA, hB, hC, hD⟩ | ⟨a, b, c, d, d1, hA, hB, hC, hD, hE, hF⟩
    · left
      have f1 := mergeMappings_frame_participant (fun p : Participant => p.writeDataContexts)
        (fun _ _ => rfl) s
      have f2 := mergeMappings_frame_participant (fun p : Participant => p.readDataContexts)
        (fun _ _ => rfl) s
      have f3 := mergeMappings_frame_participant (fun p : Participant => p.attachments)
        (fun _ _ => rfl) s
      rw [Outcome.state_of_failed hA] at f1 f2 f3
      exact ⟨hA, f1, f2, f3⟩
    · right; left
      have f3 := ((data_steps_frame (fun p : Participant => p.attachments)
        (fun _ _ => rfl) (fun _ _ => rfl) (fun _ _ => rfl) s).2 a hA).1
      rw [Outcome.state_of_failed hB] at f3
      exact ⟨a, hA, Or.inl hB, f3⟩
    · right; left
      have f3 := ((data_steps_frame (fun p : Participant => p.attachments)
        (fun _ _ => rfl) (fun _ _ => rfl) (fun _ _ => rfl) s).2 a hA).2 b hB
      rw [Outcome.state_of_failed hC] at f3
      exact ⟨a, hA, Or.inr ⟨b, hB, hC⟩, f3⟩
    · right; right; left
      have f1 := ((data_steps_frame (fun p : Participant => p.exportContexts)
        (fun _ _ => rfl) (fun _ _ => rfl) (fun _ _ => rfl) s).2 a hA).2 b hB
      have f2 := ((data_steps_frame (fun p : Participant => p.watchPoints)
        (fun _ _ => rfl) (fun _ _ => rfl) (fun _ _ => rfl) s).2 a hA).2 b hB
      rw [Outcome.state_of_done hC] at f1 f2
      have g1 := (addActions_frame_participant (fun p : Participant => p.exportContexts)
        (fun _ _ => rfl) c).trans f1
      have g2 := (addActions_frame_participant (fun p : Participant => p.watchPoints)
        (fun _ _ => rfl) c).trans f2
      rw [Outcome.state_of_failed hD] at g1 g2
      exact ⟨a, b, c, hA, hB, hC, hD, g1, g2⟩
    · right; right; right
      exact ⟨a, b, c, d, d1, hA, hB, hC, hD, hE, hF⟩
  · have hf := finish_frame_config (fun c : ParticipantConfiguration => c.participants)
      (fun _ _ _ => rfl) (fun _ => rfl) (fun _ => rfl) (fun _ => rfl) (fun _ => rfl) s
    rw [Outcome.state_of_failed h] at hf
    simp only [getParticipants, FinishState.toConfiguration]
    rw [hf]

/-- C15 (counterexample): the participant element of `Fluid` ends with a pending
write mapping on `Surface` and a pending action on the unused mesh `Volume`.
The finalization fails with a `UsageError` in the action step; the list of
`getParticipants` then holds a participant `Fluid` that differs from the
participant before the finalization (its write mapping is merged). -/
theorem finish_failure_hands_on_changed_participant :
    exConfigBadAction.participants = [exFluid] ∧
    (xmlEndTagCallback exParticipantTag exConfigBadAction).error? =
      some ConfigError.UsageError ∧
    (addActions (resolveReadData (resolveWriteData (mergeMappings
        { config := exConfigBadAction, participant := exFluid }).state).state).state).error? =
      some ConfigError.UsageError ∧
    ∃ p ∈ getParticipants (xmlEndTagCallback exParticipantTag exConfigBadAction).state,
      p.name = exFluid.name ∧ p ≠ exFluid := by
  decide

/-! ## Order of the mapping buffer -/

/-- One iteration of the mapping loop completes exactly when the mesh is used
and the slot of the mapping is free. -/
theorem mergeMapping_completes_iff (confMapping : ConfiguredMapping) (s : FinishState) :
    (∃ s1, mergeMapping confMapping s = Outcome.done s1) ↔
      s.participant.isMeshUsed confMapping.mesh.id = true ∧
      ¬ s.participant.slotTaken confMapping.mesh.id confMapping.direction := by
  constructor
  · rintro ⟨s1, h⟩
    rw [mergeMapping_done_iff] at h
    obtain ⟨mc, r, hmc, hr, -⟩ := h
    refine ⟨by rw [isMeshUsed_eq, hmc]; rfl, ?_⟩
    rintro ⟨mc1, hmc1, hset⟩
    rw [hmc] at hmc1
    cases hmc1
    exact hset ((configureMapping_ok_iff _ _ _ _ _).1 hr).1
  · rintro ⟨hused, hfree⟩
    rw [isMeshUsed_eq] at hused
    obtain ⟨mc, hmc⟩ := Option.isSome_iff_exists.1 hused
    have hnone : (mc.mappingContextOf confMapping.direction).mapping = none := by
      by_contra hset
      exact hfree ⟨mc, hmc, hset⟩
    cases hr : configureMapping s.config.meshIDs s.config.dataIDs mc confMapping with
    | error e =>
      rw [configureMapping_error_iff] at hr
      exact absurd hnone hr.1
    | ok r =>
      exact ⟨_, (mergeMapping_done_iff _ _ _).2 ⟨mc, r, hmc, hr, rfl⟩⟩

/-- After a completed iteration the taken slots are those taken before and the
slot of the mapping. -/
theorem mergeMapping_slotTaken (confMapping : ConfiguredMapping) (s s1 : FinishState)
    (h : mergeMapping confMapping s = Outcome.done s1) (meshID : Int) (direction : Direction) :
    s1.participant.slotTaken meshID direction ↔
      s.participant.slotTaken meshID direction ∨
        (meshID = confMapping.mesh.id ∧ direction = confMapping.direction) := by
  obtain ⟨mc, r, hmc, hr, hsame, hother⟩ := mergeMapping_lookup confMapping s s1 h
  obtain ⟨hset, hkeep⟩ := configureMapping_mappingContextOf _ _ _ _ _ hr
  unfold Participant.slotTaken
  by_cases hid : meshID = confMapping.mesh.id
  · subst hid
    rw [hsame, hmc]
    by_cases hd : direction = confMapping.direction
    · subst hd
      constructor
      · intro _; exact Or.inr ⟨rfl, rfl⟩
      · intro _; exact ⟨r.1, rfl, hset⟩
    · constructor
      · rintro ⟨mc1, h1, h2⟩
        cases h1
        rw [hkeep direction hd] at h2
        exact Or.inl ⟨mc, rfl, h2⟩
      · rintro (⟨mc1, h1, h2⟩ | ⟨-, h2⟩)
        · cases h1
          exact ⟨r.1, rfl, by rw [hkeep direction hd]; exact h2⟩
        · exact absurd h2 hd
  · rw [hother meshID hid]
    constructor
    · intro h1; exact Or.inl h1
    · rintro (h1 | ⟨h1, -⟩)
      · exact h1
      · exact absurd h1 hid

/-- The relation `sameSlots` is kept by one iteration of the mapping loop, and
the iteration completes on one side if it completes on the other. -/
theorem mergeMapping_simulation (confMapping : ConfiguredMapping) (s t s1 : FinishState)
    (hrel : s.participant.sameSlots t.participant)
    (h : mergeMapping confMapping s = Outcome.done s1) :
    ∃ t1, mergeMapping confMapping t = Outcome.done t1 ∧
      s1.participant.sameSlots t1.participant := by
  obtain ⟨hused, hfree⟩ := (mergeMapping_completes_iff confMapping s).1 ⟨s1, h⟩
  obtain ⟨t1, ht⟩ := (mergeMapping_completes_iff confMapping t).2
    ⟨(hrel _).1 ▸ hused, fun hx => hfree (((hrel _).2 _).2 hx)⟩
  refine ⟨t1, ht, ?_⟩
  intro meshID
  obtain ⟨-, -, -, hs⟩ := mergeMapping_slot confMapping s s1 h
  obtain ⟨-, -, -, hts⟩ := mergeMapping_slot confMapping t t1 ht
  refine ⟨?_, ?_⟩
  · rw [isMeshUsed_eq, isMeshUsed_eq, hs, hts, ← isMeshUsed_eq, ← isMeshUsed_eq]
    exact (hrel meshID).1
  · intro direction
    rw [mergeMapping_slotTaken confMapping s s1 h, mergeMapping_slotTaken confMapping t t1 ht,
      (hrel meshID).2 direction]

/-- The mapping loop completes from a related state and keeps the relation. -/
theorem forEach_mergeMapping_simulation (buffer : List ConfiguredMapping) :
    ∀ (s t s1 : FinishState), s.participant.sameSlots t.participant →
      forEach mergeMapping buffer s = Outcome.done s1 →
      ∃ t1, forEach mergeMapping buffer t = Outcome.done t1 ∧
        s1.participant.sameSlots t1.participant := by
  induction buffer with
  | nil =>
    intro s t s1 hrel h
    simp only [forEach, Outcome.done.injEq] at h
    subst h
    exact ⟨t, rfl, hrel⟩
  | cons cm rest ih =>
    intro s t s1 hrel h
    simp only [forEach] at h
    cases hstep : mergeMapping cm s with
    | failed e s2 => simp [hstep] at h
    | done s2 =>
      rw [hstep] at h
      obtain ⟨t2, ht2, hrel2⟩ := mergeMapping_simulation cm s t s2 hrel hstep
      obtain ⟨t1, ht1, hrel1⟩ := ih s2 t2 s1 hrel2 h
      exact ⟨t1, by simp only [forEach, ht2]; exact ht1, hrel1⟩

/-- Two mappings that merge one after the other also merge in the other
order, and the same slots are taken afterwards. -/
theorem mergeMapping_swap (a b : ConfiguredMapping) (s t sa sab : FinishState)
    (hrel : s.participant.sameSlots t.participant)
    (ha : mergeMapping a s = Outcome.done sa) (hb : mergeMapping b sa = Outcome.done sab) :
    ∃ tb tba, mergeMapping b t = Outcome.done tb ∧ mergeMapping a tb = Outcome.done tba ∧
      sab.participant.sameSlots tba.participant := by
  obtain ⟨hausedS, hafreeS⟩ := (mergeMapping_completes_iff a s).1 ⟨sa, ha⟩
  obtain ⟨hbusedSa, hbfreeSa⟩ := (mergeMapping_completes_iff b sa).1 ⟨sab, hb⟩
  obtain ⟨-, -, -, husedSa⟩ := mergeMapping_slot a s sa ha
  -- the slot of `b` is not the slot of `a`, and it is free in `s`
  have hbfreeS : ¬ s.participant.slotTaken b.mesh.id b.direction := fun hx =>
    hbfreeSa ((mergeMapping_slotTaken a s sa ha _ _).2 (Or.inl hx))
  have hne : ¬ (b.mesh.id = a.mesh.id ∧ b.direction = a.direction) := fun hx =>
    hbfreeSa ((mergeMapping_slotTaken a s sa ha _ _).2 (Or.inr hx))
  have hbusedS : s.participant.isMeshUsed b.mesh.id = true := by
    rw [isMeshUsed_eq] at hbusedSa ⊢
    rw [← husedSa]
    exact hbusedSa
  obtain ⟨tb, htb⟩ := (mergeMapping_completes_iff b t).2
    ⟨(hrel _).1 ▸ hbusedS, fun hx => hbfreeS (((hrel _).2 _).2 hx)⟩
  obtain ⟨-, -, -, husedTb⟩ := mergeMapping_slot b t tb htb
  have hausedTb : tb.participant.isMeshUsed a.mesh.id = true := by
    rw [isMeshUsed_eq, husedTb, ← isMeshUsed_eq, ← (hrel _).1]
    exact hausedS
  have hafreeTb : ¬ tb.participant.slotTaken a.mesh.id a.direction := by
    intro hx
    rcases (mergeMapping_slotTaken b t tb htb _ _).1 hx with hx | ⟨h1, h2⟩
    · exact hafreeS (((hrel _).2 _).2 hx)
    · exact hne ⟨h1.symm, h2.symm⟩
  obtain ⟨tba, htba⟩ := (mergeMapping_completes_iff a tb).2 ⟨hausedTb, hafreeTb⟩
  refine ⟨tb, tba, htb, htba, ?_⟩
  obtain ⟨-, -, -, husedSab⟩ := mergeMapping_slot b sa sab hb
  obtain ⟨-, -, -, husedTba⟩ := mergeMapping_slot a tb tba htba
  intro meshID
  refine ⟨?_, ?_⟩
  · rw [isMeshUsed_eq, isMeshUsed_eq, husedSab, husedSa, husedTba, husedTb, ← isMeshUsed_eq,
      ← isMeshUsed_eq]
    exact (hrel meshID).1
  · intro direction
    rw [mergeMapping_slotTaken b sa sab hb, mergeMapping_slotTaken a s sa ha,
      mergeMapping_slotTaken a tb tba htba, mergeMapping_slotTaken b t tb htb,
      (hrel meshID).2 direction]
    tauto

/-- `sameSlots` is reflexive. -/
theorem sameSlots_refl (p : Participant) : p.sameSlots p :=
  fun _ => ⟨rfl, fun _ => Iff.rfl⟩

/-- `sameSlots` is transitive. -/
theorem sameSlots_trans (p q r : Participant) (h1 : p.sameSlots q) (h2 : q.sameSlots r) :
    p.sameSlots r :=
  fun meshID => ⟨(h1 meshID).1.trans (h2 meshID).1,
    fun direction => ((h1 meshID).2 direction).trans ((h2 meshID).2 direction)⟩

/-- Whether the mapping loop completes does not depend on the order of the
buffer. -/
theorem forEach_mergeMapping_perm (buffer permuted : List ConfiguredMapping)
    (hperm : buffer.Perm permuted) :
    ∀ (s t s1 : FinishState), s.participant.sameSlots t.participant →
      forEach mergeMapping buffer s = Outcome.done s1 →
      ∃ t1, forEach mergeMapping permuted t = Outcome.done t1 ∧
        s1.participant.sameSlots t1.participant := by
  induction hperm with
  | nil =>
    intro s t s1 hrel h
    simp only [forEach, Outcome.done.injEq] at h
    subst h
    exact ⟨t, rfl, hrel⟩
  | cons cm _ ih =>
    intro s t s1 hrel h
    simp only [forEach] at h
    cases hstep : mergeMapping cm s with
    | failed e s2 => simp [hstep] at h
    | done s2 =>
      rw [hstep] at h
      obtain ⟨t2, ht2, hrel2⟩ := mergeMapping_simulation cm s t s2 hrel hstep
      obtain ⟨t1, ht1, hrel1⟩ := ih s2 t2 s1 hrel2 h
      exact ⟨t1, by simp only [forEach, ht2]; exact ht1, hrel1⟩
  | swap a b l =>
    intro s t s1 hrel h
    simp only [forEach] at h
    cases hb : mergeMapping b s with
    | failed e s2 => simp [hb] at h
    | done sb =>
      rw [hb] at h
      simp only at h
      cases ha : mergeMapping a sb with
      | failed e s2 => simp [ha] at h
      | done sba =>
        rw [ha] at h
        simp only at h
        obtain ⟨ta, tab, hta, htab, hrel2⟩ := mergeMapping_swap b a s t sb sba hrel hb ha
        obtain ⟨t1, ht1, hrel1⟩ := forEach_mergeMapping_simulation l sba tab s1 hrel2 h
        exact ⟨t1, by simp only [forEach, hta, htab]; exact ht1, hrel1⟩
  | trans _ _ ih1 ih2 =>
    intro s t s1 hrel h
    obtain ⟨s2, hs2, hrel2⟩ := ih1 s s s1 (sameSlots_refl _) h
    obtain ⟨t1, ht1, hrel1⟩ := ih2 s t s2 hrel hs2
    exact ⟨t1, ht1, sameSlots_trans _ _ _ hrel2 hrel1⟩

/-- Two updates of the requirement commute when both declared requirements
are at least `TEMPORARY`. -/
theorem updateRequirement_comm (z : MeshRequirement) (x y : MeshRequirement × Timing)
    (hx : MeshRequirement.TEMPORARY ≤ x.1) (hy : MeshRequirement.TEMPORARY ≤ y.1) :
    updateRequirement (updateRequirement z x) y = updateRequirement (updateRequirement z y) x := by
  obtain ⟨dx, tx⟩ := x
  obtain ⟨dy, ty⟩ := y
  simp only [MeshRequirement.le_def] at hx hy
  by_cases h1 : tx = Timing.INCREMENTAL <;> by_cases h2 : ty = Timing.INCREMENTAL <;>
    cases z <;> cases dx <;> cases dy <;>
    simp_all [updateRequirement, MeshRequirement.lt_def, MeshRequirement.rank]

/-- The mappings merged into one mesh context are permuted with the buffer. -/
theorem mergedInto_perm (meshID : Int) (buffer permuted : List ConfiguredMapping)
    (hperm : buffer.Perm permuted) :
    (mergedInto meshID buffer).Perm (mergedInto meshID permuted) := by
  unfold mergedInto
  exact (hperm.filter _).map _

/-- C17: let the mapping loop complete on a buffer, and let every mapping of the
buffer that is merged into the context of `meshID` have a declared requirement
of at least `TEMPORARY`.  Then the loop completes on every permutation of the
buffer and leaves the same requirement in the context of `meshID`.  The timing
test `timing == INITIAL || timing != INCREMENTAL` of the loop is equivalent to
`timing != INCREMENTAL`. -/
theorem mergeMappings_requirement_perm (buffer permuted : List ConfiguredMapping)
    (s s1 : FinishState) (meshID : Int) (mc : MeshContext)
    (hperm : buffer.Perm permuted)
    (hdone : forEach mergeMapping buffer s = Outcome.done s1)
    (hmc : s.participant.meshContext meshID = some mc)
    (hreq : ∀ cm ∈ buffer, cm.mesh.id = meshID →
      MeshRequirement.TEMPORARY ≤ declaredRequirement cm) :
    (∃ s2 mc1 mc2, forEach mergeMapping permuted s = Outcome.done s2 ∧
      s1.participant.meshContext meshID = some mc1 ∧
      s2.participant.meshContext meshID = some mc2 ∧
      mc1.meshRequirement = mc2.meshRequirement) ∧
    (∀ timing : Timing,
      (timing = Timing.INITIAL ∨ timing ≠ Timing.INCREMENTAL) ↔ timing ≠ Timing.INCREMENTAL) ∧
    (∀ (cm : ConfiguredMapping) (context : MeshContext),
      applyTimingRule cm context =
        if cm.timing ≠ Timing.INCREMENTAL then
          if context.meshRequirement = MeshRequirement.TEMPORARY then
            { context with meshRequirement := MeshRequirement.VERTEX }
          else context
        else context) := by
  have htest : ∀ timing : Timing,
      (timing = Timing.INITIAL ∨ timing ≠ Timing.INCREMENTAL) ↔
        timing ≠ Timing.INCREMENTAL := by
    intro timing
    constructor
    · rintro (h | h)
      · rw [h]; decide
      · exact h
    · intro h; exact Or.inr h
  refine ⟨?_, htest, ?_⟩
  · obtain ⟨s2, hs2, -⟩ := forEach_mergeMapping_perm buffer permuted hperm s s s1
      (sameSlots_refl _) hdone
    obtain ⟨mc1, hmc1, hr1⟩ := forEach_mergeMapping_requirement buffer s s1 hdone meshID mc hmc
    obtain ⟨mc2, hmc2, hr2⟩ := forEach_mergeMapping_requirement permuted s s2 hs2 meshID mc hmc
    refine ⟨s2, mc1, mc2, hs2, hmc1, hmc2, ?_⟩
    rw [hr1, hr2]
    apply List.Perm.foldl_eq' (mergedInto_perm meshID buffer permuted hperm)
    have hge : ∀ x ∈ mergedInto meshID buffer, MeshRequirement.TEMPORARY ≤ x.1 := by
      intro x hx
      unfold mergedInto at hx
      obtain ⟨cm, hcm, rfl⟩ := List.mem_map.1 hx
      rw [List.mem_filter] at hcm
      exact hreq cm hcm.1 (by simpa using hcm.2)
    intro x hx y hy z
    exact updateRequirement_comm z x y (hge x hx) (hge y hy)
  · intro cm context
    unfold applyTimingRule
    by_cases h : cm.timing = Timing.INCREMENTAL
    · simp [h]
    · simp [h]

/-- C16: the final requirement depends on the order of the mapping buffer.  For
a mesh context with requirement `UNDEFINED`, a `WRITE` mapping with declared
requirement `TEMPORARY` and timing `INCREMENTAL`, and a `READ` mapping with
declared requirement `UNDEFINED` and timing `INITIAL`, the finalization
completes in both orders and leaves `VERTEX` when the write mapping comes
first, `TEMPORARY` when the read mapping comes first. -/
theorem requirement_depends_on_buffer_order :
    ∃ (p : Participant) (context : MeshContext) (a b : ConfiguredMapping),
      p.meshContext a.mesh.id = some context ∧
      context.meshRequirement = MeshRequirement.UNDEFINED ∧
      b.mesh.id = a.mesh.id ∧
      a.direction = Direction.WRITE ∧ b.direction = Direction.READ ∧
      declaredRequirement a = MeshRequirement.TEMPORARY ∧ a.timing = Timing.INCREMENTAL ∧
      declaredRequirement b = MeshRequirement.UNDEFINED ∧ b.timing = Timing.INITIAL ∧
      (finishParticipantConfiguration (exFinish p [a, b])).error? = none ∧
      (finishParticipantConfiguration (exFinish p [b, a])).error? = none ∧
      ((finishParticipantConfiguration (exFinish p [a, b])).state.participant.meshContext
          a.mesh.id).map MeshContext.meshRequirement = some MeshRequirement.VERTEX ∧
      ((finishParticipantConfiguration (exFinish p [b, a])).state.participant.meshContext
          a.mesh.id).map MeshContext.meshRequirement = some MeshRequirement.TEMPORARY :=
  ⟨exFluid, exContext, exWriteMapping, exReadMapping, by decide⟩

/-! ## The deferred usage check -/

/-- An in-place loop fails when its body fails on some element. -/
theorem forEachInPlace_failed_of_mem {α : Type} (body : α → Outcome α) (l : List α)
    (h : ∃ x ∈ l, ∃ e x1, body x = Outcome.failed e x1) :
    ∃ e l1, forEachInPlace body l = Outcome.failed e l1 := by
  induction l with
  | nil =>
    obtain ⟨x, hx, -⟩ := h
    simp at hx
  | cons a as ih =>
    simp only [forEachInPlace]
    cases ha : body a with
    | failed e a1 => exact ⟨e, _, rfl⟩
    | done a1 =>
      obtain ⟨x, hx, e, x1, hbody⟩ := h
      rcases List.mem_cons.1 hx with rfl | hmem
      · rw [ha] at hbody
        cases hbody
      · obtain ⟨e1, l1, hl1⟩ := ih ⟨x, hmem, e, x1, hbody⟩
        simp only [hl1, Outcome.mapState]
        exact ⟨e1, _, rfl⟩

/-- The data context loop body fails with a `UsageError` on a data context
whose mesh the participant does not use. -/
theorem resolveDataContext_unused (direction : Direction) (p : Participant)
    (dataContext : DataContext) (h : p.isMeshUsed dataContext.mesh.id = false) :
    resolveDataContext direction p dataContext =
      Outcome.failed ConfigError.UsageError dataContext := by
  rw [isMeshUsed_eq] at h
  have hnone : p.meshContext dataContext.mesh.id = none := by
    cases hm : p.meshContext dataContext.mesh.id with
    | none => rfl
    | some mc => rw [hm] at h; cases h
  simp only [resolveDataContext, hnone]

/-- Two participants with the same used meshes use the same mesh
identities. -/
theorem isMeshUsed_congr (p q : Participant) (meshID : Int)
    (h : p.usedMeshContexts.map (fun context : MeshContext => context.mesh) =
      q.usedMeshContexts.map (fun context : MeshContext => context.mesh)) :
    p.isMeshUsed meshID = q.isMeshUsed meshID := by
  have hid := congrArg (List.map (fun mesh : Mesh => mesh.id)) h
  simp only [List.map_map] at hid
  have e : ((fun mesh : Mesh => mesh.id) ∘ fun context : MeshContext => context.mesh) =
      fun context => context.mesh.id := rfl
  rw [e] at hid
  have hp := isMeshUsed_iff_mem p meshID
  have hq := isMeshUsed_iff_mem q meshID
  rw [hid] at hp
  have hpq : p.isMeshUsed meshID = true ↔ q.isMeshUsed meshID = true := hp.trans hq.symm
  cases h1 : p.isMeshUsed meshID <;> cases h2 : q.isMeshUsed meshID
  · rfl
  · exact absurd (hpq.2 h2) (by rw [h1]; decide)
  · exact absurd (hpq.1 h1) (by rw [h2]; decide)
  · rfl

/-- The outcome of a data binding, as far as its error goes, does not depend
on the participants: the mesh is resolved against the registry. -/
theorem bindData_error_registry (direction : Direction) (tag : XMLTag)
    (c : ParticipantConfiguration) (participants : List Participant) :
    (bindData direction tag { c with participants := participants }).error? =
      (bindData direction tag c).error? := by
  cases hm : c.meshConfig.getMesh (tag.getStringAttributeValue ATTR_MESH) with
  | none => simp [bindData, hm, Outcome.error?]
  | some mesh =>
    cases hd : getData mesh (tag.getStringAttributeValue ATTR_NAME) with
    | error e => simp [bindData, hm, hd, Outcome.error?]
    | ok data =>
      cases direction <;> simp only [bindData, hm, hd, onBack_error_of_done]

/-- C18: when the mapping step of `finishParticipantConfiguration` completes and
the participant has a write or read data context whose mesh identity it does
not use, the finalization fails in the data resolution step (in the write loop
or, after that completed, in the read loop), and no action, export context or
watch point has been attached to the participant at the failure.  The check
is deferred to this step because the data binding resolves the mesh against
the registry: whether the binding fails does not depend on the participants. -/
theorem finish_defers_usage_check (s a : FinishState) (direction : Direction)
    (dataContext : DataContext)
    (hmerge : mergeMappings s = Outcome.done a)
    (hmem : dataContext ∈ s.participant.dataContextsOf direction)
    (hunused : s.participant.isMeshUsed dataContext.mesh.id = false) :
    (∃ e s1, finishParticipantConfiguration s = Outcome.failed e s1 ∧
      (resolveWriteData a = Outcome.failed e s1 ∨
        ∃ b, resolveWriteData a = Outcome.done b ∧ resolveReadData b = Outcome.failed e s1) ∧
      s1.participant.attachments = s.participant.attachments) ∧
    (∀ (tag : XMLTag) (c : ParticipantConfiguration) (participants : List Participant),
      (bindData direction tag { c with participants := participants }).error? =
        (bindData direction tag c).error?) := by
  refine ⟨?_, fun tag c participants => bindData_error_registry direction tag c participants⟩
  have hframe := data_steps_frame (fun p : Participant => p.attachments)
    (fun _ _ => rfl) (fun _ _ => rfl) (fun _ _ => rfl) s
  have hmeshes := mergeMappings_frame_meshes s
  rw [Outcome.state_of_done hmerge] at hmeshes
  have hunusedA : a.participant.isMeshUsed dataContext.mesh.id = false := by
    rw [isMeshUsed_congr a.participant s.participant _ hmeshes]
    exact hunused
  have hW := mergeMappings_frame_participant (fun p : Participant => p.writeDataContexts)
    (fun _ _ => rfl) s
  have hR := mergeMappings_frame_participant (fun p : Participant => p.readDataContexts)
    (fun _ _ => rfl) s
  rw [Outcome.state_of_done hmerge] at hW hR
  have hfinW : ∀ e s1, resolveWriteData a = Outcome.failed e s1 →
      finishParticipantConfiguration s = Outcome.failed e s1 := by
    intro e s1 h
    unfold finishParticipantConfiguration
    rw [hmerge]
    simp only [Outcome.andThen, h]
  have hfinR : ∀ b e s1, resolveWriteData a = Outcome.done b →
      resolveReadData b = Outcome.failed e s1 →
      finishParticipantConfiguration s = Outcome.failed e s1 := by
    intro b e s1 h1 h2
    unfold finishParticipantConfiguration
    rw [hmerge]
    simp only [Outcome.andThen, h1, h2]
  cases hwrite : resolveWriteData a with
  | failed e s1 =>
    have f := (hframe.2 a hmerge).1
    rw [Outcome.state_of_failed hwrite] at f
    exact ⟨e, s1, hfinW e s1 hwrite, Or.inl rfl, f⟩
  | done b =>
    cases direction with
    | WRITE =>
      exfalso
      have hfail := forEachInPlace_failed_of_mem
        (resolveDataContext Direction.WRITE a.participant) a.participant.writeDataContexts
        ⟨dataContext, by rw [hW]; exact hmem, ConfigError.UsageError, dataContext,
          resolveDataContext_unused _ _ _ hunusedA⟩
      obtain ⟨e, l1, hl1⟩ := hfail
      unfold resolveWriteData at hwrite
      rw [hl1] at hwrite
      simp [Outcome.mapState] at hwrite
    | READ =>
      have hbW : b.participant.readDataContexts = a.participant.readDataContexts := by
        have := resolveWriteData_frame_participant (fun p : Participant => p.readDataContexts)
          (fun _ _ => rfl) a
        rw [Outcome.state_of_done hwrite] at this
        exact this
      have hbM : b.participant.usedMeshContexts = a.participant.usedMeshContexts := by
        have := resolveWriteData_frame_participant (fun p : Participant => p.usedMeshContexts)
          (fun _ _ => rfl) a
        rw [Outcome.state_of_done hwrite] at this
        exact this
      have hunusedB : b.participant.isMeshUsed dataContext.mesh.id = false := by
        rw [isMeshUsed_congr b.participant a.participant _ (by rw [hbM])]
        exact hunusedA
      have hfail := forEachInPlace_failed_of_mem
        (resolveDataContext Direction.READ b.participant) b.participant.readDataContexts
        ⟨dataContext, by rw [hbW, hR]; exact hmem, ConfigError.UsageError, dataContext,
          resolveDataContext_unused _ _ _ hunusedB⟩
      obtain ⟨e, l1, hl1⟩ := hfail
      have hread : resolveReadData b = Outcome.failed e
          { b with participant := { b.participant with readDataContexts := l1 } } := by
        unfold resolveReadData
        rw [hl1]
        rfl
      have f := ((hframe.2 a hmerge).2 b hwrite)
      rw [Outcome.state_of_failed hread] at f
      exact ⟨e, _, hfinR b e _ hwrite hread, Or.inr ⟨b, rfl, hread⟩, f⟩

/-! ## Evaluation on the example configurations -/

/-- C2 (counterexample): `Fluid` uses `Surface`, and the buffer holds two write
mappings on `Surface` with a mapping on the unused mesh `Volume` between them;
finalization fails with a `UsageError`, not with a `ConsistencyError`. -/
theorem finish_duplicate_mapping_usage_error :
    exWriteMapping.mesh.id = exWriteMappingAgain.mesh.id ∧
    exWriteMapping.direction = exWriteMappingAgain.direction ∧
    exFluid.isMeshUsed exWriteMapping.mesh.id = true ∧
    (finishParticipantConfiguration
      (exFinish exFluid [exWriteMapping, exVolumeMapping, exWriteMappingAgain])).error? =
        some ConfigError.UsageError := by
  decide

/-- C2 (witness): two write mappings on the used mesh `Surface`. -/
theorem finish_duplicate_mapping_fails_witness :
    ∃ pre cm post s0 mc,
      (exFinish exFluid [exWriteMapping, exWriteMappingAgain]).config.mappingConfig =
        pre ++ cm :: post ∧
      forEach mergeMapping pre (exFinish exFluid [exWriteMapping, exWriteMappingAgain]) =
        Outcome.done s0 ∧
      s0.participant.meshContext cm.mesh.id = some mc ∧
      (mc.mappingContextOf cm.direction).mapping ≠ none ∧
      finishParticipantConfiguration (exFinish exFluid [exWriteMapping, exWriteMappingAgain]) =
        Outcome.failed ConfigError.ConsistencyError s0 :=
  finish_duplicate_mapping_fails (exFinish exFluid [exWriteMapping, exWriteMappingAgain])
    (by decide)
    (Or.inl ⟨[], exWriteMapping, [], exWriteMappingAgain, [], rfl, rfl, rfl⟩)

/-- C3 (witness): merging the write mapping into the fresh context of
`Surface`. -/
theorem mergeMapping_requirement_monotone_witness :
    ∃ mc mc1, (exFinish exFluid []).participant.meshContext exWriteMapping.mesh.id = some mc ∧
      (mergeMapping exWriteMapping (exFinish exFluid [])).state.participant.meshContext
        exWriteMapping.mesh.id = some mc1 ∧
      mc.meshRequirement ≤ mc1.meshRequirement ∧
      declaredRequirement exWriteMapping ≤ mc1.meshRequirement :=
  mergeMapping_requirement_monotone exWriteMapping (exFinish exFluid []) _ (by decide)

/-- C4 (witness): the finalization of `exFinishAll` merges a write mapping
(`TEMPORARY`, `INCREMENTAL`) and a read mapping (`UNDEFINED`, `INITIAL`). -/
theorem finish_requirement_eq_spec_witness : ∃ mc1,
    (finishParticipantConfiguration exFinishAll).state.participant.meshContext 0 = some mc1 ∧
    mc1.meshRequirement =
      specFinalRequirement MeshRequirement.UNDEFINED
        (mergedInto 0 [exWriteMapping, exReadMapping]) :=
  finish_requirement_eq_spec exFinishAll _ (by decide) 0 exContext (by decide)

/-- C5 (counterexample): `Fluid` writes `Pressure` to `Surface`, `Pressure` is a
data field of `Surface`, and the context of `Surface` already holds a write
local mesh of another schema.  The mapping loop completes and sets the write
mapping of `Surface`, keeping that local mesh; the write data loop copies the
mapping context into the data context, finds no data field named `Pressure` in
the local mesh, and stops at the final assertion of `setLocalData` with the
local data still null. -/
theorem finish_preset_local_mesh_unresolved :
    (exFinish exFluidPreset [exWriteMapping]).participant.writeDataContexts[0]? =
      some exDataContext ∧
    exDataContext.data ∈ exDataContext.mesh.data ∧
    (forEach mergeMapping [exWriteMapping] (exFinish exFluidPreset [exWriteMapping])).error? =
      none ∧
    ((forEach mergeMapping [exWriteMapping]
        (exFinish exFluidPreset [exWriteMapping])).state.participant.meshContext
          exDataContext.mesh.id).map
      (fun mc => (mc.writeMappingContext.mapping.isSome, mc.writeMappingContext.localMesh)) =
      some (true, some exForeignLocal) ∧
    (finishParticipantConfiguration (exFinish exFluidPreset [exWriteMapping])).error? =
      some ConfigError.ConsistencyError ∧
    (finishParticipantConfiguration
        (exFinish exFluidPreset [exWriteMapping])).state.participant.writeDataContexts =
      [{ exDataContext with
         mappingContext :=
           { mapping := some (exWriteMapping.mapping.setMeshes exForeignLocal exSurface)
             localMesh := some exForeignLocal
             timing := Timing.INCREMENTAL }
         localData := none }] := by
  decide

/-- C5 (witness): the write data context of `Fluid` for `Pressure`. -/
theorem finish_resolves_localData_witness :
    ∃ resolved d localMesh,
      resolveDataContext Direction.WRITE exAfterLoop.participant exDataContext =
        Outcome.done resolved ∧
      resolved.data = exDataContext.data ∧ resolved.mesh = exDataContext.mesh ∧
      resolved.mappingContext = exMergedContext.mappingContextOf Direction.WRITE ∧
      resolved.localData = some d ∧
      (exMergedContext.mappingContextOf Direction.WRITE).localMesh = some localMesh ∧
      d ∈ localMesh.data ∧ d.name = exDataContext.data.name ∧
      ∀ s6, finishParticipantConfiguration exFinishAll = Outcome.done s6 →
        (s6.participant.dataContextsOf Direction.WRITE)[0]? = some resolved :=
  finish_resolves_localData Direction.WRITE exFinishAll exAfterLoop 0 exDataContext
    exContext exMergedContext (by decide) (by decide) (by decide) (by decide) (by decide)
    (by decide) (by decide) (by decide) (by decide)

/-- C7 (witness): the finalization of `exFinishAll`, whose buffer holds the
watch point `probe` on the used mesh `Surface`; it completes and attaches the
watch point with file name `probe.watchpoint.txt`. -/
theorem finish_appends_watchPoints_witness :
    (∀ config ∈ exFinishAll.config.watchPointConfigs,
      ∃ mc ∈ exFinishAll.participant.usedMeshContexts, mc.mesh.name = config.nameMesh) ∧
    (finishParticipantConfiguration exFinishAll).error? = none ∧
    (finishParticipantConfiguration exFinishAll).state.participant.watchPoints =
      [{ coordinates := [1, 2], mesh := some exSurface, filename := "probe.watchpoint.txt" }] ∧
    ∃ added : List WatchPoint,
      (finishParticipantConfiguration exFinishAll).state.participant.watchPoints =
        exFinishAll.participant.watchPoints ++ added ∧
      added.length = exFinishAll.config.watchPointConfigs.length ∧
      ∀ (i : Nat) (config : WatchPointConfig),
        exFinishAll.config.watchPointConfigs[i]? = some config →
        ∃ watchPoint mesh, added[i]? = some watchPoint ∧
          watchPoint.coordinates = config.coordinates ∧
          watchPoint.filename = config.name ++ ".watchpoint.txt" ∧
          watchPoint.mesh = some mesh ∧
          mesh.name = config.nameMesh ∧
          mesh ∈ exFinishAll.participant.usedMeshContexts.map (fun context => context.mesh) ∧
          mesh ∈ (finishParticipantConfiguration exFinishAll).state.participant.usedMeshContexts.map
            (fun context => context.mesh) :=
  ⟨by decide, by decide, by decide,
    (finish_appends_watchPoints exFinishAll (by decide)).2.2 _ (by decide)⟩

/-- C8 (witness): the finalization of `exFinishAll`, which held one fragment
of every kind. -/
theorem finish_drains_buffers_witness :
    ((finishParticipantConfiguration exFinishAll).state.config.mappingConfig = [] ∧
      (finishParticipantConfiguration exFinishAll).state.config.actionConfig = [] ∧
      (finishParticipantConfiguration exFinishAll).state.config.exportConfig = [] ∧
      (finishParticipantConfiguration exFinishAll).state.config.watchPointConfigs = []) ∧
    ((finishParticipantConfiguration exFinishAll).state.toConfiguration.mappingConfig = [] ∧
      (finishParticipantConfiguration exFinishAll).state.toConfiguration.actionConfig = [] ∧
      (finishParticipantConfiguration exFinishAll).state.toConfiguration.exportConfig = [] ∧
      (finishParticipantConfiguration exFinishAll).state.toConfiguration.watchPointConfigs
        = []) :=
  finish_drains_buffers exFinishAll _ (by decide)

/-- C9 (witness): a mapping on the unused mesh `Volume` after a mapping on
`Surface`. -/
theorem mergeMappings_unused_mesh_fails_witness :
    mergeMappings (exFinish exFluid [exWriteMapping, exVolumeMapping]) =
      Outcome.failed ConfigError.UsageError
        (forEach mergeMapping [exWriteMapping]
          (exFinish exFluid [exWriteMapping, exVolumeMapping])).state ∧
    finishParticipantConfiguration (exFinish exFluid [exWriteMapping, exVolumeMapping]) =
      Outcome.failed ConfigError.UsageError
        (forEach mergeMapping [exWriteMapping]
          (exFinish exFluid [exWriteMapping, exVolumeMapping])).state :=
  mergeMappings_unused_mesh_fails (exFinish exFluid [exWriteMapping, exVolumeMapping]) _
    [exWriteMapping] [] exVolumeMapping rfl (by decide) (by decide)

/-- A watch point on the mesh name `Volume`, which `Fluid` does not use, makes
the watch point step fail with a `UsageError` after `probe` was added. -/
theorem createWatchPoints_unused_mesh_example :
    createWatchPoints
        { exFinishAll with
          config := { exFinishAll.config with watchPointConfigs := [exProbe, exVolumeProbe] } } =
      Outcome.failed ConfigError.UsageError
        { config := { exFinishAll.config with watchPointConfigs := [exProbe, exVolumeProbe] }
          participant := { exFluid with
            watchPoints := [{ coordinates := [1, 2], mesh := some exSurface,
                              filename := "probe.watchpoint.txt" }] } } := by
  decide

/-- An action on the unused mesh `Volume` makes the action step fail with a
`UsageError`; an action on `Surface` is appended. -/
theorem addActions_examples :
    (addActions
        { exFinishAll with
          config := { exFinishAll.config with actionConfig := [exVolumeAction] } }).error? =
      some ConfigError.UsageError ∧
    (addActions exFinishAll).state.participant.actions = [exAction] := by
  decide

/-- C11 (witness): `use-mesh` on the registered mesh `Surface`, for which
neither a geometry nor a spacetree is registered, binds the mesh; `use-mesh`
on the unregistered mesh `Volume` fails with a `ReferenceError`. -/
theorem bindMesh_resolves_registry_witness :
    xmlTagCallback exUseMeshTagUnknown exConfig =
      Outcome.failed ConfigError.ReferenceError exConfig ∧
    exConfig.geometryConfig.find? (fun geometry => geometry.meshName == "Surface") = none ∧
    exConfig.meshConfig.doesMeshUseSpacetree "Surface" = false ∧
    xmlTagCallback exUseMeshTag exConfig =
      Outcome.done { exConfig with participants :=
        [{ Participant.new "Fluid" with usedMeshContexts := [exContext] }] } :=
  ⟨(bindMesh_resolves_registry exUseMeshTagUnknown exConfig [0, 0] (by decide) (by decide)
      rfl).1 (by decide),
   by decide, by decide,
   (bindMesh_resolves_registry exUseMeshTag exConfig [0, 0] (by decide) (by decide)
      rfl).2 exSurface (Participant.new "Fluid") (by decide) (by decide) (by decide)⟩

/-- C12 (witness): `write-data name="Pressure" mesh="Surface"`. -/
theorem bindData_resolves_data_witness :
    xmlTagCallback exWriteTag exConfig =
      Outcome.done { exConfig with participants := exConfig.participants.dropLast ++
        [(Participant.new "Fluid").withDataContext Direction.WRITE
          (unresolvedDataContext exPressure exSurface)] } :=
  (bindData_resolves_data Direction.WRITE exWriteTag exConfig exSurface (Participant.new "Fluid")
    (by decide) (by decide) (by decide)).2 [] exPressure [] (by decide) (by decide) (by decide)

/-- C13 (witness): merging the write mapping into the fresh context of
`Surface`, whose write mapping context has no local mesh yet. -/
theorem mergeMapping_binds_meshes_witness :
    (mergeMapping exWriteMapping (exFinish exFluid [])).error? = none ∧
    ∃ mc mc1 stored localMesh,
      (exFinish exFluid []).participant.meshContext exWriteMapping.mesh.id = some mc ∧
      (mergeMapping exWriteMapping (exFinish exFluid [])).state.participant.meshContext
        exWriteMapping.mesh.id = some mc1 ∧
      mc1.mesh = mc.mesh ∧
      mc1.mappingContextOf exWriteMapping.direction =
        { mapping := some stored, localMesh := some localMesh,
          timing := exWriteMapping.timing } ∧
      stored.inputRequirement = exWriteMapping.mapping.inputRequirement ∧
      stored.outputRequirement = exWriteMapping.mapping.outputRequirement ∧
      (exWriteMapping.direction = Direction.WRITE →
        stored.input = some localMesh ∧ stored.output = some mc.mesh ∧
        mc1.readMappingContext = mc.readMappingContext) ∧
      (exWriteMapping.direction = Direction.READ →
        stored.input = some mc.mesh ∧ stored.output = some localMesh ∧
        mc1.writeMappingContext = mc.writeMappingContext) ∧
      (∀ present, (mc.mappingContextOf exWriteMapping.direction).localMesh = some present →
        localMesh = present ∧
        (mergeMapping exWriteMapping (exFinish exFluid [])).state.config.meshIDs =
          (exFinish exFluid []).config.meshIDs ∧
        (mergeMapping exWriteMapping (exFinish exFluid [])).state.config.dataIDs =
          (exFinish exFluid []).config.dataIDs) ∧
      ((mc.mappingContextOf exWriteMapping.direction).localMesh = none →
        localMesh = (copy (exFinish exFluid []).config.meshIDs
          (exFinish exFluid []).config.dataIDs mc.mesh).1 ∧
        localMesh.name = "Local_" ++ mc.mesh.name ∧
        localMesh.dimensions = mc.mesh.dimensions ∧
        localMesh.flipNormals = mc.mesh.flipNormals ∧
        localMesh.data.map Data.name = mc.mesh.data.map Data.name ∧
        localMesh.data.map Data.dimensions = mc.mesh.data.map Data.dimensions ∧
        (mergeMapping exWriteMapping (exFinish exFluid [])).state.config.meshIDs =
          (exFinish exFluid []).config.meshIDs + 1) :=
  ⟨by decide, mergeMapping_binds_meshes exWriteMapping (exFinish exFluid []) _ (by decide)⟩

/-- C14 (witness): the declaration of `Fluid` with one `use-mesh`. -/
theorem runEvents_distinct_meshes_witness :
    (runEvents exEvents exConfigEmpty).error? = none ∧
    (getParticipants (runEvents exEvents exConfigEmpty).state).length = 1 ∧
    (∀ p ∈ getParticipants (runEvents exEvents exConfigEmpty).state, p.DistinctMeshes) ∧
    (∀ (tag : XMLTag) (c2 : ParticipantConfiguration) (mesh : Mesh) (back : Participant),
      tag.name = TAG_USE_MESH →
      c2.meshConfig.getMesh (tag.getStringAttributeValue ATTR_NAME) = some mesh →
      c2.participants.getLast? = some back →
      back.isMeshUsed mesh.id = true →
      ∃ e, handleEvent (Event.started tag) c2 = Outcome.failed e c2) :=
  ⟨by decide, by decide,
    runEvents_distinct_meshes exEvents exConfigEmpty _ (by decide) (by decide)⟩

/-- A second `use-mesh name="Surface"` in the same participant is rejected and
leaves the configuration as it was after the first. -/
theorem runEvents_second_use_mesh_example :
    runEvents [Event.started exParticipantTag, Event.started exUseMeshTag,
        Event.started exUseMeshTag] exConfigEmpty =
      Outcome.failed ConfigError.ConsistencyError
        (runEvents [Event.started exParticipantTag, Event.started exUseMeshTag]
          exConfigEmpty).state := by
  decide

/-- C15 (witness): the finalization of `Fluid` with a pending action on the
unused mesh `Volume`. -/
theorem finish_failure_keeps_reached_state_witness :
    finishParticipantConfiguration { config := exConfigBadAction, participant := exFluid } =
      Outcome.failed ConfigError.UsageError
        (finishParticipantConfiguration
          { config := exConfigBadAction, participant := exFluid }).state ∧
    getParticipants (finishParticipantConfiguration
        { config := exConfigBadAction, participant := exFluid }).state.toConfiguration =
      exConfigBadAction.participants.dropLast ++
        [(finishParticipantConfiguration
          { config := exConfigBadAction, participant := exFluid }).state.participant] :=
  ⟨by decide,
    (finish_failure_keeps_reached_state { config := exConfigBadAction, participant := exFluid }
      _ ConfigError.UsageError (by decide)).2⟩

/-- C17 (witness): a write mapping and a read mapping on `Surface`, both with
declared requirement `TEMPORARY`, in both orders. -/
theorem mergeMappings_requirement_perm_witness :
    ∃ s2 mc1 mc2,
      forEach mergeMapping [exReadMappingTemporary, exWriteMapping] (exFinish exFluid []) =
        Outcome.done s2 ∧
      (forEach mergeMapping [exWriteMapping, exReadMappingTemporary]
        (exFinish exFluid [])).state.participant.meshContext 0 = some mc1 ∧
      s2.participant.meshContext 0 = some mc2 ∧
      mc1.meshRequirement = mc2.meshRequirement :=
  (mergeMappings_requirement_perm [exWriteMapping, exReadMappingTemporary]
    [exReadMappingTemporary, exWriteMapping] (exFinish exFluid []) _ 0 exContext
    (List.Perm.swap _ _ []) (by decide) (by decide) (by decide)).1

/-- C18 (witness): `Fluid` wrote data to `Surface` without `use-mesh`. -/
theorem finish_defers_usage_check_witness :
    ∃ e s1, finishParticipantConfiguration (exFinish exFluidUnbound []) = Outcome.failed e s1 ∧
      (resolveWriteData (mergeMappings (exFinish exFluidUnbound [])).state =
          Outcome.failed e s1 ∨
        ∃ b, resolveWriteData (mergeMappings (exFinish exFluidUnbound [])).state =
            Outcome.done b ∧ resolveReadData b = Outcome.failed e s1) ∧
      s1.participant.attachments = (exFinish exFluidUnbound []).participant.attachments :=
  (finish_defers_usage_check (exFinish exFluidUnbound []) _ Direction.WRITE exDataContext
    (by decide) (by decide) (by decide)).1

end precice
